import Mathlib

/-!
# asperitas: posts, votes and comments, their repositories, sessions, users and handlers

A shallow embedding of `internal/post` (`vote.go`, `post.go`, `comment.go`,
`repo_memory.go`, the comment and vote methods of `repo_mongo.go`),
`internal/session`, `internal/user` (both repositories), `internal/errs/errors.go`,
`pkg/rand` and of `internal/handlers` (`response.go` and the handlers of `posts.go` that
check an id).

Conventions of the embedding.

* A Go method that mutates its receiver and returns an `error` becomes a function
  returning the receiver after the call together with `Option GoError`
  (`none` is Go's `nil` error).
* A Go slice that may be `nil` is an `Option (List _)`: `none` is the nil slice,
  `some []` an allocated empty slice.
* `CommentList` is `[]*Comment`: an element of the slice is an `Option Comment`, and
  `none` is a nil pointer.  A function that can dereference a nil pointer returns an
  `Option`, and `none` is the run-time panic.
* Go's `int` and `int64` are `Int`.  The counters of a post built by `NewPost` start at 1
  and move by at most one per call (`vote_step_bounded` below), so no run of fewer than
  `2^62` calls leaves the 64-bit range and the conversion `int64(..)` is the identity.
* `time.Now()` and `rand.GetRandID()` are inputs of the functions that call them.
* The repository's `[]*Post` is a list of posts; the pointers stored in it are taken
  to be pairwise distinct, and the `sync.RWMutex` is not modelled (calls are run one
  after the other).
* `Views` is a `uint32`: `Views++` is taken modulo `2^32`.
* Only `DeletePost` is also given by its two locked sections, to follow what happens when
  another goroutine runs between them.
* A response body is given by the shape of its JSON document, not by its text.
* A library behind an interface or a function value (the mongo collection, the jwt
  parser, the session table) is given by what it answers; `sort.Slice` is a sort by the
  given `less`.
-/

namespace Asperitas

/-! ## internal/errs -/

/-- The struct `errs.MsgError`. -/
structure MsgError where
  Msg : String
  Status : Int
deriving DecidableEq, Repr

/-- The struct `errs.DetailError`. -/
structure DetailError where
  Location : String
  Param : String
  Value : String
  Msg : String
deriving DecidableEq, Repr

/-- The struct `errs.DetailErrors`. -/
structure DetailErrors where
  Errors : List DetailError
  Status : Int
deriving DecidableEq, Repr

/-- The Go `error` values that occur: `fmt.Errorf(text)` without a wrapped cause, an
`errs.MsgError`, an error value made by a library (the mongo driver, `database/sql`, the
jwt package), identified by its text, `fmt.Errorf(pfx + "%w", cause)`, and an
`errs.DetailErrors`. -/
inductive GoError where
  | errorf (text : String)
  | msgError (e : MsgError)
  | external (text : String)
  | wrapf (pfx : String) (cause : GoError)
  | detailErrors (e : DetailErrors)
deriving DecidableEq, Repr

/-- Go's `errors.Is(err, target)`: `err` or an error in its chain of causes equals
`target`. -/
def GoError.Is : GoError → GoError → Bool
  | GoError.wrapf pfx cause, target =>
    decide (GoError.wrapf pfx cause = target) || cause.Is target
  | err, target => decide (err = target)

/-- Go's `errors.As(err, &msgErr)` for a target of type `errs.MsgError`: the first
`MsgError` in the chain of causes of `err`. -/
def GoError.AsMsgError : GoError → Option MsgError
  | GoError.msgError e => some e
  | GoError.wrapf _ cause => cause.AsMsgError
  | _ => none

/-- Go's `errors.As(err, &detailErrs)` for a target of type `errs.DetailErrors`: the first
`DetailErrors` in the chain of causes of `err`. -/
def GoError.AsDetailErrors : GoError → Option DetailErrors
  | GoError.detailErrors e => some e
  | GoError.wrapf _ cause => cause.AsDetailErrors
  | _ => none

/-- One element of the array `errors` of an error body; the field `value` carries the
tag `omitempty` and is absent (`none`) when the Go string is empty. -/
structure ErrorItem where
  location : String
  param : String
  value : Option String
  msg : String
deriving DecidableEq, Repr

/-! ## internal/user -/

/-- The struct `user.User`. -/
structure User where
  Username : String
  ID : String
  Password : String
deriving DecidableEq, Repr

/-! ## internal/post/vote.go -/

/-- The type `VoteValue`, a Go `int`. -/
abbrev VoteValue := Int

/-- The constant `Like`. -/
def Like : VoteValue := 1

/-- The constant `Dislike`. -/
def Dislike : VoteValue := -1

/-- The struct `Vote`. -/
structure Vote where
  UserID : String
  Value : VoteValue
deriving DecidableEq, Repr

/-- The struct `VoteList`; `List = none` is the nil slice. -/
structure VoteList where
  List : Option (List Vote)
  LikesCount : Int
deriving DecidableEq, Repr

/-- The loop `for i, x := range xs { if p x { ...; break } }`: the index and the value of
the first element that satisfies `p`, or `none` when the loop runs to its end. -/
def rangeFind {α : Type} (p : α → Bool) : List α → Option (Nat × α)
  | [] => none
  | x :: xs =>
    if p x then some (0, x)
    else (rangeFind p xs).map (fun r => (r.1 + 1, r.2))

/-- Go's `NewVoteList`. -/
def NewVoteList (id : String) : VoteList :=
  { List := some [{ Value := Like, UserID := id }], LikesCount := 1 }

/-- Go's `(*VoteList).Upvote`. -/
def VoteList.Upvote (l : VoteList) (userID : String) : VoteList × Option GoError :=
  match l.List with
  | none => (l, some (GoError.errorf "nil vote list"))
  | some votes =>
    let likes := l.LikesCount + 1
    match rangeFind (fun vote => vote.UserID == userID) votes with
    | some (i, vote) =>
      ({ List := some (votes.set i { vote with Value := Like }), LikesCount := likes }, none)
    | none =>
      ({ List := some (votes ++ [{ UserID := userID, Value := Like }]), LikesCount := likes },
        none)

/-- Go's `(*VoteList).Downvote`. -/
def VoteList.Downvote (l : VoteList) (userID : String) : VoteList × Option GoError :=
  match l.List with
  | none => (l, some (GoError.errorf "nil vote list"))
  | some votes =>
    match rangeFind (fun vote => vote.UserID == userID) votes with
    | some (i, vote) =>
      let likes := if vote.Value = Like then l.LikesCount - 1 else l.LikesCount
      ({ List := some (votes.set i { vote with Value := Dislike }), LikesCount := likes }, none)
    | none =>
      ({ List := some (votes ++ [{ UserID := userID, Value := Dislike }]),
         LikesCount := l.LikesCount }, none)

/-- Go's `(*VoteList).Unvote`: `l.List[i] = l.List[len-1]; l.List = l.List[:len-1]`.
The default of `getD` is never used: the loop found an entry, so the slice is not empty. -/
def VoteList.Unvote (l : VoteList) (userID : String) : VoteList × Option GoError :=
  match l.List with
  | none => (l, some (GoError.errorf "nil vote list"))
  | some votes =>
    match rangeFind (fun vote => vote.UserID == userID) votes with
    | some (i, vote) =>
      let likes := if vote.Value = Like then l.LikesCount - 1 else l.LikesCount
      let last := votes.getD (votes.length - 1) vote
      ({ List := some ((votes.set i last).take (votes.length - 1)), LikesCount := likes }, none)
    | none => (l, none)

/-! ## internal/post/comment.go and post.go -/

/-- The type `time.Time`, as an instant in nanoseconds. -/
abbrev Time := Int

/-- The struct `Comment`. -/
structure Comment where
  Created : Time
  CreatedFormat : String
  Author : User
  Body : String
  ID : String
deriving DecidableEq, Repr

/-- The type `CommentList`, the slice `[]*Comment`: `none` is the nil slice, and an
element `none` is a nil pointer (`json.Decode` stores one for a `null` in the array
`comments`, and `Add(nil)` appends one). -/
abbrev CommentList := Option (List (Option Comment))

/-- Go's `(*CommentList).Add`; `comm` is a pointer, which is appended as it is. -/
def CommentList.Add (list : CommentList) (comm : Option Comment) :
    CommentList × Option GoError :=
  match list with
  | none => (none, some (GoError.errorf "nil comment list"))
  | some comms => (some (comms ++ [comm]), none)

/-- The loop `for idx, x := range xs { if p(*x) { i = idx; break } }` over a slice of
pointers.  The test reads a field of the element, so the loop panics (the result `none`)
at a nil element that it reaches.  Otherwise the result is `some (some (i, x))`, the index
and the value of the first element that satisfies `p`, or `some none` when the loop runs
to its end.  An element behind the first match is not read. -/
def rangeFindDeref {α : Type} (p : α → Bool) : List (Option α) → Option (Option (Nat × α))
  | [] => some none
  | none :: _ => none
  | some x :: xs =>
    if p x then some (some (0, x))
    else (rangeFindDeref p xs).map (fun r => r.map (fun m => (m.1 + 1, m.2)))

/-- Go's `(*CommentList).Delete`; the result `none` is the panic of the lookup loop at a
nil element.  `(*list)[i]` is the comment that the loop found, and
`(*list)[i] = (*list)[len(*list)-1]` copies a pointer without reading what it points to.
The default of `getD` is never used: the loop found a comment, so the slice is not empty. -/
def CommentList.Delete (list : CommentList) (id reqID : String) :
    Option (CommentList × Option GoError) :=
  match list with
  | none => some (none, some (GoError.errorf "nil comment list"))
  | some comms =>
    match rangeFindDeref (fun comm => comm.ID == id) comms with
    | none => none
    | some none =>
      some (some comms, some (GoError.msgError { Msg := "comment not found", Status := 404 }))
    | some (some (i, comm)) =>
      if comm.Author.ID != reqID then
        some (some comms, some (GoError.msgError { Msg := "unauthorized", Status := 401 }))
      else
        let last := comms.getD (comms.length - 1) (some comm)
        some (some ((comms.set i last).take (comms.length - 1)), none)

/-- The struct `Post`.  `Typ` is the Go field `Type`; `PostType` and `PostCategory` are
Go string types.  `Views` is a `uint32`: a number below `2^32`. -/
structure Post where
  Score : Int
  Views : Nat
  Typ : String
  Title : String
  URL : String
  Author : User
  Category : String
  Text : String
  Votes : VoteList
  Comments : CommentList
  Created : Time
  CreatedFormat : String
  LikesPercent : Int
  ID : String
deriving DecidableEq, Repr

/-- The number of entries of the vote slice, `len(l.List)` (0 for the nil slice). -/
def VoteList.len (l : VoteList) : Nat :=
  match l.List with
  | none => 0
  | some votes => votes.length

/-- Go's `(*Post).updatePostScore`; Go's `/` on `int` truncates toward zero. -/
def Post.updatePostScore (p : Post) : Post :=
  let score : Int := 2 * p.Votes.LikesCount - p.Votes.len
  if p.Votes.len = 0 then
    { p with Score := score, LikesPercent := 0 }
  else
    { p with Score := score, LikesPercent := (p.Votes.LikesCount * 100).tdiv p.Votes.len }

/-- Go's `NewPost`; `t` is the result of `time.Now()`, `created` the string
`t.Format(time.RFC3339Nano)` and `id` the result of `rand.GetRandID()`.  The fields
that the composite literal leaves out hold Go's zero values. -/
def NewPost (usr : User) (t : Time) (created : String) (id : String) : Post :=
  { Score := 1
    Views := 0
    Typ := ""
    Title := ""
    URL := ""
    Author := usr
    Category := ""
    Text := ""
    Created := t
    CreatedFormat := created
    Votes := NewVoteList usr.ID
    Comments := some []
    LikesPercent := 100
    ID := id }

/-! ## internal/post/repo_memory.go -/

/-- The struct `PostMemoryRepository` (without its mutex). -/
structure PostMemoryRepository where
  data : List Post
deriving DecidableEq, Repr

/-- Go's `NewMemoryRepo`. -/
def NewMemoryRepo : PostMemoryRepository :=
  { data := [] }

/-- Go's `(*PostMemoryRepository).AddPost`; it always returns a nil error. -/
def PostMemoryRepository.AddPost (repo : PostMemoryRepository) (p : Post) :
    PostMemoryRepository × Option GoError :=
  ({ data := repo.data ++ [p] }, none)

/-- The statements that follow `err := p.Votes.<Op>(userID)` in the three vote methods of
the in-memory repository: the score is recomputed when `err == nil`. -/
def inlineScore (p : Post) (r : VoteList × Option GoError) : Post :=
  let p1 := { p with Votes := r.1 }
  match r.2 with
  | none =>
    let score : Int := 2 * p1.Votes.LikesCount - p1.Votes.len
    if p1.Votes.len = 0 then
      { p1 with Score := score, LikesPercent := 0 }
    else
      { p1 with Score := score, LikesPercent := (p1.Votes.LikesCount * 100).tdiv p1.Votes.len }
  | some _ => p1

/-- Go's `(*PostMemoryRepository).UpvotePost`: the repository after the call, the
returned post (`none` is the nil pointer) and the returned error. -/
def PostMemoryRepository.UpvotePost (repo : PostMemoryRepository) (postID userID : String) :
    PostMemoryRepository × Option Post × Option GoError :=
  match rangeFind (fun post => post.ID == postID) repo.data with
  | none => (repo, none, some (GoError.msgError { Msg := "post not found", Status := 404 }))
  | some (i, p) =>
    let r := p.Votes.Upvote userID
    let p1 := inlineScore p r
    ({ data := repo.data.set i p1 }, some p1, r.2)

/-- Go's `(*PostMemoryRepository).DownvotePost`. -/
def PostMemoryRepository.DownvotePost (repo : PostMemoryRepository) (postID userID : String) :
    PostMemoryRepository × Option Post × Option GoError :=
  match rangeFind (fun post => post.ID == postID) repo.data with
  | none => (repo, none, some (GoError.msgError { Msg := "post not found", Status := 404 }))
  | some (i, p) =>
    let r := p.Votes.Downvote userID
    let p1 := inlineScore p r
    ({ data := repo.data.set i p1 }, some p1, r.2)

/-- Go's `(*PostMemoryRepository).UnvotePost`. -/
def PostMemoryRepository.UnvotePost (repo : PostMemoryRepository) (postID userID : String) :
    PostMemoryRepository × Option Post × Option GoError :=
  match rangeFind (fun post => post.ID == postID) repo.data with
  | none => (repo, none, some (GoError.msgError { Msg := "post not found", Status := 404 }))
  | some (i, p) =>
    let r := p.Votes.Unvote userID
    let p1 := inlineScore p r
    ({ data := repo.data.set i p1 }, some p1, r.2)

/-- Go's `sort.Slice(xs, less)`, which sorts `xs` by `less` with an unspecified, not
stable algorithm.  Insertion sort stands for it; the properties below use only that the
result is a rearrangement of `xs` in which no element is `less` than an earlier one. -/
def sortSlice {α : Type} (less : α → α → Bool) (xs : List α) : List α :=
  xs.insertionSort (fun a b => less b a = false)

/-- The `less` function of `GetAll` and `GetByCategory`; `Created.Before` is `<` on
instants. -/
def lessByScore (a b : Post) : Bool :=
  if a.Score = b.Score then decide (a.Created < b.Created)
  else decide (a.Score > b.Score)

/-- The `less` function of `GetByUser`; `Created.After` is `>` on instants. -/
def lessByCreated (a b : Post) : Bool :=
  decide (a.Created > b.Created)

/-- Go's `(*PostMemoryRepository).GetAll`.  `result := repo.data` shares the stored slice,
so sorting the result reorders the repository as well. -/
def PostMemoryRepository.GetAll (repo : PostMemoryRepository) :
    PostMemoryRepository × List Post × Option GoError :=
  let result := sortSlice lessByScore repo.data
  ({ data := result }, result, none)

/-- Go's `(*PostMemoryRepository).GetByCategory`. -/
def PostMemoryRepository.GetByCategory (repo : PostMemoryRepository) (categoryName : String) :
    List Post × Option GoError :=
  let result := repo.data.filter (fun post => post.Category == categoryName)
  (sortSlice lessByScore result, none)

/-- Go's `(*PostMemoryRepository).GetByUser`. -/
def PostMemoryRepository.GetByUser (repo : PostMemoryRepository) (username : String) :
    List Post × Option GoError :=
  let result := repo.data.filter (fun post => post.Author.Username == username)
  (sortSlice lessByCreated result, none)

/-- Go's `(*PostMemoryRepository).GetByID`; `post.Views++` on a `uint32` wraps at `2^32`. -/
def PostMemoryRepository.GetByID (repo : PostMemoryRepository) (id : String) :
    PostMemoryRepository × Option Post × Option GoError :=
  match rangeFind (fun post => post.ID == id) repo.data with
  | some (i, post) =>
    let post1 := { post with Views := (post.Views + 1) % 4294967296 }
    ({ data := repo.data.set i post1 }, some post1, none)
  | none => (repo, none, some (GoError.msgError { Msg := "post not found", Status := 404 }))

/-- Go's `(*PostMemoryRepository).DeletePost`.  The default of `getD` is never used. -/
def PostMemoryRepository.DeletePost (repo : PostMemoryRepository) (postID userID : String) :
    PostMemoryRepository × Option GoError :=
  match rangeFind (fun post => post.ID == postID) repo.data with
  | none => (repo, some (GoError.msgError { Msg := "post not found", Status := 404 }))
  | some (i, post) =>
    if post.Author.ID != userID then
      (repo, some (GoError.msgError { Msg := "unauthorized", Status := 401 }))
    else
      let last := repo.data.getD (repo.data.length - 1) post
      ({ data := (repo.data.set i last).take (repo.data.length - 1) },
        some (GoError.msgError { Msg := "success", Status := 200 }))

/-- Go's `(*PostMemoryRepository).AddComment`. -/
def PostMemoryRepository.AddComment (repo : PostMemoryRepository) (postID : String)
    (comm : Option Comment) : PostMemoryRepository × Option Post × Option GoError :=
  match rangeFind (fun post => post.ID == postID) repo.data with
  | none => (repo, none, some (GoError.msgError { Msg := "post not found", Status := 404 }))
  | some (i, p) =>
    match p.Comments.Add comm with
    | (_, some err) => (repo, none, some err)
    | (comments, none) =>
      let p1 := { p with Comments := comments }
      ({ data := repo.data.set i p1 }, some p1, none)

/-- Go's `(*PostMemoryRepository).DeleteComment`: `return p, err`, also when `err` is not
nil.  The result `none` is the panic of `Delete`, which the method does not recover. -/
def PostMemoryRepository.DeleteComment (repo : PostMemoryRepository)
    (postID commID userID : String) :
    Option (PostMemoryRepository × Option Post × Option GoError) :=
  match rangeFind (fun post => post.ID == postID) repo.data with
  | none =>
    some (repo, none, some (GoError.msgError { Msg := "post not found", Status := 404 }))
  | some (i, p) =>
    match p.Comments.Delete commID userID with
    | none => none
    | some r =>
      let p1 := { p with Comments := r.1 }
      some ({ data := repo.data.set i p1 }, some p1, r.2)

/-! ## internal/post/repo_mongo.go -/

/-- The driver's sentinel `mongo.ErrNoDocuments`. -/
def ErrNoDocuments : GoError :=
  GoError.external "mongo: no documents in result"

/-- The interface `MongoSingleResult`, by what its methods answer: `err` is the result of
`Err()`, `decoded` the post that `Decode` stores into its argument and `decodeErr` the
error that `Decode` returns. -/
structure MongoSingleResult where
  err : Option GoError
  decoded : Post
  decodeErr : Option GoError

/-- The interface `MongoCollection`, by what its methods answer: `FindOne id` for the
filter `bson.M{"id": id}`, and the error of `UpdateOne` for that filter and the fields
taken from the given post. -/
structure MongoCollection where
  FindOne : String → MongoSingleResult
  UpdateOne : String → Post → Option GoError

/-- The struct `PostRepositoryMongo`. -/
structure PostRepositoryMongo where
  coll : MongoCollection

/-- Go's `findPost`: the post, or the error next to which Go returns a nil post. -/
def findPost (coll : MongoCollection) (id : String) : Except GoError Post :=
  let res := coll.FindOne id
  let noDocuments :=
    match res.err with
    | some e => e.Is ErrNoDocuments
    | none => false
  if noDocuments then
    Except.error (GoError.msgError { Msg := "post not found", Status := 404 })
  else
    match res.decodeErr with
    | some e => Except.error (GoError.wrapf "mongo decode err: " e)
    | none => Except.ok res.decoded

/-- The end shared by the mongo methods that change a post: `UpdateOne`, then
`return p, nil`. -/
def updateAndReturn (coll : MongoCollection) (postID : String) (p : Post) :
    Option Post × Option GoError :=
  match coll.UpdateOne postID p with
  | some e => (none, some (GoError.wrapf "mongo update one err: " e))
  | none => (some p, none)

/-- Go's `(*PostRepositoryMongo).DeleteComment`.  The result `none` is the panic of
`Delete`, which the method does not recover. -/
def PostRepositoryMongo.DeleteComment (repo : PostRepositoryMongo)
    (postID commID userID : String) : Option (Option Post × Option GoError) :=
  match findPost repo.coll postID with
  | Except.error err => some (none, some err)
  | Except.ok p =>
    match p.Comments.Delete commID userID with
    | none => none
    | some (_, some err) => some (none, some err)
    | some (comments, none) =>
      some (updateAndReturn repo.coll postID { p with Comments := comments })

/-- Go's `(*PostRepositoryMongo).UpvotePost`. -/
def PostRepositoryMongo.UpvotePost (repo : PostRepositoryMongo) (postID userID : String) :
    Option Post × Option GoError :=
  match findPost repo.coll postID with
  | Except.error err => (none, some err)
  | Except.ok p =>
    match p.Votes.Upvote userID with
    | (_, some err) => (none, some err)
    | (votes, none) =>
      updateAndReturn repo.coll postID (Post.updatePostScore { p with Votes := votes })

/-- Go's `(*PostRepositoryMongo).DownvotePost`. -/
def PostRepositoryMongo.DownvotePost (repo : PostRepositoryMongo) (postID userID : String) :
    Option Post × Option GoError :=
  match findPost repo.coll postID with
  | Except.error err => (none, some err)
  | Except.ok p =>
    match p.Votes.Downvote userID with
    | (_, some err) => (none, some err)
    | (votes, none) =>
      updateAndReturn repo.coll postID (Post.updatePostScore { p with Votes := votes })

/-- Go's `(*PostRepositoryMongo).UnvotePost`. -/
def PostRepositoryMongo.UnvotePost (repo : PostRepositoryMongo) (postID userID : String) :
    Option Post × Option GoError :=
  match findPost repo.coll postID with
  | Except.error err => (none, some err)
  | Except.ok p =>
    match p.Votes.Unvote userID with
    | (_, some err) => (none, some err)
    | (votes, none) =>
      updateAndReturn repo.coll postID (Post.updatePostScore { p with Votes := votes })

/-! ## internal/session -/

/-- The struct `Claims`; of the embedded `jwt.RegisteredClaims` the two dates that the
package sets, `none` being the nil pointer. -/
structure Claims where
  User : User
  SessionID : String
  IssuedAt : Option Time
  ExpiresAt : Option Time
deriving DecidableEq, Repr

/-- What `jwt.ParseWithClaims(tokenString, &claims, keyFunc)` answers: the claims it has
filled in, the flag `token.Valid` and its error.  The jwt package returns a non-nil error
for every token that it cannot parse, whose signature does not verify or whose claims are
not valid (an expired token among them). -/
structure JwtParsed where
  claims : Claims
  valid : Bool
  err : Option GoError

/-- Go's `ExtractJwtClaims`; `parse` is `jwt.ParseWithClaims` with the key of the
package. -/
def ExtractJwtClaims (parse : String → JwtParsed) (tokenString : String) :
    Claims × Option GoError :=
  let parsed := parse tokenString
  match parsed.err with
  | some err => (parsed.claims, some (GoError.wrapf "jwt parse err: " err))
  | none =>
    if !parsed.valid then
      (parsed.claims, some (GoError.msgError { Msg := "unauthorized", Status := 401 }))
    else (parsed.claims, none)

/-- Go's `unicode.IsSpace`. -/
def isSpace (c : Char) : Bool :=
  (9 ≤ c.toNat && c.toNat ≤ 13) || c.toNat == 32 || c.toNat == 0x85 || c.toNat == 0xA0 ||
  c.toNat == 0x1680 || (0x2000 ≤ c.toNat && c.toNat ≤ 0x200A) || c.toNat == 0x2028 ||
  c.toNat == 0x2029 || c.toNat == 0x202F || c.toNat == 0x205F || c.toNat == 0x3000

/-- The scan of `strings.Fields`: `cur` holds, last character first, the field being
read. -/
def fieldsLoop : List Char → List Char → List String
  | [], cur => if cur.isEmpty then [] else [String.mk cur.reverse]
  | c :: cs, cur =>
    if isSpace c then
      if cur.isEmpty then fieldsLoop cs []
      else String.mk cur.reverse :: fieldsLoop cs []
    else fieldsLoop cs (c :: cur)

/-- Go's `strings.Fields`: the maximal runs of characters that are not white space. -/
def Fields (s : String) : List String :=
  fieldsLoop s.toList []

/-- The table `sessions` behind `sm.db`: the stored session ids, and the failure, if any,
with which the database answers a query. -/
structure SessionDB where
  sessions : List String
  failure : Option GoError

/-- The sentinel `sql.ErrNoRows`. -/
def ErrNoRows : GoError :=
  GoError.external "sql: no rows in result set"

/-- The error of `QueryRow("SELECT ... WHERE session_id = ?", id).Scan(..)`. -/
def SessionDB.scan (db : SessionDB) (id : String) : Option GoError :=
  match db.failure with
  | some e => some e
  | none => if db.sessions.contains id then none else some ErrNoRows

/-- The struct `SessionManagerMySQL`. -/
structure SessionManagerMySQL where
  db : SessionDB

/-- Go's `(*SessionManagerMySQL).Check`; `user.User{}` is the user of empty strings. -/
def SessionManagerMySQL.Check (sm : SessionManagerMySQL) (parse : String → JwtParsed)
    (authHeader : String) : User × Option GoError :=
  let unauthorized := GoError.msgError { Msg := "unauthorized", Status := 401 }
  match Fields authHeader with
  | [scheme, token] =>
    if scheme != "Bearer" then ({ Username := "", ID := "", Password := "" }, some unauthorized)
    else
      match ExtractJwtClaims parse token with
      | (_, some err) => ({ Username := "", ID := "", Password := "" }, some err)
      | (claims, none) =>
        match sm.db.scan claims.SessionID with
        | none => (claims.User, none)
        | some err =>
          if err.Is ErrNoRows then
            ({ Username := "", ID := "", Password := "" }, some unauthorized)
          else ({ Username := "", ID := "", Password := "" },
            some (GoError.wrapf "mysql scan err: " err))
  | _ => ({ Username := "", ID := "", Password := "" }, some unauthorized)

/-! ## pkg/rand -/

/-- The constant `LengthOfID`. -/
def LengthOfID : Nat := 24

/-- The digit that `%x` prints for a number below 16. -/
def hexDigit (n : Nat) : Char :=
  "0123456789abcdef".toList.getD n '0'

/-- What `fmt.Sprintf("%x", ..)` prints for one byte: two lowercase hexadecimal digits. -/
def hexByte (b : Nat) : List Char :=
  [hexDigit (b / 16), hexDigit (b % 16)]

/-- Go's `GetRandID`; `read i` is the value that `rand.Read` leaves in byte `i` of the
slice of `LengthOfID/2` bytes. -/
def GetRandID (read : Nat → Nat) : String :=
  String.mk ((List.range (LengthOfID / 2)).flatMap (fun i => hexByte (read i % 256)))

/-! ## internal/user/repo_memory.go and repo_mysql.go -/

/-- The struct `UserMemoryRepository` (without its mutex); the Go map `data` is the
partial function from usernames to users. -/
structure UserMemoryRepository where
  data : String → Option User

/-- Go's `(*UserMemoryRepository).Authorize`. -/
def UserMemoryRepository.Authorize (repo : UserMemoryRepository) (username passw : String) :
    Option User × Option GoError :=
  match repo.data username with
  | none => (none, some (GoError.msgError { Msg := "user not found", Status := 401 }))
  | some usr =>
    if usr.Password != passw then
      (none, some (GoError.msgError { Msg := "invalid password", Status := 401 }))
    else (some usr, none)

/-- Go's `(*UserMemoryRepository).SignUp`; `read` is the randomness of `rand.GetRandID()`. -/
def UserMemoryRepository.SignUp (repo : UserMemoryRepository) (read : Nat → Nat)
    (username passw : String) : UserMemoryRepository × Option User × Option GoError :=
  match repo.data username with
  | some _ =>
    (repo, none, some (GoError.detailErrors
      { Errors := [{ Location := "body", Param := "username", Value := username,
                     Msg := "already exists" }],
        Status := 422 }))
  | none =>
    let usr : User := { ID := GetRandID read, Username := username, Password := passw }
    ({ data := fun name => if name = username then some usr else repo.data name },
      some usr, none)

/-- The table `users` behind `repo.db`: its rows, the failure, if any, with which the
database answers a `SELECT`, and the failure, if any, with which it answers an `INSERT`. -/
structure UsersDB where
  rows : List User
  queryFailure : Option GoError
  execFailure : Option GoError

/-- What `QueryRow("SELECT id, password FROM users WHERE username = ?", username).Scan(..)`
answers: the id and the password of the first row of that username, the sentinel
`sql.ErrNoRows` when there is none, or the failure of the database. -/
def UsersDB.scan (db : UsersDB) (username : String) : Except GoError (String × String) :=
  match db.queryFailure with
  | some e => Except.error e
  | none =>
    match rangeFind (fun row => row.Username == username) db.rows with
    | some (_, row) => Except.ok (row.ID, row.Password)
    | none => Except.error ErrNoRows

/-- The struct `UserRepositoryMySQL`. -/
structure UserRepositoryMySQL where
  db : UsersDB

/-- Go's `(*UserRepositoryMySQL).Authorize`. -/
def UserRepositoryMySQL.Authorize (repo : UserRepositoryMySQL) (username passw : String) :
    Option User × Option GoError :=
  match repo.db.scan username with
  | Except.error err =>
    if err.Is ErrNoRows then
      (none, some (GoError.msgError { Msg := "user not found", Status := 401 }))
    else (none, some (GoError.wrapf "mysql scan err: " err))
  | Except.ok (id, password) =>
    let usr : User := { Username := username, ID := id, Password := password }
    if usr.Password != passw then
      (none, some (GoError.msgError { Msg := "invalid password", Status := 401 }))
    else (some usr, none)

/-- Go's `(*UserRepositoryMySQL).SignUp`. -/
def UserRepositoryMySQL.SignUp (repo : UserRepositoryMySQL) (read : Nat → Nat)
    (username passw : String) : UserRepositoryMySQL × Option User × Option GoError :=
  match repo.db.scan username with
  | Except.error err =>
    if err.Is ErrNoRows then
      let usr : User := { Username := username, ID := GetRandID read, Password := passw }
      match repo.db.execFailure with
      | some e => (repo, none, some (GoError.wrapf "mysql exec insert err: " e))
      | none => ({ db := { repo.db with rows := repo.db.rows ++ [usr] } }, some usr, none)
    else (repo, none, some (GoError.wrapf "mysql scan err: " err))
  | Except.ok _ =>
    (repo, none, some (GoError.detailErrors
      { Errors := [{ Location := "body", Param := "username", Value := username,
                     Msg := "already exists" }],
        Status := 422 }))

/-! ## internal/session/session.go: NewSession -/

/-- The struct `Session`. -/
structure Session where
  Token : String
  ID : String
deriving DecidableEq, Repr

/-- What `jwt.NewNumericDate(t)` keeps of `t`: the instant cut down to the precision
`jwt.TimePrecision` of one second (instants are in nanoseconds). -/
def NewNumericDate (t : Time) : Time :=
  t - t % 1000000000

/-- The duration `7 * 24 * time.Hour` in nanoseconds. -/
def sevenDays : Int := 7 * 24 * 3600000000000

/-- The claims that `NewSession` builds; `now1` and `now2` are the results of its two
calls of `time.Now()`, in the order of the source. -/
def newSessionClaims (usr : User) (randID : String) (now1 now2 : Time) : Claims :=
  { User := usr
    SessionID := randID
    IssuedAt := some (NewNumericDate now1)
    ExpiresAt := some (NewNumericDate (now2 + sevenDays)) }

/-- Go's `NewSession`; `usr = none` is the nil pointer, `randID` the result of
`rand.GetRandID()` and `sign claims` the result of
`jwt.NewWithClaims(jwt.SigningMethodHS256, claims).SignedString(key)`. -/
def NewSession (usr : Option User) (randID : String) (now1 now2 : Time)
    (sign : Claims → String × Option GoError) : Session × Option GoError :=
  match usr with
  | none => ({ Token := "", ID := "" }, some (GoError.errorf "nil input user"))
  | some u =>
    match sign (newSessionClaims u randID now1 now2) with
    | (_, some err) => ({ Token := "", ID := "" }, some err)
    | (tokenString, none) => ({ Token := tokenString, ID := randID }, none)

/-! ## internal/handlers -/

/-- The JSON documents that the handlers write, by their shape: the object with the one
field `message`, the object with the one field `errors`, the encoding of a post, and
`null`. -/
inductive Json where
  | message (msg : String)
  | errors (items : List ErrorItem)
  | post (p : Post)
  | null
deriving DecidableEq, Repr

/-- What `json.Marshal` makes of a `*Post`; the nil pointer is encoded as `null`. -/
def postJson (p : Option Post) : Json :=
  match p with
  | some post => Json.post post
  | none => Json.null

/-- Go's `MsgError.Error`: the JSON encoding of the struct, whose field `Status` carries
the tag `json:"-"`.  `json.Marshal` does not fail on a struct of strings, so the fallback
text of the source is not reached. -/
def MsgError.Error (e : MsgError) : Json :=
  Json.message e.Msg

/-- Go's `DetailErrors.Error`: the JSON encoding of the struct. -/
def DetailErrors.Error (e : DetailErrors) : Json :=
  Json.errors (e.Errors.map (fun d =>
    { location := d.Location, param := d.Param,
      value := if d.Value = "" then none else some d.Value, msg := d.Msg }))

/-- What a handler has written to its `http.ResponseWriter`: the status code and the
body. -/
structure Response where
  code : Int
  body : Json
deriving DecidableEq, Repr

/-- Go's `WriteAndLogErr` (the log lines are left out); the text written in the default
case is the JSON object with the message "internal server error". -/
def WriteAndLogErr (err : GoError) : Response :=
  match err.AsDetailErrors with
  | some detailErrs => { code := detailErrs.Status, body := detailErrs.Error }
  | none =>
    match err.AsMsgError with
    | some msgErr => { code := msgErr.Status, body := msgErr.Error }
    | none => { code := 500, body := Json.message "internal server error" }

/-- Go's `WriteAndLogData`; `data` is the result of `json.Marshal(v)`, and the status stays
at its default 200. -/
def WriteAndLogData (data : Json) : Response :=
  { code := 200, body := data }

/-- The interface `session.SessionManager`, by what `Check` answers. -/
structure SessionManager where
  Check : String → User × Option GoError

/-- The interface `post.PostRepo`, by what the methods used below answer. -/
structure PostRepo where
  GetByID : String → Option Post × Option GoError
  DeletePost : String → String → Option GoError
  AddComment : String → Comment → Option Post × Option GoError
  DeleteComment : String → String → String → Option Post × Option GoError
  UpvotePost : String → String → Option Post × Option GoError
  DownvotePost : String → String → Option Post × Option GoError
  UnvotePost : String → String → Option Post × Option GoError

/-- The struct `PostHandler` (without its logger). -/
structure PostHandler where
  Sess : SessionManager
  Repo : PostRepo

/-- The calls that a handler makes on its session manager and its repository. -/
inductive Call where
  | check (authHeader : String)
  | getByID (id : String)
  | deletePost (postID userID : String)
  | addComment (postID : String) (comm : Comment)
  | deleteComment (postID commID userID : String)
  | upvotePost (postID userID : String)
  | downvotePost (postID userID : String)
  | unvotePost (postID userID : String)
deriving DecidableEq, Repr

/-- What a handler reads of its `*http.Request`: the route variables `mux.Vars(r)` (the
empty string for a missing key), the header `Authorization`, and the result of decoding
the body into `struct{ Comment string }`: the field `Comment` or the error of `Decode`. -/
structure Request where
  vars : String → String
  authorization : String
  comment : Except GoError String

/-- What a handler has done: the response written and the calls made, in order. -/
structure Handled where
  resp : Response
  calls : List Call

/-- Go's `isValid`: the id, or the response written when the check fails.  `len(id)` is
the number of bytes of the string. -/
def isValid (reqID respMsg : String) (r : Request) : Except Response String :=
  let id := r.vars reqID
  if id.utf8ByteSize != LengthOfID then
    Except.error (WriteAndLogErr (GoError.msgError { Msg := respMsg, Status := 400 }))
  else Except.ok id

/-- Go's `sessionCheck`: the user, or the response written when the check fails. -/
def sessionCheck (r : Request) (sm : SessionManager) : Except Response User :=
  match sm.Check r.authorization with
  | (_, some err) => Except.error (WriteAndLogErr err)
  | (usr, none) => Except.ok usr

/-- Go's `NewComment`; `t`, `created` and `id` are as in `NewPost`. -/
def NewComment (usr : User) (body : String) (t : Time) (created id : String) : Comment :=
  { Created := t, CreatedFormat := created, Author := usr, Body := body, ID := id }

/-- Go's `(*PostHandler).ShowPost`. -/
def PostHandler.ShowPost (h : PostHandler) (r : Request) : Handled :=
  match isValid "postID" "invalid post id" r with
  | Except.error resp => { resp := resp, calls := [] }
  | Except.ok id =>
    match h.Repo.GetByID id with
    | (_, some err) => { resp := WriteAndLogErr err, calls := [Call.getByID id] }
    | (p, none) => { resp := WriteAndLogData (postJson p), calls := [Call.getByID id] }

/-- Go's `(*PostHandler).DeletePost`.  The type assertion `err.(errs.MsgError)` holds for
a `MsgError` itself only; on a nil error `WriteAndLogErr` takes its default case. -/
def PostHandler.DeletePost (h : PostHandler) (r : Request) : Handled :=
  match isValid "postID" "invalid post id" r with
  | Except.error resp => { resp := resp, calls := [] }
  | Except.ok postID =>
    match sessionCheck r h.Sess with
    | Except.error resp => { resp := resp, calls := [Call.check r.authorization] }
    | Except.ok usr =>
      let calls := [Call.check r.authorization, Call.deletePost postID usr.ID]
      match h.Repo.DeletePost postID usr.ID with
      | some (GoError.msgError msgErr) =>
        if msgErr.Status == 200 then
          { resp := WriteAndLogData msgErr.Error, calls := calls }
        else { resp := WriteAndLogErr (GoError.msgError msgErr), calls := calls }
      | some err => { resp := WriteAndLogErr err, calls := calls }
      | none =>
        { resp := { code := 500, body := Json.message "internal server error" },
          calls := calls }

/-- Go's `(*PostHandler).CreateComment`; `t`, `created` and `id` are the clock reading and
the random id that `NewComment` takes. -/
def PostHandler.CreateComment (h : PostHandler) (r : Request) (t : Time)
    (created id : String) : Handled :=
  match isValid "postID" "invalid post id" r with
  | Except.error resp => { resp := resp, calls := [] }
  | Except.ok postID =>
    match sessionCheck r h.Sess with
    | Except.error resp => { resp := resp, calls := [Call.check r.authorization] }
    | Except.ok usr =>
      match r.comment with
      | Except.error err =>
        { resp := WriteAndLogErr err, calls := [Call.check r.authorization] }
      | Except.ok comment =>
        if comment == "" then
          { resp := WriteAndLogErr (GoError.detailErrors
              { Errors := [{ Location := "body", Param := "comment", Value := "",
                             Msg := "is required" }],
                Status := 422 }),
            calls := [Call.check r.authorization] }
        else
          let comm := NewComment usr comment t created id
          match h.Repo.AddComment postID comm with
          | (_, some err) =>
            { resp := WriteAndLogErr err,
              calls := [Call.check r.authorization, Call.addComment postID comm] }
          | (p, none) =>
            { resp := WriteAndLogData (postJson p),
              calls := [Call.check r.authorization, Call.addComment postID comm] }

/-- Go's `(*PostHandler).DeleteComment`. -/
def PostHandler.DeleteComment (h : PostHandler) (r : Request) : Handled :=
  match isValid "postID" "invalid post id" r with
  | Except.error resp => { resp := resp, calls := [] }
  | Except.ok postID =>
    match isValid "commentID" "invalid comment id" r with
    | Except.error resp => { resp := resp, calls := [] }
    | Except.ok commID =>
      match sessionCheck r h.Sess with
      | Except.error resp => { resp := resp, calls := [Call.check r.authorization] }
      | Except.ok usr =>
        match h.Repo.DeleteComment postID commID usr.ID with
        | (_, some err) =>
          { resp := WriteAndLogErr err,
            calls := [Call.check r.authorization, Call.deleteComment postID commID usr.ID] }
        | (p, none) =>
          { resp := WriteAndLogData (postJson p),
            calls := [Call.check r.authorization, Call.deleteComment postID commID usr.ID] }

/-- Go's `(*PostHandler).UpvotePost`. -/
def PostHandler.UpvotePost (h : PostHandler) (r : Request) : Handled :=
  match isValid "postID" "invalid post id" r with
  | Except.error resp => { resp := resp, calls := [] }
  | Except.ok postID =>
    match sessionCheck r h.Sess with
    | Except.error resp => { resp := resp, calls := [Call.check r.authorization] }
    | Except.ok usr =>
      match h.Repo.UpvotePost postID usr.ID with
      | (_, some err) =>
        { resp := WriteAndLogErr err,
          calls := [Call.check r.authorization, Call.upvotePost postID usr.ID] }
      | (p, none) =>
        { resp := WriteAndLogData (postJson p),
          calls := [Call.check r.authorization, Call.upvotePost postID usr.ID] }

/-- Go's `(*PostHandler).DownvotePost`. -/
def PostHandler.DownvotePost (h : PostHandler) (r : Request) : Handled :=
  match isValid "postID" "invalid post id" r with
  | Except.error resp => { resp := resp, calls := [] }
  | Except.ok postID =>
    match sessionCheck r h.Sess with
    | Except.error resp => { resp := resp, calls := [Call.check r.authorization] }
    | Except.ok usr =>
      match h.Repo.DownvotePost postID usr.ID with
      | (_, some err) =>
        { resp := WriteAndLogErr err,
          calls := [Call.check r.authorization, Call.downvotePost postID usr.ID] }
      | (p, none) =>
        { resp := WriteAndLogData (postJson p),
          calls := [Call.check r.authorization, Call.downvotePost postID usr.ID] }

/-- Go's `(*PostHandler).UnvotePost`. -/
def PostHandler.UnvotePost (h : PostHandler) (r : Request) : Handled :=
  match isValid "postID" "invalid post id" r with
  | Except.error resp => { resp := resp, calls := [] }
  | Except.ok postID =>
    match sessionCheck r h.Sess with
    | Except.error resp => { resp := resp, calls := [Call.check r.authorization] }
    | Except.ok usr =>
      match h.Repo.UnvotePost postID usr.ID with
      | (_, some err) =>
        { resp := WriteAndLogErr err,
          calls := [Call.check r.authorization, Call.unvotePost postID usr.ID] }
      | (p, none) =>
        { resp := WriteAndLogData (postJson p),
          calls := [Call.check r.authorization, Call.unvotePost postID usr.ID] }

/-! ## internal/post/repo_memory.go: the two locked sections of DeletePost

`DeletePost` looks the post up while it holds the read lock, gives the read lock up and
then takes the write lock for the rest; between the two sections other goroutines can
take the write lock. -/

/-- The section of `DeletePost` under `repo.mu.RLock()`: the index `i` that the loop
leaves, -1 when no post has the id. -/
def PostMemoryRepository.deletePostLookup (repo : PostMemoryRepository) (postID : String) :
    Int :=
  match rangeFind (fun post => post.ID == postID) repo.data with
  | some (idx, _) => idx
  | none => -1

/-- The section of `DeletePost` under `repo.mu.Lock()`, run with the index `i` on the
repository as it is by then; `none` is the run-time panic of `repo.data[i]` for an index
out of range. -/
def PostMemoryRepository.deletePostLocked (repo : PostMemoryRepository) (i : Int)
    (userID : String) : Option (PostMemoryRepository × Option GoError) :=
  if i < 0 then
    some (repo, some (GoError.msgError { Msg := "post not found", Status := 404 }))
  else
    match repo.data[i.toNat]? with
    | none => none
    | some post =>
      if post.Author.ID != userID then
        some (repo, some (GoError.msgError { Msg := "unauthorized", Status := 401 }))
      else
        let last := repo.data.getD (repo.data.length - 1) post
        some ({ data := (repo.data.set i.toNat last).take (repo.data.length - 1) },
          some (GoError.msgError { Msg := "success", Status := 200 }))

/-! ## Notions used to state the properties -/

/-- The number of entries of a vote slice whose value is `Like`. -/
def likeEntries (votes : List Vote) : Nat :=
  votes.countP (fun v => v.Value == Like)

/-- The number of entries of a vote slice whose value is `Dislike`. -/
def dislikeEntries (votes : List Vote) : Nat :=
  votes.countP (fun v => v.Value == Dislike)

/-- The entries of a vote list; the nil slice has none. -/
def entriesOf (l : VoteList) : List Vote :=
  l.List.getD []

/-- Position `i` holds `x`, the first element of `xs` that satisfies `p`. -/
def FirstAt {α : Type} (p : α → Bool) (xs : List α) (i : Nat) (x : α) : Prop :=
  xs[i]? = some x ∧ p x = true ∧ ∀ j, j < i → ∀ y, xs[j]? = some y → p y = false

/-- Position `i` holds `v`, the first entry of `votes` whose user id is `userID`. -/
def FirstEntryOf (userID : String) (votes : List Vote) (i : Nat) (v : Vote) : Prop :=
  votes[i]? = some v ∧ v.UserID = userID ∧
    ∀ j, j < i → ∀ w, votes[j]? = some w → w.UserID ≠ userID

/-- Position `i` holds `x`, the first element of `xs` whose key (a post id, a comment id)
is `k`. -/
def FirstWith {α : Type} (key : α → String) (k : String) (xs : List α) (i : Nat) (x : α) :
    Prop :=
  xs[i]? = some x ∧ key x = k ∧ ∀ j, j < i → ∀ y, xs[j]? = some y → key y ≠ k

/-- Position `i` of a slice of comment pointers holds a pointer to `c`, the first comment
of the slice whose id is `id`. -/
def FirstCommentWith (id : String) (comms : List (Option Comment)) (i : Nat) (c : Comment) :
    Prop :=
  comms[i]? = some (some c) ∧ c.ID = id ∧
    ∀ j, j < i → ∀ w, comms[j]? = some (some w) → w.ID ≠ id

/-- Score descending, ties oldest first: of two positions the earlier one holds the higher
score, or the same score and a creation time that is not after the later one. -/
def OrderedByScore (xs : List Post) : Prop :=
  ∀ (i j : Nat) (a b : Post), i < j → xs[i]? = some a → xs[j]? = some b →
    a.Score > b.Score ∨ (a.Score = b.Score ∧ ¬ a.Created > b.Created)

/-- Newest first: of two positions the earlier one holds a creation time that is not
before the later one. -/
def NewestFirst (xs : List Post) : Prop :=
  ∀ (i j : Nat) (a b : Post), i < j → xs[i]? = some a → xs[j]? = some b →
    ¬ a.Created < b.Created

/-- The cached fields of a post agree with the score derivation on its vote list. -/
def ScoreDerived (p : Post) : Prop :=
  p.Score = 2 * p.Votes.LikesCount - (p.Votes.len : Int) ∧
  (p.Votes.len = 0 → p.LikesPercent = 0) ∧
  (p.Votes.len ≠ 0 → p.LikesPercent = (p.Votes.LikesCount * 100).tdiv (p.Votes.len : Int))

/-- At most one entry per user id. -/
def UniqueByUser (votes : List Vote) : Prop :=
  (votes.map Vote.UserID).Nodup

instance (votes : List Vote) : Decidable (UniqueByUser votes) := by
  unfold UniqueByUser
  infer_instance

/-- The vote lists obtained from `NewVoteList` by a finite sequence of `Upvote`,
`Downvote` and `Unvote` calls. -/
inductive VoteList.Reachable : VoteList → Prop where
  | newVoteList (id : String) : VoteList.Reachable (NewVoteList id)
  | upvote {l : VoteList} (userID : String) :
      VoteList.Reachable l → VoteList.Reachable (l.Upvote userID).1
  | downvote {l : VoteList} (userID : String) :
      VoteList.Reachable l → VoteList.Reachable (l.Downvote userID).1
  | unvote {l : VoteList} (userID : String) :
      VoteList.Reachable l → VoteList.Reachable (l.Unvote userID).1

/-- The posts obtained from `NewPost` by a finite sequence of successful `UpvotePost`,
`DownvotePost` and `UnvotePost` calls: each call runs on a repository whose lookup of
`postID` finds the post reached so far, and returns the next post with a nil error. -/
inductive Post.Reachable : Post → Prop where
  | newPost (usr : User) (t : Time) (created id : String) :
      Post.Reachable (NewPost usr t created id)
  | upvotePost {p p1 : Post} {repo repo1 : PostMemoryRepository} {i : Nat}
      (postID userID : String) :
      Post.Reachable p →
      rangeFind (fun post => post.ID == postID) repo.data = some (i, p) →
      repo.UpvotePost postID userID = (repo1, some p1, none) →
      Post.Reachable p1
  | downvotePost {p p1 : Post} {repo repo1 : PostMemoryRepository} {i : Nat}
      (postID userID : String) :
      Post.Reachable p →
      rangeFind (fun post => post.ID == postID) repo.data = some (i, p) →
      repo.DownvotePost postID userID = (repo1, some p1, none) →
      Post.Reachable p1
  | unvotePost {p p1 : Post} {repo repo1 : PostMemoryRepository} {i : Nat}
      (postID userID : String) :
      Post.Reachable p →
      rangeFind (fun post => post.ID == postID) repo.data = some (i, p) →
      repo.UnvotePost postID userID = (repo1, some p1, none) →
      Post.Reachable p1

/-! ## The lookup loop -/

theorem rangeFind_eq_none_iff {α : Type} (p : α → Bool) (xs : List α) :
    rangeFind p xs = none ↔ ∀ x ∈ xs, p x = false := by
  induction xs with
  | nil => simp [rangeFind]
  | cons x xs ih =>
    by_cases hx : p x = true
    · simp [rangeFind, hx]
    · simp [rangeFind, hx, ih]

theorem rangeFind_eq_some_iff {α : Type} (p : α → Bool) (xs : List α) (i : Nat) (x : α) :
    rangeFind p xs = some (i, x) ↔ FirstAt p xs i x := by
  induction xs generalizing i with
  | nil => simp [rangeFind, FirstAt]
  | cons a xs ih =>
    by_cases ha : p a = true
    · simp only [rangeFind, ha, if_true, Option.some.injEq, Prod.mk.injEq]
      constructor
      · rintro ⟨rfl, rfl⟩
        exact ⟨by simp, ha, fun j hj => absurd hj (Nat.not_lt_zero j)⟩
      · rintro ⟨h1, _, h3⟩
        cases i with
        | zero => simpa using h1
        | succ k =>
          have := h3 0 (Nat.succ_pos k) a (by simp)
          simp [ha] at this
    · have ha2 : p a = false := by simpa using ha
      simp only [rangeFind, ha2, Bool.false_eq_true, if_false, Option.map_eq_some']
      constructor
      · rintro ⟨⟨k, y⟩, hk, heq⟩
        simp only [Prod.mk.injEq] at heq
        obtain ⟨rfl, rfl⟩ := heq
        obtain ⟨h1, h2, h3⟩ := (ih k).1 hk
        refine ⟨by simpa using h1, h2, ?_⟩
        intro j hj z hz
        cases j with
        | zero =>
          simp at hz
          subst hz
          exact ha2
        | succ m =>
          exact h3 m (Nat.lt_of_succ_lt_succ hj) z (by simpa using hz)
      · rintro ⟨h1, h2, h3⟩
        cases i with
        | zero =>
          simp at h1
          subst h1
          simp [ha2] at h2
        | succ k =>
          refine ⟨(k, x), (ih k).2 ⟨by simpa using h1, h2, ?_⟩, rfl⟩
          intro j hj z hz
          exact h3 (j + 1) (Nat.succ_lt_succ hj) z (by simpa using hz)

theorem firstAt_userID_iff (userID : String) (votes : List Vote) (i : Nat) (v : Vote) :
    FirstAt (fun vote => vote.UserID == userID) votes i v ↔ FirstEntryOf userID votes i v := by
  simp [FirstAt, FirstEntryOf]

theorem rangeFind_userID_eq_none_iff (userID : String) (votes : List Vote) :
    rangeFind (fun vote => vote.UserID == userID) votes = none ↔
      ∀ v ∈ votes, v.UserID ≠ userID := by
  simp [rangeFind_eq_none_iff]

theorem rangeFind_userID_eq_some_iff (userID : String) (votes : List Vote) (i : Nat) (v : Vote) :
    rangeFind (fun vote => vote.UserID == userID) votes = some (i, v) ↔
      FirstEntryOf userID votes i v := by
  rw [rangeFind_eq_some_iff, firstAt_userID_iff]

/-! ## The three vote operations, case by case -/

theorem upvote_absent {l : VoteList} {votes : List Vote} {userID : String}
    (hinit : l.List = some votes) (h : ∀ v ∈ votes, v.UserID ≠ userID) :
    l.Upvote userID =
      ({ List := some (votes ++ [{ UserID := userID, Value := Like }]),
         LikesCount := l.LikesCount + 1 }, none) := by
  have hf := (rangeFind_userID_eq_none_iff userID votes).2 h
  simp only [VoteList.Upvote, hinit, hf]

theorem upvote_present {l : VoteList} {votes : List Vote} {userID : String} {i : Nat} {v : Vote}
    (hinit : l.List = some votes) (h : FirstEntryOf userID votes i v) :
    l.Upvote userID =
      ({ List := some (votes.set i { v with Value := Like }),
         LikesCount := l.LikesCount + 1 }, none) := by
  have hf := (rangeFind_userID_eq_some_iff userID votes i v).2 h
  simp only [VoteList.Upvote, hinit, hf]

theorem downvote_absent {l : VoteList} {votes : List Vote} {userID : String}
    (hinit : l.List = some votes) (h : ∀ v ∈ votes, v.UserID ≠ userID) :
    l.Downvote userID =
      ({ List := some (votes ++ [{ UserID := userID, Value := Dislike }]),
         LikesCount := l.LikesCount }, none) := by
  have hf := (rangeFind_userID_eq_none_iff userID votes).2 h
  simp only [VoteList.Downvote, hinit, hf]

theorem downvote_present {l : VoteList} {votes : List Vote} {userID : String} {i : Nat}
    {v : Vote} (hinit : l.List = some votes) (h : FirstEntryOf userID votes i v) :
    l.Downvote userID =
      ({ List := some (votes.set i { v with Value := Dislike }),
         LikesCount := if v.Value = Like then l.LikesCount - 1 else l.LikesCount }, none) := by
  have hf := (rangeFind_userID_eq_some_iff userID votes i v).2 h
  simp only [VoteList.Downvote, hinit, hf]

theorem unvote_absent {l : VoteList} {votes : List Vote} {userID : String}
    (hinit : l.List = some votes) (h : ∀ v ∈ votes, v.UserID ≠ userID) :
    l.Unvote userID = (l, none) := by
  have hf := (rangeFind_userID_eq_none_iff userID votes).2 h
  simp only [VoteList.Unvote, hinit, hf]

theorem unvote_present {l : VoteList} {votes : List Vote} {userID : String} {i : Nat}
    {v : Vote} (hinit : l.List = some votes) (h : FirstEntryOf userID votes i v) :
    l.Unvote userID =
      ({ List := some ((votes.set i (votes.getD (votes.length - 1) v)).take (votes.length - 1)),
         LikesCount := if v.Value = Like then l.LikesCount - 1 else l.LikesCount }, none) := by
  have hf := (rangeFind_userID_eq_some_iff userID votes i v).2 h
  simp only [VoteList.Unvote, hinit, hf]

/-- Either no entry carries `userID`, or there is a first one. -/
theorem absent_or_firstEntry (userID : String) (votes : List Vote) :
    (∀ v ∈ votes, v.UserID ≠ userID) ∨ ∃ i v, FirstEntryOf userID votes i v := by
  cases h : rangeFind (fun vote => vote.UserID == userID) votes with
  | none => exact Or.inl ((rangeFind_userID_eq_none_iff userID votes).1 h)
  | some r =>
    obtain ⟨i, v⟩ := r
    exact Or.inr ⟨i, v, (rangeFind_userID_eq_some_iff userID votes i v).1 h⟩

/-! ## Removing an entry by overwriting it with the last one -/

theorem getD_last_eq_getLast {α : Type} (xs : List α) (d : α) (hne : xs ≠ []) :
    xs.getD (xs.length - 1) d = xs.getLast hne := by
  have hlen : xs.length - 1 < xs.length := by
    have : 0 < xs.length := List.length_pos.2 hne
    omega
  rw [List.getLast_eq_getElem, List.getD_eq_getElem xs d hlen]

theorem set_getLast_dropLast_perm {α : Type} (xs : List α) (i : Nat) (x : α)
    (h : xs[i]? = some x) (hne : xs ≠ []) :
    xs.Perm (x :: (xs.set i (xs.getLast hne)).dropLast) := by
  induction xs generalizing i with
  | nil => exact absurd rfl hne
  | cons a rest ih =>
    cases rest with
    | nil =>
      cases i with
      | zero =>
        simp at h
        subst h
        simp
      | succ k => simp at h
    | cons b rest2 =>
      have hne2 : (b :: rest2) ≠ [] := by simp
      have hlast : (a :: b :: rest2).getLast hne = (b :: rest2).getLast hne2 := by
        simp [List.getLast_cons]
      rw [hlast]
      cases i with
      | zero =>
        simp at h
        subst h
        simp only [List.set_cons_zero]
        rw [List.dropLast_cons_of_ne_nil hne2]
        refine List.Perm.cons _ ?_
        have : (b :: rest2).dropLast ++ [(b :: rest2).getLast hne2] = b :: rest2 :=
          List.dropLast_append_getLast hne2
        conv_lhs => rw [← this]
        exact List.perm_append_singleton _ _
      | succ k =>
        have hk : (b :: rest2)[k]? = some x := by simpa using h
        have := ih k hk hne2
        simp only [List.set_cons_succ]
        have hne3 : (b :: rest2).set k ((b :: rest2).getLast hne2) ≠ [] := by
          simp
        rw [List.dropLast_cons_of_ne_nil hne3]
        exact (List.Perm.cons a this).trans (List.Perm.swap x a _)

theorem swap_remove_eq {α : Type} (xs : List α) (i : Nat) (d : α) (hne : xs ≠ []) :
    (xs.set i (xs.getD (xs.length - 1) d)).take (xs.length - 1) =
      (xs.set i (xs.getLast hne)).dropLast := by
  rw [getD_last_eq_getLast xs d hne, List.dropLast_eq_take, List.length_set]

/-! ## The vote methods of the in-memory repository -/

theorem inlineScore_scoreDerived (p : Post) (r : VoteList × Option GoError) (h : r.2 = none) :
    ScoreDerived (inlineScore p r) := by
  unfold inlineScore
  simp only [h]
  by_cases hlen : r.1.len = 0
  · simp [ScoreDerived, hlen]
  · simp [ScoreDerived, hlen]

theorem updatePostScore_scoreDerived (p : Post) : ScoreDerived p.updatePostScore := by
  unfold Post.updatePostScore
  by_cases hlen : p.Votes.len = 0
  · simp [ScoreDerived, hlen]
  · simp [ScoreDerived, hlen]

theorem upvotePost_returns {repo repo1 : PostMemoryRepository} {postID userID : String}
    {p1 : Post} {err : Option GoError}
    (h : repo.UpvotePost postID userID = (repo1, some p1, err)) :
    ∃ i p, rangeFind (fun post => post.ID == postID) repo.data = some (i, p) ∧
      p1 = inlineScore p (p.Votes.Upvote userID) ∧ err = (p.Votes.Upvote userID).2 ∧
      repo1 = { data := repo.data.set i p1 } := by
  unfold PostMemoryRepository.UpvotePost at h
  cases hf : rangeFind (fun post => post.ID == postID) repo.data with
  | none => simp [hf] at h
  | some r =>
    obtain ⟨i, p⟩ := r
    simp only [hf, Prod.mk.injEq, Option.some.injEq] at h
    obtain ⟨h1, h2, h3⟩ := h
    exact ⟨i, p, rfl, h2.symm, h3.symm, by rw [← h1, h2]⟩

theorem downvotePost_returns {repo repo1 : PostMemoryRepository} {postID userID : String}
    {p1 : Post} {err : Option GoError}
    (h : repo.DownvotePost postID userID = (repo1, some p1, err)) :
    ∃ i p, rangeFind (fun post => post.ID == postID) repo.data = some (i, p) ∧
      p1 = inlineScore p (p.Votes.Downvote userID) ∧ err = (p.Votes.Downvote userID).2 ∧
      repo1 = { data := repo.data.set i p1 } := by
  unfold PostMemoryRepository.DownvotePost at h
  cases hf : rangeFind (fun post => post.ID == postID) repo.data with
  | none => simp [hf] at h
  | some r =>
    obtain ⟨i, p⟩ := r
    simp only [hf, Prod.mk.injEq, Option.some.injEq] at h
    obtain ⟨h1, h2, h3⟩ := h
    exact ⟨i, p, rfl, h2.symm, h3.symm, by rw [← h1, h2]⟩

theorem unvotePost_returns {repo repo1 : PostMemoryRepository} {postID userID : String}
    {p1 : Post} {err : Option GoError}
    (h : repo.UnvotePost postID userID = (repo1, some p1, err)) :
    ∃ i p, rangeFind (fun post => post.ID == postID) repo.data = some (i, p) ∧
      p1 = inlineScore p (p.Votes.Unvote userID) ∧ err = (p.Votes.Unvote userID).2 ∧
      repo1 = { data := repo.data.set i p1 } := by
  unfold PostMemoryRepository.UnvotePost at h
  cases hf : rangeFind (fun post => post.ID == postID) repo.data with
  | none => simp [hf] at h
  | some r =>
    obtain ⟨i, p⟩ := r
    simp only [hf, Prod.mk.injEq, Option.some.injEq] at h
    obtain ⟨h1, h2, h3⟩ := h
    exact ⟨i, p, rfl, h2.symm, h3.symm, by rw [← h1, h2]⟩

theorem upvotePost_scoreDerived {repo repo1 : PostMemoryRepository} {postID userID : String}
    {p1 : Post} (h : repo.UpvotePost postID userID = (repo1, some p1, none)) :
    ScoreDerived p1 := by
  obtain ⟨i, p, _, h2, h3, _⟩ := upvotePost_returns h
  rw [h2]
  exact inlineScore_scoreDerived p _ h3.symm

theorem downvotePost_scoreDerived {repo repo1 : PostMemoryRepository} {postID userID : String}
    {p1 : Post} (h : repo.DownvotePost postID userID = (repo1, some p1, none)) :
    ScoreDerived p1 := by
  obtain ⟨i, p, _, h2, h3, _⟩ := downvotePost_returns h
  rw [h2]
  exact inlineScore_scoreDerived p _ h3.symm

theorem unvotePost_scoreDerived {repo repo1 : PostMemoryRepository} {postID userID : String}
    {p1 : Post} (h : repo.UnvotePost postID userID = (repo1, some p1, none)) :
    ScoreDerived p1 := by
  obtain ⟨i, p, _, h2, h3, _⟩ := unvotePost_returns h
  rw [h2]
  exact inlineScore_scoreDerived p _ h3.symm

theorem newPost_scoreDerived (usr : User) (t : Time) (created id : String) :
    ScoreDerived (NewPost usr t created id) := by
  simp [ScoreDerived, NewPost, NewVoteList, VoteList.len]

/-! ## Claims -/

/-- C1, evaluated at the failing input: the vote list made by `NewVoteList "u1"` and then
upvoted by "u1" again is reachable and holds the single entry ("u1", Like), one Like
entry, while its LikesCount is 2. -/
theorem C1_reupvote_overcounts_likes :
    VoteList.Reachable ((NewVoteList "u1").Upvote "u1").1 ∧
    ((NewVoteList "u1").Upvote "u1").1.List = some [{ UserID := "u1", Value := Like }] ∧
    likeEntries [{ UserID := "u1", Value := Like }] = 1 ∧
    ((NewVoteList "u1").Upvote "u1").1.LikesCount = 2 :=
  ⟨VoteList.Reachable.upvote "u1" (VoteList.Reachable.newVoteList "u1"), by decide, by decide,
    by decide⟩

/-- C2, evaluated at the failing input: in a repository holding only the post that user
"u1" has just created, `UpvotePost` by "u1" succeeds and returns a reachable post whose
LikesPercent is 200. -/
theorem C2_author_upvote_gives_200_percent :
    ∃ repo1 p1,
      (NewMemoryRepo.AddPost (NewPost ⟨"alice", "u1", "pw"⟩ 0 "" "p1")).1.UpvotePost "p1" "u1"
        = (repo1, some p1, none) ∧
      Post.Reachable p1 ∧ p1.LikesPercent = 200 := by
  refine ⟨_, _, rfl, ?_, by decide⟩
  have hfind : rangeFind (fun post => post.ID == "p1")
      (NewMemoryRepo.AddPost (NewPost ⟨"alice", "u1", "pw"⟩ 0 "" "p1")).1.data
        = some (0, NewPost ⟨"alice", "u1", "pw"⟩ 0 "" "p1") := by decide
  exact Post.Reachable.upvotePost "p1" "u1"
    (Post.Reachable.newPost ⟨"alice", "u1", "pw"⟩ 0 "" "p1") hfind rfl

/-- C3: `updatePostScore` and every successful `UpvotePost`, `DownvotePost` and
`UnvotePost` of the in-memory repository leave a post with
Score = 2*LikesCount - len(Votes.List), LikesPercent = 0 when the vote list is empty and
LikesPercent = LikesCount*100/len(Votes.List) (truncating division) otherwise; hence
every post reachable from `NewPost` by such calls satisfies these equations. -/
theorem C3_score_and_percent_derived :
    (∀ p : Post, ScoreDerived p.updatePostScore) ∧
    (∀ (repo repo1 : PostMemoryRepository) (postID userID : String) (p1 : Post),
      repo.UpvotePost postID userID = (repo1, some p1, none) → ScoreDerived p1) ∧
    (∀ (repo repo1 : PostMemoryRepository) (postID userID : String) (p1 : Post),
      repo.DownvotePost postID userID = (repo1, some p1, none) → ScoreDerived p1) ∧
    (∀ (repo repo1 : PostMemoryRepository) (postID userID : String) (p1 : Post),
      repo.UnvotePost postID userID = (repo1, some p1, none) → ScoreDerived p1) ∧
    (∀ p : Post, Post.Reachable p → ScoreDerived p) := by
  refine ⟨updatePostScore_scoreDerived, ?_, ?_, ?_, ?_⟩
  · intro repo repo1 postID userID p1 h
    exact upvotePost_scoreDerived h
  · intro repo repo1 postID userID p1 h
    exact downvotePost_scoreDerived h
  · intro repo repo1 postID userID p1 h
    exact unvotePost_scoreDerived h
  · intro p hp
    induction hp with
    | newPost usr t created id => exact newPost_scoreDerived usr t created id
    | upvotePost postID userID _ _ h _ => exact upvotePost_scoreDerived h
    | downvotePost postID userID _ _ h _ => exact downvotePost_scoreDerived h
    | unvotePost postID userID _ _ h _ => exact unvotePost_scoreDerived h

/-- C3 at a concrete call: user "u2" upvotes the post that "u1" created; the call
succeeds and the post it returns satisfies the score equations. -/
theorem C3_score_and_percent_derived_witness :
    ((NewMemoryRepo.AddPost (NewPost ⟨"alice", "u1", "pw"⟩ 0 "" "p1")).1.UpvotePost "p1" "u2"
        = ({ data := [inlineScore (NewPost ⟨"alice", "u1", "pw"⟩ 0 "" "p1")
              ((NewVoteList "u1").Upvote "u2")] },
            some (inlineScore (NewPost ⟨"alice", "u1", "pw"⟩ 0 "" "p1")
              ((NewVoteList "u1").Upvote "u2")), none)) ∧
    ScoreDerived (inlineScore (NewPost ⟨"alice", "u1", "pw"⟩ 0 "" "p1")
      ((NewVoteList "u1").Upvote "u2")) :=
  ⟨by decide,
    C3_score_and_percent_derived.2.1
      (NewMemoryRepo.AddPost (NewPost ⟨"alice", "u1", "pw"⟩ 0 "" "p1")).1
      { data := [inlineScore (NewPost ⟨"alice", "u1", "pw"⟩ 0 "" "p1")
          ((NewVoteList "u1").Upvote "u2")] }
      "p1" "u2"
      (inlineScore (NewPost ⟨"alice", "u1", "pw"⟩ 0 "" "p1") ((NewVoteList "u1").Upvote "u2"))
      (by decide)⟩

theorem getElem?_set_other {α : Type} (xs : List α) (i j : Nat) (a : α) (h : j ≠ i) :
    (xs.set i a)[j]? = xs[j]? := by
  rw [List.getElem?_set]
  simp [Ne.symm h]

theorem getElem?_set_self_of_some {α : Type} (xs : List α) (i : Nat) (a x : α)
    (h : xs[i]? = some x) : (xs.set i a)[i]? = some a := by
  have hi : i < xs.length := by
    rcases Nat.lt_or_ge i xs.length with hlt | hge
    · exact hlt
    · rw [List.getElem?_eq_none hge] at h
      cases h
  rw [List.getElem?_set]
  simp [hi]

/-- C4: on an initialized vote list `Upvote` returns a nil error and raises LikesCount by
exactly 1; when no entry carries the user id the entry (userID, Like) is appended at the
end; otherwise the first entry of that user id becomes (userID, Like), the length is
unchanged and every other position keeps its entry. -/
theorem C4_upvote_upsert (l : VoteList) (votes : List Vote) (userID : String)
    (hinit : l.List = some votes) :
    (l.Upvote userID).2 = none ∧
    (l.Upvote userID).1.LikesCount = l.LikesCount + 1 ∧
    ((∀ v ∈ votes, v.UserID ≠ userID) →
      (l.Upvote userID).1.List = some (votes ++ [{ UserID := userID, Value := Like }])) ∧
    (∀ i v, FirstEntryOf userID votes i v →
      ∃ votes1, (l.Upvote userID).1.List = some votes1 ∧
        votes1.length = votes.length ∧
        votes1[i]? = some { UserID := userID, Value := Like } ∧
        ∀ j, j ≠ i → votes1[j]? = votes[j]?) := by
  rcases absent_or_firstEntry userID votes with habs | ⟨i0, v0, hfirst⟩
  · rw [upvote_absent hinit habs]
    refine ⟨rfl, rfl, fun _ => rfl, ?_⟩
    intro i v hv
    exact absurd hv.2.1 (habs v (List.getElem?_mem hv.1))
  · rw [upvote_present hinit hfirst]
    refine ⟨rfl, rfl, fun habs => ?_, ?_⟩
    · exact absurd hfirst.2.1 (habs v0 (List.getElem?_mem hfirst.1))
    · intro i v hv
      have hiv := (rangeFind_userID_eq_some_iff userID votes i v).2 hv
      have hi0 := (rangeFind_userID_eq_some_iff userID votes i0 v0).2 hfirst
      rw [hiv] at hi0
      simp only [Option.some.injEq, Prod.mk.injEq] at hi0
      obtain ⟨rfl, rfl⟩ := hi0
      refine ⟨_, rfl, by simp, ?_, ?_⟩
      · rw [getElem?_set_self_of_some votes i _ v hv.1, hv.2.1]
      · intro j hj
        exact getElem?_set_other votes i j _ hj

/-- C4 at a concrete list: "u2" upvotes the list [("u1", Like), ("u2", Dislike)]. -/
theorem C4_upvote_upsert_witness :
    ({ List := some [{ UserID := "u1", Value := Like }, { UserID := "u2", Value := Dislike }],
       LikesCount := 1 } : VoteList).List
      = some [{ UserID := "u1", Value := Like }, { UserID := "u2", Value := Dislike }] ∧
    (({ List := some [{ UserID := "u1", Value := Like }, { UserID := "u2", Value := Dislike }],
        LikesCount := 1 } : VoteList).Upvote "u2").1.LikesCount = 1 + 1 :=
  ⟨rfl, (C4_upvote_upsert
    { List := some [{ UserID := "u1", Value := Like }, { UserID := "u2", Value := Dislike }],
      LikesCount := 1 }
    [{ UserID := "u1", Value := Like }, { UserID := "u2", Value := Dislike }] "u2" rfl).2.1⟩

/-- C5: on an initialized vote list `Downvote` returns a nil error; when no entry
carries the user id the entry (userID, Dislike) is appended and LikesCount is unchanged;
otherwise the first entry of that user id becomes (userID, Dislike), LikesCount drops by 1
exactly when that entry was Like and is unchanged otherwise, the length is unchanged and
every other position keeps its entry. -/
theorem C5_downvote_upsert (l : VoteList) (votes : List Vote) (userID : String)
    (hinit : l.List = some votes) :
    (l.Downvote userID).2 = none ∧
    ((∀ v ∈ votes, v.UserID ≠ userID) →
      (l.Downvote userID).1.List = some (votes ++ [{ UserID := userID, Value := Dislike }]) ∧
      (l.Downvote userID).1.LikesCount = l.LikesCount) ∧
    (∀ i v, FirstEntryOf userID votes i v →
      ∃ votes1, (l.Downvote userID).1.List = some votes1 ∧
        votes1.length = votes.length ∧
        votes1[i]? = some { UserID := userID, Value := Dislike } ∧
        (∀ j, j ≠ i → votes1[j]? = votes[j]?) ∧
        (v.Value = Like → (l.Downvote userID).1.LikesCount = l.LikesCount - 1) ∧
        (v.Value ≠ Like → (l.Downvote userID).1.LikesCount = l.LikesCount)) := by
  rcases absent_or_firstEntry userID votes with habs | ⟨i0, v0, hfirst⟩
  · rw [downvote_absent hinit habs]
    refine ⟨rfl, fun _ => ⟨rfl, rfl⟩, ?_⟩
    intro i v hv
    exact absurd hv.2.1 (habs v (List.getElem?_mem hv.1))
  · rw [downvote_present hinit hfirst]
    refine ⟨rfl, fun habs => ?_, ?_⟩
    · exact absurd hfirst.2.1 (habs v0 (List.getElem?_mem hfirst.1))
    · intro i v hv
      have hiv := (rangeFind_userID_eq_some_iff userID votes i v).2 hv
      have hi0 := (rangeFind_userID_eq_some_iff userID votes i0 v0).2 hfirst
      rw [hiv] at hi0
      simp only [Option.some.injEq, Prod.mk.injEq] at hi0
      obtain ⟨rfl, rfl⟩ := hi0
      refine ⟨_, rfl, by simp, ?_, ?_, ?_, ?_⟩
      · rw [getElem?_set_self_of_some votes i _ v hv.1, hv.2.1]
      · intro j hj
        exact getElem?_set_other votes i j _ hj
      · intro hlike
        simp [hlike]
      · intro hlike
        simp [hlike]

/-- C5 at a concrete list: "u1" downvotes the list [("u1", Like), ("u2", Dislike)]. -/
theorem C5_downvote_upsert_witness :
    ({ List := some [{ UserID := "u1", Value := Like }, { UserID := "u2", Value := Dislike }],
       LikesCount := 1 } : VoteList).List
      = some [{ UserID := "u1", Value := Like }, { UserID := "u2", Value := Dislike }] ∧
    (({ List := some [{ UserID := "u1", Value := Like }, { UserID := "u2", Value := Dislike }],
        LikesCount := 1 } : VoteList).Downvote "u1").2 = none :=
  ⟨rfl, (C5_downvote_upsert
    { List := some [{ UserID := "u1", Value := Like }, { UserID := "u2", Value := Dislike }],
      LikesCount := 1 }
    [{ UserID := "u1", Value := Like }, { UserID := "u2", Value := Dislike }] "u1" rfl).1⟩

theorem nonempty_of_getElem?_eq_some {α : Type} {xs : List α} {i : Nat} {x : α}
    (h : xs[i]? = some x) : xs ≠ [] := by
  intro hnil
  subst hnil
  simp at h

/-- What `Unvote` does when the first entry of `userID` sits at position `i`. -/
theorem unvote_present_dropLast {l : VoteList} {votes : List Vote} {userID : String} {i : Nat}
    {v : Vote} (hinit : l.List = some votes) (h : FirstEntryOf userID votes i v) :
    l.Unvote userID =
      ({ List := some
          ((votes.set i (votes.getLast (nonempty_of_getElem?_eq_some h.1))).dropLast),
         LikesCount := if v.Value = Like then l.LikesCount - 1 else l.LikesCount }, none) := by
  rw [unvote_present hinit h, swap_remove_eq votes i v (nonempty_of_getElem?_eq_some h.1)]

/-- C6: on an initialized vote list `Unvote` returns a nil error; when no entry carries the
user id, the list and LikesCount are unchanged; otherwise, with `i` the position of the
first entry of that user id, the new list is the old one with position `i` overwritten by
the old last entry and the last position dropped: its length is one less, the old list is
a rearrangement of the removed entry followed by the new list, so every entry of another
user id occurs as often as before, and LikesCount drops by 1 exactly when the removed
entry was Like. -/
theorem C6_unvote_swap_remove (l : VoteList) (votes : List Vote) (userID : String)
    (hinit : l.List = some votes) :
    (l.Unvote userID).2 = none ∧
    ((∀ v ∈ votes, v.UserID ≠ userID) → (l.Unvote userID).1 = l) ∧
    (∀ i v, FirstEntryOf userID votes i v →
      ∃ last votes1, votes.getLast? = some last ∧
        votes1 = (votes.set i last).dropLast ∧
        (l.Unvote userID).1.List = some votes1 ∧
        votes1.length + 1 = votes.length ∧
        votes.Perm (v :: votes1) ∧
        (∀ w : Vote, w.UserID ≠ userID → votes1.count w = votes.count w) ∧
        (v.Value = Like → (l.Unvote userID).1.LikesCount = l.LikesCount - 1) ∧
        (v.Value ≠ Like → (l.Unvote userID).1.LikesCount = l.LikesCount)) := by
  rcases absent_or_firstEntry userID votes with habs | ⟨i0, v0, hfirst⟩
  · rw [unvote_absent hinit habs]
    refine ⟨rfl, fun _ => rfl, ?_⟩
    intro i v hv
    exact absurd hv.2.1 (habs v (List.getElem?_mem hv.1))
  · refine ⟨by rw [unvote_present hinit hfirst], fun habs => ?_, ?_⟩
    · exact absurd hfirst.2.1 (habs v0 (List.getElem?_mem hfirst.1))
    · intro i v hv
      have hne : votes ≠ [] := nonempty_of_getElem?_eq_some hv.1
      have hperm := set_getLast_dropLast_perm votes i v hv.1 hne
      rw [unvote_present_dropLast hinit hv]
      refine ⟨votes.getLast hne, _, List.getLast?_eq_getLast votes hne, rfl, rfl, ?_, hperm,
        ?_, ?_, ?_⟩
      · have := hperm.length_eq
        simp only [List.length_cons] at this
        omega
      · intro w hw
        have hcount := hperm.count_eq w
        have hwv : w ≠ v := by
          intro heq
          rw [heq] at hw
          exact hw hv.2.1
        rw [hcount, List.count_cons_of_ne hwv]
      · intro hlike
        simp [hlike]
      · intro hlike
        simp [hlike]

/-- C6 at a concrete list: "u1" removes the vote from
[("u1", Like), ("u2", Dislike), ("u3", Like)]. -/
theorem C6_unvote_swap_remove_witness :
    ({ List := some [{ UserID := "u1", Value := Like }, { UserID := "u2", Value := Dislike },
        { UserID := "u3", Value := Like }], LikesCount := 2 } : VoteList).List
      = some [{ UserID := "u1", Value := Like }, { UserID := "u2", Value := Dislike },
          { UserID := "u3", Value := Like }] ∧
    (({ List := some [{ UserID := "u1", Value := Like }, { UserID := "u2", Value := Dislike },
        { UserID := "u3", Value := Like }], LikesCount := 2 } : VoteList).Unvote "u1").2
      = none :=
  ⟨rfl, (C6_unvote_swap_remove
    { List := some [{ UserID := "u1", Value := Like }, { UserID := "u2", Value := Dislike },
        { UserID := "u3", Value := Like }], LikesCount := 2 }
    [{ UserID := "u1", Value := Like }, { UserID := "u2", Value := Dislike },
      { UserID := "u3", Value := Like }] "u1" rfl).1⟩

theorem map_userID_set_same (votes : List Vote) (i : Nat) (v v1 : Vote)
    (h : votes[i]? = some v) (hid : v1.UserID = v.UserID) :
    (votes.set i v1).map Vote.UserID = votes.map Vote.UserID := by
  apply List.ext_getElem?
  intro j
  by_cases hj : j = i
  · subst hj
    rw [List.getElem?_map, List.getElem?_map, getElem?_set_self_of_some votes j v1 v h, h]
    simp [hid]
  · rw [List.getElem?_map, List.getElem?_map, getElem?_set_other votes i j v1 hj]

theorem uniqueByUser_append_absent (votes : List Vote) (v : Vote)
    (huniq : UniqueByUser votes) (habs : ∀ w ∈ votes, w.UserID ≠ v.UserID) :
    UniqueByUser (votes ++ [v]) := by
  unfold UniqueByUser at *
  rw [List.map_append, List.nodup_append]
  refine ⟨huniq, by simp, ?_⟩
  intro a ha hb
  simp only [List.map_cons, List.map_nil, List.mem_singleton] at hb
  obtain ⟨w, hw, hwa⟩ := List.mem_map.1 ha
  exact habs w hw (hwa.trans hb)

theorem uniqueByUser_of_perm_cons {votes votes1 : List Vote} {v : Vote}
    (huniq : UniqueByUser votes) (hperm : votes.Perm (v :: votes1)) :
    UniqueByUser votes1 ∧ ∀ w ∈ votes1, w.UserID ≠ v.UserID := by
  unfold UniqueByUser at *
  have h1 : (v.UserID :: votes1.map Vote.UserID).Nodup := by
    have := (hperm.map Vote.UserID).nodup_iff.1 huniq
    simpa using this
  rw [List.nodup_cons] at h1
  refine ⟨h1.2, ?_⟩
  intro w hw heq
  exact h1.1 (heq ▸ List.mem_map_of_mem Vote.UserID hw)

/-- C7: on an initialized vote list with at most one entry per user id, a second `Unvote`
for the same user id directly after a first one returns a nil error and leaves the list
and LikesCount exactly as the first call left them. -/
theorem C7_unvote_twice_is_noop (l : VoteList) (votes : List Vote) (userID : String)
    (hinit : l.List = some votes) (huniq : UniqueByUser votes) :
    (l.Unvote userID).1.Unvote userID = ((l.Unvote userID).1, none) := by
  rcases absent_or_firstEntry userID votes with habs | ⟨i, v, hfirst⟩
  · rw [unvote_absent hinit habs]
    exact unvote_absent hinit habs
  · have hne : votes ≠ [] := nonempty_of_getElem?_eq_some hfirst.1
    have hperm := set_getLast_dropLast_perm votes i v hfirst.1 hne
    have hgone := (uniqueByUser_of_perm_cons huniq hperm).2
    rw [hfirst.2.1] at hgone
    rw [unvote_present_dropLast hinit hfirst]
    exact unvote_absent rfl hgone

/-- C7 at a concrete list: "u1" removes the vote twice from
[("u1", Like), ("u2", Dislike)]. -/
theorem C7_unvote_twice_is_noop_witness :
    UniqueByUser [{ UserID := "u1", Value := Like }, { UserID := "u2", Value := Dislike }] ∧
    ((({ List := some [{ UserID := "u1", Value := Like }, { UserID := "u2", Value := Dislike }],
         LikesCount := 1 } : VoteList).Unvote "u1").1.Unvote "u1")
      = ((({ List := some [{ UserID := "u1", Value := Like },
                { UserID := "u2", Value := Dislike }],
             LikesCount := 1 } : VoteList).Unvote "u1").1, none) :=
  ⟨by decide, C7_unvote_twice_is_noop
    { List := some [{ UserID := "u1", Value := Like }, { UserID := "u2", Value := Dislike }],
      LikesCount := 1 }
    [{ UserID := "u1", Value := Like }, { UserID := "u2", Value := Dislike }] "u1" rfl
    (by decide)⟩

/-- C8: `NewPost u` has author `u`, the single vote entry (u.ID, Like), LikesCount 1,
Score 1, LikesPercent 100, Views 0 and an allocated empty comment list, and
`updatePostScore` leaves it as it is: the cached Score and LikesPercent are the derived
ones. -/
theorem C8_newPost_initial_state (usr : User) (t : Time) (created id : String) :
    (NewPost usr t created id).Author = usr ∧
    (NewPost usr t created id).Votes.List = some [{ UserID := usr.ID, Value := Like }] ∧
    (NewPost usr t created id).Votes.LikesCount = 1 ∧
    (NewPost usr t created id).Score = 1 ∧
    (NewPost usr t created id).LikesPercent = 100 ∧
    (NewPost usr t created id).Views = 0 ∧
    (NewPost usr t created id).Comments = some [] ∧
    (NewPost usr t created id).updatePostScore.Score = (NewPost usr t created id).Score ∧
    (NewPost usr t created id).updatePostScore.LikesPercent
      = (NewPost usr t created id).LikesPercent ∧
    (NewPost usr t created id).updatePostScore = NewPost usr t created id := by
  have hfix : (NewPost usr t created id).updatePostScore = NewPost usr t created id := by
    simp [Post.updatePostScore, NewPost, NewVoteList, VoteList.len]
  refine ⟨rfl, rfl, rfl, rfl, rfl, rfl, rfl, ?_, ?_, hfix⟩
  · rw [hfix]
  · rw [hfix]

/-- C9: for distinct user ids U1 and U2, in a repository holding the post that U1 has just
created, `UpvotePost` by U2 succeeds and returns a post with 2 vote entries, LikesCount 2,
Score 2 and LikesPercent 100; a following `DownvotePost` by U1 succeeds and returns a post
with 2 vote entries, LikesCount 1, Score 0 and LikesPercent 50. -/
theorem C9_create_upvote_downvote_scenario (usr1 : User) (u2 : String) (t : Time)
    (created id : String) (hne : usr1.ID ≠ u2) :
    ∃ repo1 p1 repo2 p2,
      (NewMemoryRepo.AddPost (NewPost usr1 t created id)).1.UpvotePost id u2
        = (repo1, some p1, none) ∧
      p1.Votes.List = some [{ UserID := usr1.ID, Value := Like },
        { UserID := u2, Value := Like }] ∧
      p1.Votes.len = 2 ∧ p1.Votes.LikesCount = 2 ∧ p1.Score = 2 ∧ p1.LikesPercent = 100 ∧
      repo1.DownvotePost id usr1.ID = (repo2, some p2, none) ∧
      p2.Votes.List = some [{ UserID := usr1.ID, Value := Dislike },
        { UserID := u2, Value := Like }] ∧
      p2.Votes.len = 2 ∧ p2.Votes.LikesCount = 1 ∧ p2.Score = 0 ∧ p2.LikesPercent = 50 := by
  have hne1 : (usr1.ID == u2) = false := by simpa using hne
  refine ⟨{ data := [{ NewPost usr1 t created id with
              Votes := { List := some [{ UserID := usr1.ID, Value := Like },
                           { UserID := u2, Value := Like }],
                         LikesCount := 2 },
              Score := 2, LikesPercent := 100 }] },
          { NewPost usr1 t created id with
              Votes := { List := some [{ UserID := usr1.ID, Value := Like },
                           { UserID := u2, Value := Like }],
                         LikesCount := 2 },
              Score := 2, LikesPercent := 100 },
          { data := [{ NewPost usr1 t created id with
              Votes := { List := some [{ UserID := usr1.ID, Value := Dislike },
                           { UserID := u2, Value := Like }],
                         LikesCount := 1 },
              Score := 0, LikesPercent := 50 }] },
          { NewPost usr1 t created id with
              Votes := { List := some [{ UserID := usr1.ID, Value := Dislike },
                           { UserID := u2, Value := Like }],
                         LikesCount := 1 },
              Score := 0, LikesPercent := 50 },
          ?_, rfl, rfl, rfl, rfl, rfl, ?_, rfl, rfl, rfl, rfl, rfl⟩
  · simp [PostMemoryRepository.UpvotePost, PostMemoryRepository.AddPost, NewMemoryRepo,
      NewPost, NewVoteList, rangeFind, inlineScore, VoteList.Upvote, VoteList.len, hne1, Like,
      Int.tdiv]
  · simp [PostMemoryRepository.DownvotePost, NewPost, rangeFind, inlineScore,
      VoteList.Downvote, VoteList.len, Like, Dislike, Int.tdiv]

/-- C9 at concrete users: U1 = "u1" creates the post "p1" and U2 = "u2" upvotes it. -/
theorem C9_create_upvote_downvote_scenario_witness :
    (⟨"alice", "u1", "pw"⟩ : User).ID ≠ "u2" ∧
    ∃ repo1 p1 repo2 p2,
      (NewMemoryRepo.AddPost (NewPost ⟨"alice", "u1", "pw"⟩ 0 "" "p1")).1.UpvotePost "p1" "u2"
        = (repo1, some p1, none) ∧
      p1.Votes.List = some [{ UserID := "u1", Value := Like },
        { UserID := "u2", Value := Like }] ∧
      p1.Votes.len = 2 ∧ p1.Votes.LikesCount = 2 ∧ p1.Score = 2 ∧ p1.LikesPercent = 100 ∧
      repo1.DownvotePost "p1" "u1" = (repo2, some p2, none) ∧
      p2.Votes.List = some [{ UserID := "u1", Value := Dislike },
        { UserID := "u2", Value := Like }] ∧
      p2.Votes.len = 2 ∧ p2.Votes.LikesCount = 1 ∧ p2.Score = 0 ∧ p2.LikesPercent = 50 :=
  ⟨by decide,
    C9_create_upvote_downvote_scenario ⟨"alice", "u1", "pw"⟩ "u2" 0 "" "p1" (by decide)⟩

/-- C10: `NewVoteList` has at most one entry per user id, and on an initialized vote list
with at most one entry per user id each of `Upvote`, `Downvote` and `Unvote` (any user id)
leaves a list with at most one entry per user id. -/
theorem C10_unique_by_user_preserved (l : VoteList) (votes : List Vote) (userID : String)
    (hinit : l.List = some votes) (huniq : UniqueByUser votes) :
    (∃ votes0, (NewVoteList userID).List = some votes0 ∧ UniqueByUser votes0) ∧
    (∃ votes1, (l.Upvote userID).1.List = some votes1 ∧ UniqueByUser votes1) ∧
    (∃ votes1, (l.Downvote userID).1.List = some votes1 ∧ UniqueByUser votes1) ∧
    (∃ votes1, (l.Unvote userID).1.List = some votes1 ∧ UniqueByUser votes1) := by
  refine ⟨⟨_, rfl, by simp [UniqueByUser]⟩, ?_⟩
  rcases absent_or_firstEntry userID votes with habs | ⟨i, v, hfirst⟩
  · rw [upvote_absent hinit habs, downvote_absent hinit habs, unvote_absent hinit habs]
    exact ⟨⟨_, rfl, uniqueByUser_append_absent votes _ huniq habs⟩,
      ⟨_, rfl, uniqueByUser_append_absent votes _ huniq habs⟩, ⟨_, hinit, huniq⟩⟩
  · have hne : votes ≠ [] := nonempty_of_getElem?_eq_some hfirst.1
    have hperm := set_getLast_dropLast_perm votes i v hfirst.1 hne
    rw [upvote_present hinit hfirst, downvote_present hinit hfirst,
      unvote_present_dropLast hinit hfirst]
    refine ⟨⟨_, rfl, ?_⟩, ⟨_, rfl, ?_⟩, ⟨_, rfl, (uniqueByUser_of_perm_cons huniq hperm).1⟩⟩
    · unfold UniqueByUser
      rw [map_userID_set_same votes i v { v with Value := Like } hfirst.1 rfl]
      exact huniq
    · unfold UniqueByUser
      rw [map_userID_set_same votes i v { v with Value := Dislike } hfirst.1 rfl]
      exact huniq

/-- C10 at a concrete list: "u2" votes on [("u1", Like), ("u2", Dislike)]. -/
theorem C10_unique_by_user_preserved_witness :
    UniqueByUser [{ UserID := "u1", Value := Like }, { UserID := "u2", Value := Dislike }] ∧
    ∃ votes1,
      (({ List := some [{ UserID := "u1", Value := Like },
            { UserID := "u2", Value := Dislike }],
          LikesCount := 1 } : VoteList).Unvote "u2").1.List = some votes1 ∧
      UniqueByUser votes1 :=
  ⟨by decide, (C10_unique_by_user_preserved
    { List := some [{ UserID := "u1", Value := Like }, { UserID := "u2", Value := Dislike }],
      LikesCount := 1 }
    [{ UserID := "u1", Value := Like }, { UserID := "u2", Value := Dislike }] "u2" rfl
    (by decide)).2.2.2⟩

/-! ## Range of the counters -/

/-- One call of a vote method moves LikesCount by at most one and the length of the list
by at most one, so the `int` counters of a post stay far inside the 64-bit range. -/
theorem vote_step_bounded (l : VoteList) (votes : List Vote) (userID : String)
    (hinit : l.List = some votes) :
    (|(l.Upvote userID).1.LikesCount - l.LikesCount| ≤ 1 ∧
      (l.Upvote userID).1.len ≤ l.len + 1) ∧
    (|(l.Downvote userID).1.LikesCount - l.LikesCount| ≤ 1 ∧
      (l.Downvote userID).1.len ≤ l.len + 1) ∧
    (|(l.Unvote userID).1.LikesCount - l.LikesCount| ≤ 1 ∧
      (l.Unvote userID).1.len ≤ l.len + 1) := by
  have hlen : l.len = votes.length := by simp [VoteList.len, hinit]
  rcases absent_or_firstEntry userID votes with habs | ⟨i, v, hfirst⟩
  · rw [upvote_absent hinit habs, downvote_absent hinit habs, unvote_absent hinit habs]
    simp [VoteList.len, hinit]
  · rw [upvote_present hinit hfirst, downvote_present hinit hfirst,
      unvote_present hinit hfirst, hlen]
    by_cases hlike : v.Value = Like
    · simp [VoteList.len, hlike]
      omega
    · simp [VoteList.len, hlike]
      omega

/-! ## Lookup by key -/

theorem rangeFind_key_eq_none_iff {α : Type} (key : α → String) (k : String) (xs : List α) :
    rangeFind (fun x => key x == k) xs = none ↔ ∀ x ∈ xs, key x ≠ k := by
  simp [rangeFind_eq_none_iff]

theorem rangeFind_key_eq_some_iff {α : Type} (key : α → String) (k : String) (xs : List α)
    (i : Nat) (x : α) :
    rangeFind (fun x => key x == k) xs = some (i, x) ↔ FirstWith key k xs i x := by
  rw [rangeFind_eq_some_iff]
  simp [FirstAt, FirstWith]

theorem absent_or_firstWith {α : Type} (key : α → String) (k : String) (xs : List α) :
    (∀ x ∈ xs, key x ≠ k) ∨ ∃ i x, FirstWith key k xs i x := by
  cases h : rangeFind (fun x => key x == k) xs with
  | none => exact Or.inl ((rangeFind_key_eq_none_iff key k xs).1 h)
  | some r =>
    obtain ⟨i, x⟩ := r
    exact Or.inr ⟨i, x, (rangeFind_key_eq_some_iff key k xs i x).1 h⟩

theorem firstWith_unique {α : Type} {key : α → String} {k : String} {xs : List α}
    {i j : Nat} {x y : α} (h1 : FirstWith key k xs i x) (h2 : FirstWith key k xs j y) :
    i = j ∧ x = y := by
  have e1 := (rangeFind_key_eq_some_iff key k xs i x).2 h1
  have e2 := (rangeFind_key_eq_some_iff key k xs j y).2 h2
  rw [e1] at e2
  simpa using e2

theorem firstWith_not_absent {α : Type} {key : α → String} {k : String} {xs : List α}
    {i : Nat} {x : α} (h : FirstWith key k xs i x) : ¬ ∀ y ∈ xs, key y ≠ k :=
  fun habs => habs x (List.getElem?_mem h.1) h.2.1

/-! ## Nil lists -/

theorem upvote_initialized_ok (l : VoteList) (votes : List Vote) (userID : String)
    (hinit : l.List = some votes) : (l.Upvote userID).2 = none := by
  rcases absent_or_firstEntry userID votes with habs | ⟨i, v, hfirst⟩
  · rw [upvote_absent hinit habs]
  · rw [upvote_present hinit hfirst]

theorem downvote_initialized_ok (l : VoteList) (votes : List Vote) (userID : String)
    (hinit : l.List = some votes) : (l.Downvote userID).2 = none := by
  rcases absent_or_firstEntry userID votes with habs | ⟨i, v, hfirst⟩
  · rw [downvote_absent hinit habs]
  · rw [downvote_present hinit hfirst]

theorem unvote_initialized_ok (l : VoteList) (votes : List Vote) (userID : String)
    (hinit : l.List = some votes) : (l.Unvote userID).2 = none := by
  rcases absent_or_firstEntry userID votes with habs | ⟨i, v, hfirst⟩
  · rw [unvote_absent hinit habs]
  · rw [unvote_present hinit hfirst]

/-- C11: `Upvote`, `Downvote` and `Unvote` return an error exactly when the vote list is
nil, and `CommentList.Add` returns an error exactly when the comment list is nil; the
errors are "nil vote list" and "nil comment list", and a failing call leaves the list
and LikesCount as they were (a failing `Upvote` does not raise LikesCount). -/
theorem C11_nil_list_errors (l : VoteList) (list : CommentList) (userID : String)
    (comm : Option Comment) :
    ((l.Upvote userID).2 ≠ none ↔ l.List = none) ∧
    ((l.Downvote userID).2 ≠ none ↔ l.List = none) ∧
    ((l.Unvote userID).2 ≠ none ↔ l.List = none) ∧
    (l.List = none →
      l.Upvote userID = (l, some (GoError.errorf "nil vote list")) ∧
      l.Downvote userID = (l, some (GoError.errorf "nil vote list")) ∧
      l.Unvote userID = (l, some (GoError.errorf "nil vote list"))) ∧
    ((list.Add comm).2 ≠ none ↔ list = none) ∧
    (list = none → list.Add comm = (list, some (GoError.errorf "nil comment list"))) := by
  have hnil : l.List = none →
      l.Upvote userID = (l, some (GoError.errorf "nil vote list")) ∧
      l.Downvote userID = (l, some (GoError.errorf "nil vote list")) ∧
      l.Unvote userID = (l, some (GoError.errorf "nil vote list")) := by
    intro h
    simp only [VoteList.Upvote, VoteList.Downvote, VoteList.Unvote, h, and_self]
  have hadd : list = none → list.Add comm = (list, some (GoError.errorf "nil comment list")) := by
    intro h
    subst h
    rfl
  cases hl : l.List with
  | none =>
    obtain ⟨h1, h2, h3⟩ := hnil hl
    refine ⟨by simp [h1], by simp [h2], by simp [h3], fun _ => ⟨h1, h2, h3⟩, ?_, hadd⟩
    cases list with
    | none => simp [hadd rfl]
    | some comms => simp [CommentList.Add]
  | some votes =>
    refine ⟨by simp [upvote_initialized_ok l votes userID hl],
      by simp [downvote_initialized_ok l votes userID hl],
      by simp [unvote_initialized_ok l votes userID hl], fun h => by simp at h, ?_, hadd⟩
    cases list with
    | none => simp [hadd rfl]
    | some comms => simp [CommentList.Add]

/-- C11 at concrete lists: an `Upvote` on the nil vote list, whose LikesCount is 3. -/
theorem C11_nil_list_errors_witness :
    ({ List := none, LikesCount := 3 } : VoteList).List = none ∧
    ({ List := none, LikesCount := 3 } : VoteList).Upvote "u1"
      = ({ List := none, LikesCount := 3 }, some (GoError.errorf "nil vote list")) :=
  ⟨rfl, ((C11_nil_list_errors { List := none, LikesCount := 3 } (some []) "u1"
    (some ⟨0, "", ⟨"alice", "u1", "pw"⟩, "text", "c1"⟩)).2.2.2.1 rfl).1⟩

/-! ## Comments -/

theorem rangeFindDeref_map_some {α : Type} (p : α → Bool) (xs : List α) :
    rangeFindDeref p (xs.map some) = some (rangeFind p xs) := by
  induction xs with
  | nil => rfl
  | cons x xs ih =>
    simp only [List.map_cons, rangeFindDeref, rangeFind, ih]
    by_cases h : p x = true
    · simp [h]
    · simp only [h, Bool.false_eq_true, if_false, Option.map_some']

theorem eq_map_some_of_no_nil {α : Type} (xs : List (Option α)) (h : ∀ x ∈ xs, x ≠ none) :
    ∃ ys : List α, xs = ys.map some := by
  induction xs with
  | nil => exact ⟨[], rfl⟩
  | cons x xs ih =>
    obtain ⟨ys, rfl⟩ := ih (fun y hy => h y (List.mem_cons_of_mem _ hy))
    cases x with
    | none => exact absurd rfl (h none (List.mem_cons_self _ _))
    | some a => exact ⟨a :: ys, rfl⟩

theorem firstCommentWith_map_some {id : String} {comms : List Comment} {i : Nat}
    {c : Comment} (h : FirstCommentWith id (comms.map some) i c) :
    FirstWith Comment.ID id comms i c := by
  obtain ⟨h1, h2, h3⟩ := h
  refine ⟨?_, h2, ?_⟩
  · rw [List.getElem?_map] at h1
    cases hc : comms[i]? with
    | none => rw [hc] at h1; cases h1
    | some y =>
      rw [hc] at h1
      simpa using h1
  · intro j hj y hy
    refine h3 j hj y ?_
    rw [List.getElem?_map, hy]
    rfl

theorem comment_delete_absent {comms : List Comment} {id : String} (reqID : String)
    (h : ∀ c ∈ comms, c.ID ≠ id) :
    CommentList.Delete (some (comms.map some)) id reqID =
      some (some (comms.map some),
        some (GoError.msgError { Msg := "comment not found", Status := 404 })) := by
  have hf := (rangeFind_key_eq_none_iff Comment.ID id comms).2 h
  simp only [CommentList.Delete, rangeFindDeref_map_some, hf]

theorem comment_delete_foreign {comms : List Comment} {id reqID : String} {i : Nat}
    {c : Comment} (h : FirstWith Comment.ID id comms i c) (hreq : c.Author.ID ≠ reqID) :
    CommentList.Delete (some (comms.map some)) id reqID =
      some (some (comms.map some),
        some (GoError.msgError { Msg := "unauthorized", Status := 401 })) := by
  have hf := (rangeFind_key_eq_some_iff Comment.ID id comms i c).2 h
  simp [CommentList.Delete, rangeFindDeref_map_some, hf, hreq]

theorem comment_delete_own {comms : List Comment} {id reqID : String} {i : Nat}
    {c : Comment} (h : FirstWith Comment.ID id comms i c) (hreq : c.Author.ID = reqID)
    (hne : comms.map some ≠ []) :
    CommentList.Delete (some (comms.map some)) id reqID =
      some (some (((comms.map some).set i ((comms.map some).getLast hne)).dropLast),
        none) := by
  have hf := (rangeFind_key_eq_some_iff Comment.ID id comms i c).2 h
  rw [← swap_remove_eq (comms.map some) i (some c) hne]
  simp only [CommentList.Delete, rangeFindDeref_map_some, hf]
  simp [hreq]

/-- C12 as stated fails on a list that holds a nil pointer (a post created with the body
`{"comments": [null]}` stores the list `[nil]`).  On `[nil]` no comment has the id "c1",
and `Delete "c1" "u1"` panics at the nil element instead of returning
("comment not found", 404); on `[nil, c1]`, with "c1" written by "u1", `Delete "c1" "u1"`
panics as well, before it reaches the comment. -/
theorem C12_delete_nil_element_counterexample :
    (∀ c : Comment, some c ∈ ([none] : List (Option Comment)) → c.ID ≠ "c1") ∧
    CommentList.Delete (some [none]) "c1" "u1" = none ∧
    CommentList.Delete (some [none, some ⟨0, "", ⟨"alice", "u1", "pw"⟩, "first", "c1"⟩])
      "c1" "u1" = none :=
  ⟨by simp, rfl, rfl⟩

/-- C12, amended: on an initialized comment list without nil elements `Delete` returns,
and it fails with MsgError ("comment not found", 404) exactly when no comment has the id;
otherwise, with the first comment of that id at position `i`, it fails with MsgError
("unauthorized", 401) exactly when that comment's author id differs from the requester
id; a failing call leaves the list unchanged; a successful call leaves the old list with
position `i` overwritten by the old last comment and the last position dropped, which is
one comment shorter and holds every comment of the old list except the deleted one. -/
theorem C12_comment_delete_amended (comms : List (Option Comment)) (id reqID : String)
    (hnn : ∀ x ∈ comms, x ≠ none) :
    ∃ r, CommentList.Delete (some comms) id reqID = some r ∧
      (r.2 = some (GoError.msgError { Msg := "comment not found", Status := 404 })
        ↔ ∀ c, some c ∈ comms → c.ID ≠ id) ∧
      (comms = [] →
        r.2 = some (GoError.msgError { Msg := "comment not found", Status := 404 })) ∧
      (∀ i c, FirstCommentWith id comms i c →
        (r.2 = some (GoError.msgError { Msg := "unauthorized", Status := 401 })
          ↔ c.Author.ID ≠ reqID) ∧
        (c.Author.ID = reqID →
          r.2 = none ∧
          ∃ last comms1, comms.getLast? = some last ∧
            comms1 = (comms.set i last).dropLast ∧
            r.1 = some comms1 ∧
            comms1.length + 1 = comms.length ∧
            comms.Perm (some c :: comms1) ∧
            ∀ w ∈ comms, w ≠ some c → w ∈ comms1)) ∧
      (r.2 ≠ none → r.1 = some comms) := by
  obtain ⟨cs, rfl⟩ := eq_map_some_of_no_nil comms hnn
  have hmem : (∀ c, some c ∈ cs.map some → c.ID ≠ id) ↔ ∀ c ∈ cs, c.ID ≠ id := by
    simp
  rcases absent_or_firstWith Comment.ID id cs with habs | ⟨i0, c0, hfirst⟩
  · refine ⟨_, comment_delete_absent reqID habs, ⟨fun _ => hmem.2 habs, fun _ => rfl⟩,
      fun _ => rfl, ?_, fun _ => rfl⟩
    intro i c hc
    exact absurd habs (firstWith_not_absent (firstCommentWith_map_some hc))
  · have hne0 : cs ≠ [] := nonempty_of_getElem?_eq_some hfirst.1
    have hne : cs.map some ≠ [] := by
      simpa using hne0
    have hget : (cs.map some)[i0]? = some (some c0) := by
      rw [List.getElem?_map, hfirst.1]
      rfl
    by_cases hreq : c0.Author.ID = reqID
    · refine ⟨_, comment_delete_own hfirst hreq hne, ?_, fun h => absurd h hne, ?_,
        fun h => absurd rfl h⟩
      · constructor
        · intro h
          cases h
        · intro h
          exact absurd (hmem.1 h) (firstWith_not_absent hfirst)
      · intro i c hc
        obtain ⟨rfl, rfl⟩ := firstWith_unique hfirst (firstCommentWith_map_some hc)
        refine ⟨by simp [hreq], fun _ => ⟨rfl, ?_⟩⟩
        have hperm := set_getLast_dropLast_perm (cs.map some) i0 (some c0) hget hne
        refine ⟨(cs.map some).getLast hne, _, List.getLast?_eq_getLast _ hne, rfl, rfl, ?_,
          hperm, ?_⟩
        · have := hperm.length_eq
          simp only [List.length_cons] at this
          omega
        · intro w hw hwc
          have := (hperm.mem_iff (a := w)).1 hw
          rcases List.mem_cons.1 this with h | h
          · exact absurd h hwc
          · exact h
    · refine ⟨_, comment_delete_foreign hfirst hreq, ?_, fun h => absurd h hne, ?_,
        fun _ => rfl⟩
      · constructor
        · intro h
          simp at h
        · intro h
          exact absurd (hmem.1 h) (firstWith_not_absent hfirst)
      · intro i c hc
        obtain ⟨rfl, rfl⟩ := firstWith_unique hfirst (firstCommentWith_map_some hc)
        exact ⟨by simp [hreq], fun h => absurd h hreq⟩

/-- C12, amended, at a concrete list: "u1" deletes the own comment "c1", the first of the
three comments "c1", "c2", "c3"; the call succeeds and leaves "c3", "c2". -/
theorem C12_comment_delete_amended_witness :
    (∀ x ∈ [some (⟨0, "", ⟨"alice", "u1", "pw"⟩, "first", "c1"⟩ : Comment),
            some ⟨1, "", ⟨"bob", "u2", "pw"⟩, "second", "c2"⟩,
            some ⟨2, "", ⟨"carol", "u3", "pw"⟩, "third", "c3"⟩], x ≠ none) ∧
    FirstCommentWith "c1"
      [some ⟨0, "", ⟨"alice", "u1", "pw"⟩, "first", "c1"⟩,
       some ⟨1, "", ⟨"bob", "u2", "pw"⟩, "second", "c2"⟩,
       some ⟨2, "", ⟨"carol", "u3", "pw"⟩, "third", "c3"⟩] 0
      ⟨0, "", ⟨"alice", "u1", "pw"⟩, "first", "c1"⟩ ∧
    ∃ r, CommentList.Delete
        (some [some ⟨0, "", ⟨"alice", "u1", "pw"⟩, "first", "c1"⟩,
               some ⟨1, "", ⟨"bob", "u2", "pw"⟩, "second", "c2"⟩,
               some ⟨2, "", ⟨"carol", "u3", "pw"⟩, "third", "c3"⟩]) "c1" "u1" = some r ∧
      r.2 = none ∧
      r.1 = some [some ⟨2, "", ⟨"carol", "u3", "pw"⟩, "third", "c3"⟩,
                  some ⟨1, "", ⟨"bob", "u2", "pw"⟩, "second", "c2"⟩] :=
  have hfirst : FirstCommentWith "c1"
      [some ⟨0, "", ⟨"alice", "u1", "pw"⟩, "first", "c1"⟩,
       some ⟨1, "", ⟨"bob", "u2", "pw"⟩, "second", "c2"⟩,
       some ⟨2, "", ⟨"carol", "u3", "pw"⟩, "third", "c3"⟩] 0
      ⟨0, "", ⟨"alice", "u1", "pw"⟩, "first", "c1"⟩ :=
    ⟨rfl, rfl, fun j hj => absurd hj (Nat.not_lt_zero j)⟩
  ⟨by decide, hfirst,
    (C12_comment_delete_amended
      [some ⟨0, "", ⟨"alice", "u1", "pw"⟩, "first", "c1"⟩,
       some ⟨1, "", ⟨"bob", "u2", "pw"⟩, "second", "c2"⟩,
       some ⟨2, "", ⟨"carol", "u3", "pw"⟩, "third", "c3"⟩] "c1" "u1" (by decide)).imp
      (fun _ h =>
        ⟨h.1, ((h.2.2.2.1 0 _ hfirst).2 rfl).1,
          match (h.2.2.2.1 0 _ hfirst).2 rfl with
          | ⟨_, _, _, hlast, hc1, hr, _⟩ =>
            hr.trans (congrArg some (hc1.trans
              (congrArg (fun l => (List.set _ 0 l).dropLast)
                (Option.some.inj hlast).symm)))⟩)⟩

theorem rangeFind_append_new {α : Type} (key : α → String) (xs : List α) (x : α)
    (h : ∀ y ∈ xs, key y ≠ key x) :
    rangeFind (fun y => key y == key x) (xs ++ [x]) = some (xs.length, x) := by
  rw [rangeFind_key_eq_some_iff]
  refine ⟨by simp, rfl, ?_⟩
  intro j hj y hy
  rw [List.getElem?_append_left hj] at hy
  exact h y (List.getElem?_mem hy)

/-- C13 as stated fails on a list that holds a nil pointer: no comment of `[nil]` has the
id "c2", `Add` of the comment "c2" succeeds and gives `[nil, c2]`, and the following
`Delete "c2" "u2"` by the author panics at the nil element instead of giving back
`[nil]`. -/
theorem C13_add_delete_nil_element_counterexample :
    (∀ x : Comment, some x ∈ ([none] : List (Option Comment)) → x.ID ≠ "c2") ∧
    CommentList.Add (some [none]) (some ⟨1, "", ⟨"bob", "u2", "pw"⟩, "second", "c2"⟩)
      = (some [none, some ⟨1, "", ⟨"bob", "u2", "pw"⟩, "second", "c2"⟩], none) ∧
    CommentList.Delete
        (CommentList.Add (some [none])
          (some ⟨1, "", ⟨"bob", "u2", "pw"⟩, "second", "c2"⟩)).1 "c2" "u2"
      = none :=
  ⟨by simp, rfl, rfl⟩

/-- C13, amended: for an initialized comment list `comms` without nil elements and a
comment `c` whose id occurs in no comment of `comms`, `Add c` succeeds and a following
`Delete` of `c.ID` by the author of `c` succeeds and gives back exactly `comms`. -/
theorem C13_add_then_delete_amended (comms : List (Option Comment)) (c : Comment)
    (hnn : ∀ x ∈ comms, x ≠ none) (hnew : ∀ x, some x ∈ comms → x.ID ≠ c.ID) :
    (CommentList.Add (some comms) (some c)).2 = none ∧
    CommentList.Delete (CommentList.Add (some comms) (some c)).1 c.ID c.Author.ID
      = some (some comms, none) := by
  refine ⟨rfl, ?_⟩
  obtain ⟨cs, rfl⟩ := eq_map_some_of_no_nil comms hnn
  have hnew2 : ∀ x ∈ cs, x.ID ≠ c.ID := fun x hx =>
    hnew x (List.mem_map.2 ⟨x, hx, rfl⟩)
  have hf := rangeFind_append_new Comment.ID cs c hnew2
  have happ : cs.map some ++ [some c] = (cs ++ [c]).map some := by simp
  simp only [CommentList.Add, CommentList.Delete, happ, rangeFindDeref_map_some, hf]
  simp

/-- C13, amended, at a concrete list: the comment "c2" is added to a list holding "c1"
and removed again by its author "u2". -/
theorem C13_add_then_delete_amended_witness :
    (∀ x ∈ [some (⟨0, "", ⟨"alice", "u1", "pw"⟩, "first", "c1"⟩ : Comment)], x ≠ none) ∧
    (∀ x : Comment, some x ∈ [some (⟨0, "", ⟨"alice", "u1", "pw"⟩, "first", "c1"⟩ : Comment)] →
      x.ID ≠ "c2") ∧
    CommentList.Delete
        (CommentList.Add (some [some ⟨0, "", ⟨"alice", "u1", "pw"⟩, "first", "c1"⟩])
          (some ⟨1, "", ⟨"bob", "u2", "pw"⟩, "second", "c2"⟩)).1 "c2" "u2"
      = some (some [some ⟨0, "", ⟨"alice", "u1", "pw"⟩, "first", "c1"⟩], none) :=
  have hnew : ∀ x : Comment,
      some x ∈ [some (⟨0, "", ⟨"alice", "u1", "pw"⟩, "first", "c1"⟩ : Comment)] →
        x.ID ≠ "c2" := by
    intro x hx
    rw [List.mem_singleton] at hx
    cases hx
    decide
  ⟨by decide, hnew,
    (C13_add_then_delete_amended [some ⟨0, "", ⟨"alice", "u1", "pw"⟩, "first", "c1"⟩]
      ⟨1, "", ⟨"bob", "u2", "pw"⟩, "second", "c2"⟩ (by decide) hnew).2⟩

/-! ## Comments and views of a stored post -/

theorem addComment_absent {repo : PostMemoryRepository} {postID : String}
    (comm : Option Comment)
    (h : ∀ post ∈ repo.data, post.ID ≠ postID) :
    repo.AddComment postID comm =
      (repo, none, some (GoError.msgError { Msg := "post not found", Status := 404 })) := by
  have hf := (rangeFind_key_eq_none_iff Post.ID postID repo.data).2 h
  simp only [PostMemoryRepository.AddComment, hf]

theorem addComment_present {repo : PostMemoryRepository} {postID : String} {i : Nat} {p : Post}
    {comms : List (Option Comment)} (comm : Option Comment)
    (h : FirstWith Post.ID postID repo.data i p)
    (hinit : p.Comments = some comms) :
    repo.AddComment postID comm =
      ({ data := repo.data.set i { p with Comments := some (comms ++ [comm]) } },
        some { p with Comments := some (comms ++ [comm]) }, none) := by
  have hf := (rangeFind_key_eq_some_iff Post.ID postID repo.data i p).2 h
  simp only [PostMemoryRepository.AddComment, hf, hinit, CommentList.Add]

theorem addComment_nil {repo : PostMemoryRepository} {postID : String} {i : Nat} {p : Post}
    (comm : Option Comment) (h : FirstWith Post.ID postID repo.data i p)
    (hnil : p.Comments = none) :
    repo.AddComment postID comm = (repo, none, some (GoError.errorf "nil comment list")) := by
  have hf := (rangeFind_key_eq_some_iff Post.ID postID repo.data i p).2 h
  simp only [PostMemoryRepository.AddComment, hf, hnil, CommentList.Add]

/-- C14 as stated fails: the repository holds one post with id "p1" whose comment list is
nil (a post created with the body `{"comments": null}`); `AddComment "p1" c` returns no
post and the error "nil comment list", and the stored post keeps its nil comment list,
although a stored post has that id. -/
theorem C14_addComment_nil_list_counterexample :
    (∃ post ∈ [{ NewPost ⟨"alice", "u1", "pw"⟩ 0 "" "p1" with Comments := none }],
      post.ID = "p1") ∧
    PostMemoryRepository.AddComment
        { data := [{ NewPost ⟨"alice", "u1", "pw"⟩ 0 "" "p1" with Comments := none }] } "p1"
        (some ⟨1, "", ⟨"bob", "u2", "pw"⟩, "hello", "c1"⟩)
      = ({ data := [{ NewPost ⟨"alice", "u1", "pw"⟩ 0 "" "p1" with Comments := none }] }, none,
          some (GoError.errorf "nil comment list")) :=
  ⟨⟨_, List.mem_singleton.2 rfl, rfl⟩, by decide⟩

/-- C14, amended: `AddComment` fails with MsgError ("post not found", 404) exactly when no
stored post has the id, and then changes nothing; otherwise, with `p` the first stored post
of that id: when the comment list of `p` is initialized, `p` gets Comments = old Comments
followed by the comment, no other field of `p` and no other post changes, and the updated
post is returned with a nil error; when the comment list of `p` is nil the call returns no
post and the error "nil comment list" and changes nothing. -/
theorem C14_addComment_amended (repo : PostMemoryRepository) (postID : String)
    (comm : Option Comment) :
    ((repo.AddComment postID comm).2.2
        = some (GoError.msgError { Msg := "post not found", Status := 404 })
      ↔ ∀ post ∈ repo.data, post.ID ≠ postID) ∧
    ((∀ post ∈ repo.data, post.ID ≠ postID) →
      repo.AddComment postID comm =
        (repo, none, some (GoError.msgError { Msg := "post not found", Status := 404 }))) ∧
    (∀ i p, FirstWith Post.ID postID repo.data i p →
      (∀ comms, p.Comments = some comms →
        repo.AddComment postID comm =
          ({ data := repo.data.set i { p with Comments := some (comms ++ [comm]) } },
            some { p with Comments := some (comms ++ [comm]) }, none)) ∧
      (p.Comments = none →
        repo.AddComment postID comm =
          (repo, none, some (GoError.errorf "nil comment list")))) := by
  refine ⟨?_, fun h => addComment_absent comm h, ?_⟩
  · rcases absent_or_firstWith Post.ID postID repo.data with habs | ⟨i, p, hfirst⟩
    · rw [addComment_absent comm habs]
      exact ⟨fun _ => habs, fun _ => rfl⟩
    · constructor
      · intro h
        cases hc : p.Comments with
        | none =>
          rw [addComment_nil comm hfirst hc] at h
          simp at h
        | some comms =>
          rw [addComment_present comm hfirst hc] at h
          simp at h
      · intro h
        exact absurd h (firstWith_not_absent hfirst)
  · intro i p hfirst
    exact ⟨fun comms hc => addComment_present comm hfirst hc,
      fun hc => addComment_nil comm hfirst hc⟩

/-- C14, amended, at a concrete repository: a comment is added to the post "p1" that
"u1" has just created. -/
theorem C14_addComment_amended_witness :
    FirstWith Post.ID "p1" [NewPost ⟨"alice", "u1", "pw"⟩ 0 "" "p1"] 0
      (NewPost ⟨"alice", "u1", "pw"⟩ 0 "" "p1") ∧
    PostMemoryRepository.AddComment { data := [NewPost ⟨"alice", "u1", "pw"⟩ 0 "" "p1"] } "p1"
        (some ⟨1, "", ⟨"bob", "u2", "pw"⟩, "hello", "c1"⟩)
      = ({ data := [{ NewPost ⟨"alice", "u1", "pw"⟩ 0 "" "p1" with
            Comments := some [some ⟨1, "", ⟨"bob", "u2", "pw"⟩, "hello", "c1"⟩] }] },
          some { NewPost ⟨"alice", "u1", "pw"⟩ 0 "" "p1" with
            Comments := some [some ⟨1, "", ⟨"bob", "u2", "pw"⟩, "hello", "c1"⟩] }, none) :=
  have hfirst : FirstWith Post.ID "p1" [NewPost ⟨"alice", "u1", "pw"⟩ 0 "" "p1"] 0
      (NewPost ⟨"alice", "u1", "pw"⟩ 0 "" "p1") :=
    ⟨rfl, rfl, fun j hj => absurd hj (Nat.not_lt_zero j)⟩
  ⟨hfirst,
    ((C14_addComment_amended { data := [NewPost ⟨"alice", "u1", "pw"⟩ 0 "" "p1"] } "p1"
      (some ⟨1, "", ⟨"bob", "u2", "pw"⟩, "hello", "c1"⟩)).2.2 0 _ hfirst).1 [] rfl⟩

/-! ## Sorted listings -/

theorem sortSlice_perm {α : Type} (less : α → α → Bool) (xs : List α) :
    (sortSlice less xs).Perm xs :=
  List.perm_insertionSort _ xs

theorem sortSlice_pairwise {α : Type} (less : α → α → Bool)
    (htotal : ∀ a b, less b a = false ∨ less a b = false)
    (htrans : ∀ a b c, less b a = false → less c b = false → less c a = false)
    (xs : List α) :
    (sortSlice less xs).Pairwise (fun a b => less b a = false) := by
  haveI : IsTotal α (fun a b => less b a = false) := ⟨htotal⟩
  haveI : IsTrans α (fun a b => less b a = false) := ⟨htrans⟩
  exact List.sorted_insertionSort (fun a b => less b a = false) xs

theorem pairwise_at {α : Type} {R : α → α → Prop} {xs : List α} (h : xs.Pairwise R)
    {i j : Nat} {a b : α} (hij : i < j) (ha : xs[i]? = some a) (hb : xs[j]? = some b) :
    R a b := by
  obtain ⟨hi, rfl⟩ := List.getElem?_eq_some.1 ha
  obtain ⟨hj, rfl⟩ := List.getElem?_eq_some.1 hb
  exact List.pairwise_iff_getElem.1 h i j hi hj hij

theorem lessByScore_total (a b : Post) :
    lessByScore b a = false ∨ lessByScore a b = false := by
  unfold lessByScore
  by_cases h : a.Score = b.Score
  · simp only [h, if_true, decide_eq_false_iff_not]
    unfold Time
    omega
  · have h2 : ¬ b.Score = a.Score := fun e => h e.symm
    simp only [h, h2, if_false, decide_eq_false_iff_not]
    omega

theorem lessByScore_trans (a b c : Post) (h1 : lessByScore b a = false)
    (h2 : lessByScore c b = false) : lessByScore c a = false := by
  unfold lessByScore at *
  unfold Time at *
  split_ifs at h1 h2 ⊢ <;> simp only [decide_eq_false_iff_not] at h1 h2 ⊢ <;> omega

theorem sortSlice_lessByScore_ordered (xs : List Post) :
    OrderedByScore (sortSlice lessByScore xs) := by
  intro i j a b hij ha hb
  have h := pairwise_at (sortSlice_pairwise lessByScore lessByScore_total lessByScore_trans xs)
    hij ha hb
  unfold lessByScore at h
  unfold Time at *
  by_cases hs : b.Score = a.Score
  · simp only [hs, if_true, decide_eq_false_iff_not] at h
    exact Or.inr ⟨hs.symm, by omega⟩
  · simp only [hs, if_false, decide_eq_false_iff_not] at h
    exact Or.inl (by omega)

theorem lessByCreated_total (a b : Post) :
    lessByCreated b a = false ∨ lessByCreated a b = false := by
  simp only [lessByCreated, decide_eq_false_iff_not]
  unfold Time
  omega

theorem lessByCreated_trans (a b c : Post) (h1 : lessByCreated b a = false)
    (h2 : lessByCreated c b = false) : lessByCreated c a = false := by
  simp only [lessByCreated, decide_eq_false_iff_not] at *
  unfold Time at *
  omega

theorem sortSlice_lessByCreated_newestFirst (xs : List Post) :
    NewestFirst (sortSlice lessByCreated xs) := by
  intro i j a b hij ha hb
  have h := pairwise_at
    (sortSlice_pairwise lessByCreated lessByCreated_total lessByCreated_trans xs) hij ha hb
  simp only [lessByCreated, decide_eq_false_iff_not] at h
  unfold Time at *
  omega

/-- C15: `GetAll` returns, with a nil error, a rearrangement of the stored posts (every
stored post exactly once), and `GetByCategory c` returns, with a nil error, a
rearrangement of the stored posts whose category is `c`; in both results, of two
positions i < j, either Score[i] > Score[j], or Score[i] = Score[j] and Created[i] is not
after Created[j].  Of two posts of score 5 the one created at time 1 precedes the one
created at time 2, and both precede a post of score 3. -/
theorem C15_listings_by_score (repo : PostMemoryRepository) (category : String) :
    repo.GetAll.2.2 = none ∧
    repo.GetAll.2.1.Perm repo.data ∧
    OrderedByScore repo.GetAll.2.1 ∧
    (repo.GetByCategory category).2 = none ∧
    (repo.GetByCategory category).1.Perm
      (repo.data.filter (fun post => decide (post.Category = category))) ∧
    (∀ post, post ∈ (repo.GetByCategory category).1 ↔
      post ∈ repo.data ∧ post.Category = category) ∧
    OrderedByScore (repo.GetByCategory category).1 ∧
    (PostMemoryRepository.GetAll
        { data := [{ NewPost ⟨"alice", "u1", "pw"⟩ 3 "" "p3" with Score := 3 },
                   { NewPost ⟨"alice", "u1", "pw"⟩ 2 "" "p2" with Score := 5 },
                   { NewPost ⟨"alice", "u1", "pw"⟩ 1 "" "p1" with Score := 5 }] }).2.1
      = [{ NewPost ⟨"alice", "u1", "pw"⟩ 1 "" "p1" with Score := 5 },
         { NewPost ⟨"alice", "u1", "pw"⟩ 2 "" "p2" with Score := 5 },
         { NewPost ⟨"alice", "u1", "pw"⟩ 3 "" "p3" with Score := 3 }] := by
  refine ⟨rfl, sortSlice_perm _ _, sortSlice_lessByScore_ordered _, rfl, ?_, ?_,
    sortSlice_lessByScore_ordered _, by decide⟩
  · have h := sortSlice_perm lessByScore
      (repo.data.filter (fun post => post.Category == category))
    simpa [PostMemoryRepository.GetByCategory] using h
  · intro post
    have h := sortSlice_perm lessByScore
      (repo.data.filter (fun post => post.Category == category))
    simp [PostMemoryRepository.GetByCategory, h.mem_iff]

/-- C16: `GetByUser username` returns, with a nil error, a rearrangement of the stored
posts whose author has that username, ordered by Created descending whatever the scores:
of two positions i < j, Created[i] is not before Created[j].  A post of score 1 created
at time 2 precedes a post of score 10 created at time 1. -/
theorem C16_getByUser_newest_first (repo : PostMemoryRepository) (username : String) :
    (repo.GetByUser username).2 = none ∧
    (repo.GetByUser username).1.Perm
      (repo.data.filter (fun post => decide (post.Author.Username = username))) ∧
    (∀ post, post ∈ (repo.GetByUser username).1 ↔
      post ∈ repo.data ∧ post.Author.Username = username) ∧
    NewestFirst (repo.GetByUser username).1 ∧
    (PostMemoryRepository.GetByUser
        { data := [{ NewPost ⟨"alice", "u1", "pw"⟩ 1 "" "p1" with Score := 10 },
                   { NewPost ⟨"alice", "u1", "pw"⟩ 2 "" "p2" with Score := 1 }] } "alice").1
      = [{ NewPost ⟨"alice", "u1", "pw"⟩ 2 "" "p2" with Score := 1 },
         { NewPost ⟨"alice", "u1", "pw"⟩ 1 "" "p1" with Score := 10 }] := by
  refine ⟨rfl, ?_, ?_, sortSlice_lessByCreated_newestFirst _, by decide⟩
  · have h := sortSlice_perm lessByCreated
      (repo.data.filter (fun post => post.Author.Username == username))
    simpa [PostMemoryRepository.GetByUser] using h
  · intro post
    have h := sortSlice_perm lessByCreated
      (repo.data.filter (fun post => post.Author.Username == username))
    simp [PostMemoryRepository.GetByUser, h.mem_iff]

theorem getByID_absent {repo : PostMemoryRepository} {id : String}
    (h : ∀ post ∈ repo.data, post.ID ≠ id) :
    repo.GetByID id =
      (repo, none, some (GoError.msgError { Msg := "post not found", Status := 404 })) := by
  have hf := (rangeFind_key_eq_none_iff Post.ID id repo.data).2 h
  simp only [PostMemoryRepository.GetByID, hf]

theorem getByID_present {repo : PostMemoryRepository} {id : String} {i : Nat} {p : Post}
    (h : FirstWith Post.ID id repo.data i p) :
    repo.GetByID id =
      ({ data := repo.data.set i { p with Views := (p.Views + 1) % 4294967296 } },
        some { p with Views := (p.Views + 1) % 4294967296 }, none) := by
  have hf := (rangeFind_key_eq_some_iff Post.ID id repo.data i p).2 h
  simp only [PostMemoryRepository.GetByID, hf]

/-- C17 as stated fails: the repository holds one post with id "p1" whose Views is
4294967295, the largest `uint32` (a post created with the body `{"views": 4294967295}`);
`GetByID "p1"` returns the post with Views 0, not with its previous Views plus 1. -/
theorem C17_getByID_views_wrap_counterexample :
    ∃ repo1 p1,
      PostMemoryRepository.GetByID
          { data := [{ NewPost ⟨"alice", "u1", "pw"⟩ 0 "" "p1" with Views := 4294967295 }] }
          "p1"
        = (repo1, some p1, none) ∧
      p1.Views = 0 ∧ p1.Views ≠ 4294967295 + 1 :=
  ⟨_, _, rfl, by decide, by decide⟩

/-- C17, amended: `GetByID` fails with MsgError ("post not found", 404) exactly when no
stored post has the id, and then leaves the store unchanged; otherwise it returns, with a
nil error, the first stored post of that id with Views equal to its previous Views plus 1
modulo 2^32 (its previous Views plus 1 unless that was 4294967295), every other field of
that post and every other stored post being unchanged. -/
theorem C17_getByID_amended (repo : PostMemoryRepository) (id : String) :
    ((repo.GetByID id).2.2
        = some (GoError.msgError { Msg := "post not found", Status := 404 })
      ↔ ∀ post ∈ repo.data, post.ID ≠ id) ∧
    ((∀ post ∈ repo.data, post.ID ≠ id) →
      repo.GetByID id =
        (repo, none, some (GoError.msgError { Msg := "post not found", Status := 404 }))) ∧
    (∀ i p, FirstWith Post.ID id repo.data i p →
      ∃ p1, repo.GetByID id = ({ data := repo.data.set i p1 }, some p1, none) ∧
        p1 = { p with Views := p1.Views } ∧
        p1.Views = (p.Views + 1) % 2 ^ 32 ∧
        (p.Views < 4294967295 → p1.Views = p.Views + 1) ∧
        (∀ j, j ≠ i → (repo.data.set i p1)[j]? = repo.data[j]?)) := by
  refine ⟨?_, fun h => getByID_absent h, ?_⟩
  · rcases absent_or_firstWith Post.ID id repo.data with habs | ⟨i, p, hfirst⟩
    · rw [getByID_absent habs]
      exact ⟨fun _ => habs, fun _ => rfl⟩
    · rw [getByID_present hfirst]
      constructor
      · intro h
        simp at h
      · intro h
        exact absurd h (firstWith_not_absent hfirst)
  · intro i p hfirst
    refine ⟨_, getByID_present hfirst, rfl, by norm_num, ?_, ?_⟩
    · intro hlt
      show (p.Views + 1) % 4294967296 = p.Views + 1
      exact Nat.mod_eq_of_lt (by omega)
    · intro j hj
      exact getElem?_set_other repo.data i j _ hj

/-- C17, amended, at a concrete repository: the post "p1" has just been created and is
looked up once. -/
theorem C17_getByID_amended_witness :
    FirstWith Post.ID "p1" [NewPost ⟨"alice", "u1", "pw"⟩ 0 "" "p1"] 0
      (NewPost ⟨"alice", "u1", "pw"⟩ 0 "" "p1") ∧
    ∃ p1,
      PostMemoryRepository.GetByID { data := [NewPost ⟨"alice", "u1", "pw"⟩ 0 "" "p1"] } "p1"
        = ({ data := [NewPost ⟨"alice", "u1", "pw"⟩ 0 "" "p1"].set 0 p1 }, some p1, none) ∧
      p1 = { NewPost ⟨"alice", "u1", "pw"⟩ 0 "" "p1" with Views := p1.Views } ∧
      p1.Views = ((NewPost ⟨"alice", "u1", "pw"⟩ 0 "" "p1").Views + 1) % 2 ^ 32 ∧
      ((NewPost ⟨"alice", "u1", "pw"⟩ 0 "" "p1").Views < 4294967295 →
        p1.Views = (NewPost ⟨"alice", "u1", "pw"⟩ 0 "" "p1").Views + 1) ∧
      (∀ j, j ≠ 0 → ([NewPost ⟨"alice", "u1", "pw"⟩ 0 "" "p1"].set 0 p1)[j]?
        = [NewPost ⟨"alice", "u1", "pw"⟩ 0 "" "p1"][j]?) :=
  have hfirst : FirstWith Post.ID "p1" [NewPost ⟨"alice", "u1", "pw"⟩ 0 "" "p1"] 0
      (NewPost ⟨"alice", "u1", "pw"⟩ 0 "" "p1") :=
    ⟨rfl, rfl, fun j hj => absurd hj (Nat.not_lt_zero j)⟩
  ⟨hfirst,
    (C17_getByID_amended { data := [NewPost ⟨"alice", "u1", "pw"⟩ 0 "" "p1"] } "p1").2.2 0 _
      hfirst⟩

/-! ## Deleting a post -/

theorem deletePost_absent {repo : PostMemoryRepository} {postID : String} (userID : String)
    (h : ∀ post ∈ repo.data, post.ID ≠ postID) :
    repo.DeletePost postID userID =
      (repo, some (GoError.msgError { Msg := "post not found", Status := 404 })) := by
  have hf := (rangeFind_key_eq_none_iff Post.ID postID repo.data).2 h
  simp only [PostMemoryRepository.DeletePost, hf]

theorem deletePost_foreign {repo : PostMemoryRepository} {postID userID : String} {i : Nat}
    {p : Post} (h : FirstWith Post.ID postID repo.data i p) (hreq : p.Author.ID ≠ userID) :
    repo.DeletePost postID userID =
      (repo, some (GoError.msgError { Msg := "unauthorized", Status := 401 })) := by
  have hf := (rangeFind_key_eq_some_iff Post.ID postID repo.data i p).2 h
  simp [PostMemoryRepository.DeletePost, hf, hreq]

theorem deletePost_own {repo : PostMemoryRepository} {postID userID : String} {i : Nat}
    {p : Post} (h : FirstWith Post.ID postID repo.data i p) (hreq : p.Author.ID = userID) :
    repo.DeletePost postID userID =
      ({ data := (repo.data.set i
          (repo.data.getLast (nonempty_of_getElem?_eq_some h.1))).dropLast },
        some (GoError.msgError { Msg := "success", Status := 200 })) := by
  have hf := (rangeFind_key_eq_some_iff Post.ID postID repo.data i p).2 h
  rw [← swap_remove_eq repo.data i p (nonempty_of_getElem?_eq_some h.1)]
  simp [PostMemoryRepository.DeletePost, hf, hreq]

theorem absent_of_perm_cons_nodup {xs ys : List Post} {p : Post}
    (hperm : xs.Perm (p :: ys)) (hnodup : (xs.map Post.ID).Nodup) :
    ∀ post ∈ ys, post.ID ≠ p.ID := by
  have h1 : (p.ID :: ys.map Post.ID).Nodup := by
    have := (hperm.map Post.ID).nodup_iff.1 hnodup
    simpa using this
  intro post hpost heq
  exact (List.nodup_cons.1 h1).1 (heq ▸ List.mem_map_of_mem Post.ID hpost)

/-- C18: `DeletePost` never returns a nil error.  It returns MsgError
("post not found", 404) exactly when no stored post has the id; otherwise, with `p` the
first stored post of that id at position `i`, it returns MsgError ("unauthorized", 401)
exactly when the author id of `p` differs from the user id, and MsgError ("success", 200)
when it matches.  Unless it returns success the store is unchanged; on success the new
store is the old one with position `i` overwritten by the old last post and the last
position dropped, so it is one post shorter and the old store is a rearrangement of `p`
followed by the new store; when the stored ids are pairwise distinct, a following
`GetByID` of the id fails with MsgError ("post not found", 404). -/
theorem C18_deletePost (repo : PostMemoryRepository) (postID userID : String) :
    (repo.DeletePost postID userID).2 ≠ none ∧
    ((repo.DeletePost postID userID).2
        = some (GoError.msgError { Msg := "post not found", Status := 404 })
      ↔ ∀ post ∈ repo.data, post.ID ≠ postID) ∧
    (∀ i p, FirstWith Post.ID postID repo.data i p →
      ((repo.DeletePost postID userID).2
          = some (GoError.msgError { Msg := "unauthorized", Status := 401 })
        ↔ p.Author.ID ≠ userID) ∧
      (p.Author.ID = userID →
        (repo.DeletePost postID userID).2
          = some (GoError.msgError { Msg := "success", Status := 200 }) ∧
        ∃ last, repo.data.getLast? = some last ∧
          (repo.DeletePost postID userID).1.data = (repo.data.set i last).dropLast ∧
          (repo.DeletePost postID userID).1.data.length + 1 = repo.data.length ∧
          repo.data.Perm (p :: (repo.DeletePost postID userID).1.data) ∧
          ((repo.data.map Post.ID).Nodup →
            (repo.DeletePost postID userID).1.GetByID postID =
              ((repo.DeletePost postID userID).1, none,
                some (GoError.msgError { Msg := "post not found", Status := 404 }))))) ∧
    ((repo.DeletePost postID userID).2
        ≠ some (GoError.msgError { Msg := "success", Status := 200 }) →
      (repo.DeletePost postID userID).1 = repo) := by
  rcases absent_or_firstWith Post.ID postID repo.data with habs | ⟨i0, p0, hfirst⟩
  · rw [deletePost_absent userID habs]
    refine ⟨by simp, ⟨fun _ => habs, fun _ => rfl⟩, ?_, fun _ => rfl⟩
    intro i p hp
    exact absurd habs (firstWith_not_absent hp)
  · have hne : repo.data ≠ [] := nonempty_of_getElem?_eq_some hfirst.1
    by_cases hreq : p0.Author.ID = userID
    · rw [deletePost_own hfirst hreq]
      refine ⟨by simp, ?_, ?_, fun h => absurd rfl h⟩
      · constructor
        · intro h
          simp at h
        · intro h
          exact absurd h (firstWith_not_absent hfirst)
      · intro i p hp
        obtain ⟨rfl, rfl⟩ := firstWith_unique hfirst hp
        refine ⟨by simp [hreq], fun _ => ⟨rfl, ?_⟩⟩
        have hperm := set_getLast_dropLast_perm repo.data i0 p0 hfirst.1 hne
        refine ⟨repo.data.getLast hne, List.getLast?_eq_getLast repo.data hne, rfl, ?_, hperm,
          ?_⟩
        · have := hperm.length_eq
          simp only [List.length_cons] at this
          show ((repo.data.set i0 (repo.data.getLast hne)).dropLast).length + 1 = _
          omega
        · intro hnodup
          have hgone := absent_of_perm_cons_nodup hperm hnodup
          rw [hfirst.2.1] at hgone
          exact getByID_absent hgone
    · rw [deletePost_foreign hfirst hreq]
      refine ⟨by simp, ?_, ?_, fun _ => rfl⟩
      · constructor
        · intro h
          simp at h
        · intro h
          exact absurd h (firstWith_not_absent hfirst)
      · intro i p hp
        obtain ⟨rfl, rfl⟩ := firstWith_unique hfirst hp
        exact ⟨by simp [hreq], fun h => absurd h hreq⟩

/-- C18 at a concrete repository: "u1" deletes the own post "p1" from a store that also
holds "p2"; the call returns success and "p1" is no longer found. -/
theorem C18_deletePost_witness :
    FirstWith Post.ID "p1"
      [NewPost ⟨"alice", "u1", "pw"⟩ 0 "" "p1", NewPost ⟨"bob", "u2", "pw"⟩ 1 "" "p2"] 0
      (NewPost ⟨"alice", "u1", "pw"⟩ 0 "" "p1") ∧
    (NewPost ⟨"alice", "u1", "pw"⟩ 0 "" "p1").Author.ID = "u1" ∧
    (PostMemoryRepository.DeletePost
        { data := [NewPost ⟨"alice", "u1", "pw"⟩ 0 "" "p1",
                   NewPost ⟨"bob", "u2", "pw"⟩ 1 "" "p2"] } "p1" "u1").2
      = some (GoError.msgError { Msg := "success", Status := 200 }) :=
  have hfirst : FirstWith Post.ID "p1"
      [NewPost ⟨"alice", "u1", "pw"⟩ 0 "" "p1", NewPost ⟨"bob", "u2", "pw"⟩ 1 "" "p2"] 0
      (NewPost ⟨"alice", "u1", "pw"⟩ 0 "" "p1") :=
    ⟨rfl, rfl, fun j hj => absurd hj (Nat.not_lt_zero j)⟩
  ⟨hfirst, rfl,
    (((C18_deletePost
      { data := [NewPost ⟨"alice", "u1", "pw"⟩ 0 "" "p1",
                 NewPost ⟨"bob", "u2", "pw"⟩ 1 "" "p2"] } "p1" "u1").2.2.1 0 _ hfirst).2
      rfl).1⟩

/-! ## The two repositories side by side, and the session check -/

/-- C19, evaluated at the failing inputs.  Both repositories hold the post "p1" that "u1"
has just created (the mongo collection finds and decodes it and accepts every update).
`DeleteComment` of the unknown comment "c1": the in-memory repository returns the post
together with the error ("comment not found", 404), the mongo repository returns a nil
post with the same error.  `UpvotePost` on the same post with a nil vote list: the
in-memory repository returns the post together with the error "nil vote list", the mongo
repository returns a nil post with the same error. -/
theorem C19_memory_returns_post_with_error :
    (PostMemoryRepository.DeleteComment
        { data := [NewPost ⟨"alice", "u1", "pw"⟩ 0 "" "p1"] } "p1" "c1" "u1").map Prod.snd
      = some (some (NewPost ⟨"alice", "u1", "pw"⟩ 0 "" "p1"),
          some (GoError.msgError { Msg := "comment not found", Status := 404 })) ∧
    PostRepositoryMongo.DeleteComment
        { coll := { FindOne := fun _ => ⟨none, NewPost ⟨"alice", "u1", "pw"⟩ 0 "" "p1", none⟩,
                    UpdateOne := fun _ _ => none } } "p1" "c1" "u1"
      = some (none, some (GoError.msgError { Msg := "comment not found", Status := 404 })) ∧
    (PostMemoryRepository.UpvotePost
        { data := [{ NewPost ⟨"alice", "u1", "pw"⟩ 0 "" "p1" with
            Votes := { List := none, LikesCount := 1 } }] } "p1" "u2").2
      = (some { NewPost ⟨"alice", "u1", "pw"⟩ 0 "" "p1" with
            Votes := { List := none, LikesCount := 1 } },
          some (GoError.errorf "nil vote list")) ∧
    PostRepositoryMongo.UpvotePost
        { coll := { FindOne := fun _ =>
                      ⟨none, { NewPost ⟨"alice", "u1", "pw"⟩ 0 "" "p1" with
                        Votes := { List := none, LikesCount := 1 } }, none⟩,
                    UpdateOne := fun _ _ => none } } "p1" "u2"
      = (none, some (GoError.errorf "nil vote list")) :=
  ⟨by decide, by decide, by decide, by decide⟩

/-- C20, evaluated at the failing input.  The header "Bearer tok" splits into the two
fields "Bearer" and "tok"; the jwt package rejects the token as expired; `Check` returns
the empty user and the error "jwt parse err: " wrapping the parser's error, which is not
MsgError ("unauthorized", 401) and has no MsgError in its chain, while the session id of
the token is still in the session table. -/
theorem C20_expired_token_keeps_parser_error :
    Fields "Bearer tok" = ["Bearer", "tok"] ∧
    SessionManagerMySQL.Check { db := { sessions := ["s1"], failure := none } }
        (fun _ => { claims := { User := ⟨"alice", "u1", "pw"⟩, SessionID := "s1",
                                IssuedAt := some 0, ExpiresAt := some 604800 },
                    valid := false,
                    err := some (GoError.external "token is expired by 1s") })
        "Bearer tok"
      = ({ Username := "", ID := "", Password := "" },
          some (GoError.wrapf "jwt parse err: " (GoError.external "token is expired by 1s"))) ∧
    GoError.wrapf "jwt parse err: " (GoError.external "token is expired by 1s")
      ≠ GoError.msgError { Msg := "unauthorized", Status := 401 } ∧
    (GoError.wrapf "jwt parse err: " (GoError.external "token is expired by 1s")).AsMsgError
      = none :=
  ⟨by decide, by decide, by decide, by decide⟩

/-! ## The session check -/

theorem scan_eq_none_iff (db : SessionDB) (id : String) :
    db.scan id = none ↔ db.failure = none ∧ id ∈ db.sessions := by
  unfold SessionDB.scan
  cases db.failure with
  | some e => simp
  | none => by_cases h : id ∈ db.sessions <;> simp [h]

theorem check_other_shape (sm : SessionManagerMySQL) (parse : String → JwtParsed)
    (authHeader : String) (h : ∀ token, Fields authHeader ≠ ["Bearer", token]) :
    sm.Check parse authHeader =
      ({ Username := "", ID := "", Password := "" },
        some (GoError.msgError { Msg := "unauthorized", Status := 401 })) := by
  unfold SessionManagerMySQL.Check
  rcases hf : Fields authHeader with _ | ⟨a, _ | ⟨b, _ | ⟨c, rest⟩⟩⟩
  · rfl
  · rfl
  · have hab : a ≠ "Bearer" := by
      intro ha
      exact h b (by rw [hf, ha])
    simp [hab]
  · rfl

theorem check_bearer (sm : SessionManagerMySQL) (parse : String → JwtParsed)
    (authHeader token : String) (h : Fields authHeader = ["Bearer", token]) :
    sm.Check parse authHeader =
      match ExtractJwtClaims parse token with
      | (_, some err) => ({ Username := "", ID := "", Password := "" }, some err)
      | (claims, none) =>
        match sm.db.scan claims.SessionID with
        | none => (claims.User, none)
        | some err =>
          if err.Is ErrNoRows then
            ({ Username := "", ID := "", Password := "" },
              some (GoError.msgError { Msg := "unauthorized", Status := 401 }))
          else ({ Username := "", ID := "", Password := "" },
            some (GoError.wrapf "mysql scan err: " err)) := by
  unfold SessionManagerMySQL.Check
  simp [h]

theorem extract_verified (parse : String → JwtParsed) (token : String)
    (herr : (parse token).err = none) (hvalid : (parse token).valid = true) :
    ExtractJwtClaims parse token = ((parse token).claims, none) := by
  simp [ExtractJwtClaims, herr, hvalid]

theorem extract_eq_none_iff (parse : String → JwtParsed) (token : String) :
    (ExtractJwtClaims parse token).2 = none ↔
      (parse token).err = none ∧ (parse token).valid = true := by
  unfold ExtractJwtClaims
  cases herr : (parse token).err with
  | some e => simp [herr]
  | none => cases hvalid : (parse token).valid <;> simp [herr, hvalid]

theorem errNoRows_is : ErrNoRows.Is ErrNoRows = true := by decide

/-- C21: `Check` returns a nil error exactly when the header splits into the two fields
"Bearer" and a token, the jwt package accepts the token, and the session id of its claims
is in the session table (which answers the query); it then returns the user of the
claims.  A header of any other shape, and an accepted token whose session id is not in
the table, give the empty user and MsgError ("unauthorized", 401); a failure of the
database other than `sql.ErrNoRows` gives the empty user and that failure wrapped as
"mysql scan err: ", which is not a MsgError. -/
theorem C21_check_outcomes (sm : SessionManagerMySQL) (parse : String → JwtParsed)
    (authHeader : String) :
    ((sm.Check parse authHeader).2 = none ↔
      ∃ token, Fields authHeader = ["Bearer", token] ∧
        (parse token).err = none ∧ (parse token).valid = true ∧
        sm.db.failure = none ∧ (parse token).claims.SessionID ∈ sm.db.sessions) ∧
    (∀ token, Fields authHeader = ["Bearer", token] →
      (parse token).err = none → (parse token).valid = true →
      (sm.db.failure = none → (parse token).claims.SessionID ∈ sm.db.sessions →
        sm.Check parse authHeader = ((parse token).claims.User, none)) ∧
      (sm.db.failure = none → (parse token).claims.SessionID ∉ sm.db.sessions →
        sm.Check parse authHeader =
          ({ Username := "", ID := "", Password := "" },
            some (GoError.msgError { Msg := "unauthorized", Status := 401 }))) ∧
      (∀ e, sm.db.failure = some e → e.Is ErrNoRows = false →
        sm.Check parse authHeader =
          ({ Username := "", ID := "", Password := "" },
            some (GoError.wrapf "mysql scan err: " e)) ∧
        ∀ m : MsgError, GoError.wrapf "mysql scan err: " e ≠ GoError.msgError m)) ∧
    ((∀ token, Fields authHeader ≠ ["Bearer", token]) →
      sm.Check parse authHeader =
        ({ Username := "", ID := "", Password := "" },
          some (GoError.msgError { Msg := "unauthorized", Status := 401 }))) := by
  refine ⟨?_, ?_, check_other_shape sm parse authHeader⟩
  · constructor
    · intro hnil
      by_cases hshape : ∃ token, Fields authHeader = ["Bearer", token]
      · obtain ⟨token, hf⟩ := hshape
        refine ⟨token, hf, ?_⟩
        rw [check_bearer sm parse authHeader token hf] at hnil
        by_cases hv : (parse token).err = none ∧ (parse token).valid = true
        · refine ⟨hv.1, hv.2, ?_⟩
          rw [extract_verified parse token hv.1 hv.2] at hnil
          cases hs : sm.db.scan (parse token).claims.SessionID with
          | none => exact (scan_eq_none_iff _ _).1 hs
          | some e =>
            simp only [hs] at hnil
            by_cases hno : e.Is ErrNoRows = true <;> simp [hno] at hnil
        · have hne : (ExtractJwtClaims parse token).2 ≠ none :=
            fun h => hv ((extract_eq_none_iff parse token).1 h)
          cases hx : ExtractJwtClaims parse token with
          | mk claims err =>
            rw [hx] at hnil hne
            cases err with
            | some e => simp at hnil
            | none => exact absurd rfl hne
      · have hother : ∀ token, Fields authHeader ≠ ["Bearer", token] :=
          fun token hf => hshape ⟨token, hf⟩
        rw [check_other_shape sm parse authHeader hother] at hnil
        simp at hnil
    · rintro ⟨token, hf, herr, hvalid, hfail, hmem⟩
      rw [check_bearer sm parse authHeader token hf, extract_verified parse token herr hvalid]
      have hs := (scan_eq_none_iff sm.db (parse token).claims.SessionID).2 ⟨hfail, hmem⟩
      simp [hs]
  · intro token hf herr hvalid
    rw [check_bearer sm parse authHeader token hf, extract_verified parse token herr hvalid]
    refine ⟨?_, ?_, ?_⟩
    · intro hfail hmem
      have hs := (scan_eq_none_iff sm.db (parse token).claims.SessionID).2 ⟨hfail, hmem⟩
      simp [hs]
    · intro hfail hmem
      have hs : sm.db.scan (parse token).claims.SessionID = some ErrNoRows := by
        simp [SessionDB.scan, hfail, hmem]
      simp [hs, errNoRows_is]
    · intro e hfail hno
      have hs : sm.db.scan (parse token).claims.SessionID = some e := by
        simp [SessionDB.scan, hfail]
      refine ⟨by simp [hs, hno], ?_⟩
      intro m h
      cases h

/-- C21 at a concrete header: the token "tok" is accepted and carries the stored session
id "s1", so `Check "Bearer tok"` returns the user of the claims. -/
theorem C21_check_outcomes_witness :
    Fields "Bearer tok" = ["Bearer", "tok"] ∧
    SessionManagerMySQL.Check { db := { sessions := ["s1"], failure := none } }
        (fun _ => { claims := { User := ⟨"alice", "u1", "pw"⟩, SessionID := "s1",
                                IssuedAt := some 0, ExpiresAt := some 604800000000000 },
                    valid := true, err := none })
        "Bearer tok"
      = (⟨"alice", "u1", "pw"⟩, none) :=
  ⟨by decide,
    ((C21_check_outcomes { db := { sessions := ["s1"], failure := none } }
      (fun _ => { claims := { User := ⟨"alice", "u1", "pw"⟩, SessionID := "s1",
                              IssuedAt := some 0, ExpiresAt := some 604800000000000 },
                  valid := true, err := none })
      "Bearer tok").2.1 "tok" (by decide) rfl rfl).1 rfl (by decide)⟩

/-! ## New sessions -/

/-- What `NewSession` does apart from the dates: a nil user gives the empty session and an
error; otherwise the claims embed the user and the random id, and when signing succeeds
the session carries the signed text and the same id; the two dates are 7 days apart when
both clock readings fall into the same second. -/
theorem newSession_facts (u : User) (randID : String) (now1 now2 : Time)
    (sign : Claims → String × Option GoError) :
    NewSession none randID now1 now2 sign
      = ({ Token := "", ID := "" }, some (GoError.errorf "nil input user")) ∧
    (newSessionClaims u randID now1 now2).User = u ∧
    (newSessionClaims u randID now1 now2).SessionID = randID ∧
    (∀ tokenString, sign (newSessionClaims u randID now1 now2) = (tokenString, none) →
      NewSession (some u) randID now1 now2 sign
        = ({ Token := tokenString, ID := randID }, none)) ∧
    (NewNumericDate now1 = NewNumericDate now2 →
      (newSessionClaims u randID now1 now2).ExpiresAt
        = some (NewNumericDate now1 + sevenDays)) := by
  refine ⟨rfl, rfl, rfl, ?_, ?_⟩
  · intro tokenString hsign
    simp [NewSession, hsign]
  · intro hsame
    simp only [newSessionClaims, NewNumericDate, sevenDays, Option.some.injEq] at hsame ⊢
    unfold Time at *
    omega

/-- C22, evaluated at the failing input: the first call of `time.Now()` reads
0.999999999 s and the second one 1.000000001 s.  `NewSession` succeeds with the session
id "s1", and its claims carry IssuedAt = 0 s and ExpiresAt = 7 days + 1 s, which is not
IssuedAt plus 7 days. -/
theorem C22_expiry_from_second_clock_reading :
    NewSession (some ⟨"alice", "u1", "pw"⟩) "s1" 999999999 1000000001
        (fun _ => ("signed", none))
      = ({ Token := "signed", ID := "s1" }, none) ∧
    (newSessionClaims ⟨"alice", "u1", "pw"⟩ "s1" 999999999 1000000001).IssuedAt = some 0 ∧
    (newSessionClaims ⟨"alice", "u1", "pw"⟩ "s1" 999999999 1000000001).ExpiresAt
      = some (0 + sevenDays + 1000000000) ∧
    (newSessionClaims ⟨"alice", "u1", "pw"⟩ "s1" 999999999 1000000001).ExpiresAt
      ≠ some (0 + sevenDays) :=
  ⟨by decide, by decide, by decide, by decide⟩

/-! ## DeletePost between its two locked sections -/

/-- Run without another goroutine in between, the two sections make up `DeletePost`. -/
theorem deletePost_sections (repo : PostMemoryRepository) (postID userID : String) :
    repo.deletePostLocked (repo.deletePostLookup postID) userID
      = some (repo.DeletePost postID userID) := by
  unfold PostMemoryRepository.deletePostLocked PostMemoryRepository.deletePostLookup
    PostMemoryRepository.DeletePost
  cases hf : rangeFind (fun post => post.ID == postID) repo.data with
  | none => simp
  | some r =>
    obtain ⟨i, p⟩ := r
    have hi := ((rangeFind_eq_some_iff _ repo.data i p).1 hf).1
    have hneg : ¬ ((i : Int) < 0) := by omega
    simp only [hneg, if_false, Int.toNat_ofNat, hi]
    by_cases hreq : p.Author.ID = userID <;> simp [hreq]

/-- C23, evaluated at the failing schedule.  The store holds "p1" and "p3" of user "u1"
and "p2" of user "u2"; two goroutines A and B both run `DeletePost "p1" "u1"`.  A finds
index 0 under the read lock; B then runs the whole method and deletes "p1", leaving
["p3", "p2"]; A now runs its write-locked section with index 0 and deletes "p3", answering
success, where a second `DeletePost "p1" "u1"` run after B answers "post not found" and
keeps "p3".  With the store ["p1", "p2"], A looking up "p2" (index 1) and B deleting "p1"
in between, A's section indexes the one-element store at 1 and panics. -/
theorem C23_deletePost_stale_index :
    PostMemoryRepository.deletePostLookup
        { data := [NewPost ⟨"alice", "u1", "pw"⟩ 1 "" "p1", NewPost ⟨"bob", "u2", "pw"⟩ 2 "" "p2",
                   NewPost ⟨"alice", "u1", "pw"⟩ 3 "" "p3"] } "p1" = 0 ∧
    PostMemoryRepository.DeletePost
        { data := [NewPost ⟨"alice", "u1", "pw"⟩ 1 "" "p1", NewPost ⟨"bob", "u2", "pw"⟩ 2 "" "p2",
                   NewPost ⟨"alice", "u1", "pw"⟩ 3 "" "p3"] } "p1" "u1"
      = ({ data := [NewPost ⟨"alice", "u1", "pw"⟩ 3 "" "p3",
                    NewPost ⟨"bob", "u2", "pw"⟩ 2 "" "p2"] },
          some (GoError.msgError { Msg := "success", Status := 200 })) ∧
    PostMemoryRepository.deletePostLocked
        { data := [NewPost ⟨"alice", "u1", "pw"⟩ 3 "" "p3",
                   NewPost ⟨"bob", "u2", "pw"⟩ 2 "" "p2"] } 0 "u1"
      = some ({ data := [NewPost ⟨"bob", "u2", "pw"⟩ 2 "" "p2"] },
          some (GoError.msgError { Msg := "success", Status := 200 })) ∧
    PostMemoryRepository.DeletePost
        { data := [NewPost ⟨"alice", "u1", "pw"⟩ 3 "" "p3",
                   NewPost ⟨"bob", "u2", "pw"⟩ 2 "" "p2"] } "p1" "u1"
      = ({ data := [NewPost ⟨"alice", "u1", "pw"⟩ 3 "" "p3",
                    NewPost ⟨"bob", "u2", "pw"⟩ 2 "" "p2"] },
          some (GoError.msgError { Msg := "post not found", Status := 404 })) ∧
    PostMemoryRepository.deletePostLookup
        { data := [NewPost ⟨"alice", "u1", "pw"⟩ 1 "" "p1",
                   NewPost ⟨"bob", "u2", "pw"⟩ 2 "" "p2"] } "p2" = 1 ∧
    (PostMemoryRepository.DeletePost
        { data := [NewPost ⟨"alice", "u1", "pw"⟩ 1 "" "p1",
                   NewPost ⟨"bob", "u2", "pw"⟩ 2 "" "p2"] } "p1" "u1").1
      = { data := [NewPost ⟨"bob", "u2", "pw"⟩ 2 "" "p2"] } ∧
    PostMemoryRepository.deletePostLocked
        { data := [NewPost ⟨"bob", "u2", "pw"⟩ 2 "" "p2"] } 1 "u2" = none :=
  ⟨by decide, by decide, by decide, by decide, by decide, by decide, by decide⟩

/-! ## Error responses -/

/-- C24: when the error is or wraps a `DetailErrors`, `WriteAndLogErr` answers with its
status and its JSON encoding; otherwise, when the error is or wraps a `MsgError`, with
the status and the JSON encoding of that; for every other error it answers with status
500 and the object with the message "internal server error", so the answers to two such
errors are equal, whatever their texts. -/
theorem C24_writeAndLogErr (err : GoError) :
    (∀ e, err.AsDetailErrors = some e →
      WriteAndLogErr err = { code := e.Status, body := e.Error }) ∧
    (∀ e, err.AsDetailErrors = none → err.AsMsgError = some e →
      WriteAndLogErr err = { code := e.Status, body := e.Error }) ∧
    (err.AsDetailErrors = none → err.AsMsgError = none →
      WriteAndLogErr err = { code := 500, body := Json.message "internal server error" }) ∧
    (∀ err2 : GoError, err.AsDetailErrors = none → err.AsMsgError = none →
      err2.AsDetailErrors = none → err2.AsMsgError = none →
      WriteAndLogErr err = WriteAndLogErr err2) ∧
    (∀ e, WriteAndLogErr (GoError.detailErrors e) = { code := e.Status, body := e.Error }) ∧
    (∀ e, WriteAndLogErr (GoError.msgError e) = { code := e.Status, body := e.Error }) ∧
    (∀ text, WriteAndLogErr (GoError.errorf text)
      = { code := 500, body := Json.message "internal server error" }) ∧
    (∀ text, WriteAndLogErr (GoError.external text)
      = { code := 500, body := Json.message "internal server error" }) := by
  refine ⟨?_, ?_, ?_, ?_, fun _ => rfl, fun _ => rfl, fun _ => rfl, fun _ => rfl⟩
  · intro e h
    simp [WriteAndLogErr, h]
  · intro e h1 h2
    simp [WriteAndLogErr, h1, h2]
  · intro h1 h2
    simp [WriteAndLogErr, h1, h2]
  · intro err2 h1 h2 h3 h4
    simp [WriteAndLogErr, h1, h2, h3, h4]

/-- C24 at concrete errors: a repository failure with the text "some err" and a wrapped
driver failure get the same answer, and a wrapped "post not found" gets status 404. -/
theorem C24_writeAndLogErr_witness :
    WriteAndLogErr (GoError.errorf "some err")
      = WriteAndLogErr (GoError.wrapf "mongo find err: " (GoError.external "connection lost")) ∧
    WriteAndLogErr (GoError.wrapf "outer: "
        (GoError.msgError { Msg := "post not found", Status := 404 }))
      = { code := 404, body := Json.message "post not found" } :=
  ⟨(C24_writeAndLogErr (GoError.errorf "some err")).2.2.2.1
      (GoError.wrapf "mongo find err: " (GoError.external "connection lost")) rfl rfl rfl rfl,
    (C24_writeAndLogErr (GoError.wrapf "outer: "
        (GoError.msgError { Msg := "post not found", Status := 404 }))).2.1
      { Msg := "post not found", Status := 404 } rfl rfl⟩

/-! ## The user repositories -/

theorem usersDB_scan_absent {db : UsersDB} {username : String} (hq : db.queryFailure = none)
    (h : ∀ row ∈ db.rows, row.Username ≠ username) :
    db.scan username = Except.error ErrNoRows := by
  have hf := (rangeFind_key_eq_none_iff User.Username username db.rows).2 h
  simp only [UsersDB.scan, hq, hf]

theorem usersDB_scan_present {db : UsersDB} {username : String} {i : Nat} {row : User}
    (hq : db.queryFailure = none) (h : FirstWith User.Username username db.rows i row) :
    db.scan username = Except.ok (row.ID, row.Password) := by
  have hf := (rangeFind_key_eq_some_iff User.Username username db.rows i row).2 h
  simp only [UsersDB.scan, hq, hf]

theorem usersDB_scan_failure {db : UsersDB} {e : GoError} (username : String)
    (hq : db.queryFailure = some e) : db.scan username = Except.error e := by
  simp only [UsersDB.scan, hq]

/-- C25 as stated fails on the MySQL repository: the table holds the user "alice" with the
password "pw", and the database answers the query with a failure; `Authorize "alice" "pw"`
returns no user and the failure wrapped as "mysql scan err: ", neither the stored user nor
one of the two MsgErrors. -/
theorem C25_authorize_store_failure_counterexample :
    (∃ row ∈ [(⟨"alice", "u1", "pw"⟩ : User)], row.Username = "alice" ∧ row.Password = "pw") ∧
    UserRepositoryMySQL.Authorize
        { db := { rows := [⟨"alice", "u1", "pw"⟩],
                  queryFailure := some (GoError.external "driver: bad connection"),
                  execFailure := none } } "alice" "pw"
      = (none, some (GoError.wrapf "mysql scan err: "
          (GoError.external "driver: bad connection"))) :=
  ⟨⟨_, List.mem_singleton.2 rfl, rfl, rfl⟩, by decide⟩

/-- C25, amended.  On the in-memory repository `Authorize` fails with MsgError
("user not found", 401) exactly when no user is stored under the username; otherwise it
fails with MsgError ("invalid password", 401) exactly when the stored password differs
from the given one, and otherwise returns the stored user.  On the MySQL repository the
same holds whenever the database answers the query; when the query fails with an error
other than `sql.ErrNoRows`, `Authorize` returns no user and that error wrapped as
"mysql scan err: ".  Neither method changes its store (it returns none). -/
theorem C25_authorize_amended (mem : UserMemoryRepository) (sql : UserRepositoryMySQL)
    (username passw : String) :
    ((mem.Authorize username passw).2
        = some (GoError.msgError { Msg := "user not found", Status := 401 })
      ↔ mem.data username = none) ∧
    (∀ usr, mem.data username = some usr →
      ((mem.Authorize username passw).2
          = some (GoError.msgError { Msg := "invalid password", Status := 401 })
        ↔ usr.Password ≠ passw) ∧
      (usr.Password = passw → mem.Authorize username passw = (some usr, none))) ∧
    (sql.db.queryFailure = none →
      ((sql.Authorize username passw).2
          = some (GoError.msgError { Msg := "user not found", Status := 401 })
        ↔ ∀ row ∈ sql.db.rows, row.Username ≠ username) ∧
      (∀ i row, FirstWith User.Username username sql.db.rows i row →
        ((sql.Authorize username passw).2
            = some (GoError.msgError { Msg := "invalid password", Status := 401 })
          ↔ row.Password ≠ passw) ∧
        (row.Password = passw → sql.Authorize username passw = (some row, none)))) ∧
    (∀ e, sql.db.queryFailure = some e → e.Is ErrNoRows = false →
      sql.Authorize username passw = (none, some (GoError.wrapf "mysql scan err: " e))) := by
  refine ⟨?_, ?_, ?_, ?_⟩
  · unfold UserMemoryRepository.Authorize
    cases h : mem.data username with
    | none => simp
    | some usr => by_cases hp : usr.Password = passw <;> simp [hp]
  · intro usr h
    unfold UserMemoryRepository.Authorize
    by_cases hp : usr.Password = passw <;> simp [h, hp]
  · intro hq
    rcases absent_or_firstWith User.Username username sql.db.rows with habs | ⟨i0, r0, hfirst⟩
    · have hs := usersDB_scan_absent hq habs
      refine ⟨?_, ?_⟩
      · simp only [UserRepositoryMySQL.Authorize, hs, errNoRows_is, if_true]
        exact ⟨fun _ => habs, fun _ => trivial⟩
      · intro i row hrow
        exact absurd habs (firstWith_not_absent hrow)
    · have hs := usersDB_scan_present hq hfirst
      have hname : r0.Username = username := hfirst.2.1
      refine ⟨?_, ?_⟩
      · constructor
        · intro h
          by_cases hp : r0.Password = passw <;>
            simp [UserRepositoryMySQL.Authorize, hs, hp] at h
        · intro h
          exact absurd h (firstWith_not_absent hfirst)
      · intro i row hrow
        obtain ⟨rfl, rfl⟩ := firstWith_unique hfirst hrow
        refine ⟨?_, ?_⟩
        · by_cases hp : r0.Password = passw <;> simp [UserRepositoryMySQL.Authorize, hs, hp]
        · intro hp
          subst hname
          subst hp
          simp [UserRepositoryMySQL.Authorize, hs]
  · intro e hq hno
    have hs := usersDB_scan_failure username hq
    simp [UserRepositoryMySQL.Authorize, hs, hno]

/-- C25, amended, at concrete stores: "alice" with the password "pw" is stored in both
repositories and authorizes with that password. -/
theorem C25_authorize_amended_witness :
    (fun name => if name = "alice" then some (⟨"alice", "u1", "pw"⟩ : User) else none) "alice"
      = some ⟨"alice", "u1", "pw"⟩ ∧
    UserMemoryRepository.Authorize
        { data := fun name => if name = "alice" then some ⟨"alice", "u1", "pw"⟩ else none }
        "alice" "pw"
      = (some ⟨"alice", "u1", "pw"⟩, none) :=
  ⟨by decide,
    ((C25_authorize_amended
      { data := fun name => if name = "alice" then some ⟨"alice", "u1", "pw"⟩ else none }
      { db := { rows := [], queryFailure := none, execFailure := none } }
      "alice" "pw").2.1 ⟨"alice", "u1", "pw"⟩ (by decide)).2 rfl⟩

/-! ## Random identifiers -/

theorem hexDigit_mem (n : Nat) : hexDigit n ∈ "0123456789abcdef".toList := by
  unfold hexDigit
  by_cases h : n < 16
  · interval_cases n <;> decide
  · have hlen : "0123456789abcdef".toList.length ≤ n := by
      have : "0123456789abcdef".toList.length = 16 := by decide
      omega
    rw [List.getD_eq_default _ _ hlen]
    decide

theorem hexChars_utf8Size (c : Char) (h : c ∈ "0123456789abcdef".toList) : c.utf8Size = 1 := by
  have hall : ∀ d ∈ "0123456789abcdef".toList, d.utf8Size = 1 := by decide
  exact hall c h

theorem getRandID_toList (read : Nat → Nat) :
    (GetRandID read).toList =
      (List.range 12).flatMap (fun i => hexByte (read i % 256)) := rfl

theorem getRandID_chars (read : Nat → Nat) :
    ∀ c ∈ (GetRandID read).toList, c ∈ "0123456789abcdef".toList := by
  intro c hc
  rw [getRandID_toList, List.mem_flatMap] at hc
  obtain ⟨i, _, hi⟩ := hc
  simp only [hexByte, List.mem_cons, List.mem_singleton, List.not_mem_nil, or_false] at hi
  rcases hi with h | h
  · rw [h]
    exact hexDigit_mem _
  · rw [h]
    exact hexDigit_mem _

theorem getRandID_length (read : Nat → Nat) : (GetRandID read).length = 24 := by
  show (GetRandID read).toList.length = 24
  rw [getRandID_toList]
  have hrange : List.range 12 = [0, 1, 2, 3, 4, 5, 6, 7, 8, 9, 10, 11] := by decide
  simp [hrange, hexByte]

theorem utf8ByteSize_of_ascii (cs : List Char) (h : ∀ c ∈ cs, c.utf8Size = 1) :
    (String.mk cs).utf8ByteSize = cs.length := by
  induction cs with
  | nil => rfl
  | cons c cs ih =>
    have hc : c.utf8Size = 1 := h c (List.mem_cons_self c cs)
    have ih2 := ih (fun d hd => h d (List.mem_cons_of_mem c hd))
    simp only [String.utf8ByteSize, String.utf8ByteSize.go, List.length_cons] at ih2 ⊢
    omega

theorem getRandID_byteSize (read : Nat → Nat) : (GetRandID read).utf8ByteSize = 24 := by
  have h := utf8ByteSize_of_ascii (GetRandID read).toList
    (fun c hc => hexChars_utf8Size c (getRandID_chars read c hc))
  have hlen : (GetRandID read).toList.length = 24 := getRandID_length read
  rw [hlen] at h
  exact h

/-- C26 as stated fails on the MySQL repository: the table holds no user, the query
answers and the `INSERT` fails; `SignUp "bob" "pw"` returns no user and the failure wrapped
as "mysql exec insert err: " and stores nothing, although no user with that username is
stored. -/
theorem C26_signUp_store_failure_counterexample :
    (∀ row ∈ ([] : List User), row.Username ≠ "bob") ∧
    (UserRepositoryMySQL.SignUp
        { db := { rows := [], queryFailure := none,
                  execFailure := some (GoError.external "driver: bad connection") } }
        (fun _ => 0) "bob" "pw").2
      = (none, some (GoError.wrapf "mysql exec insert err: "
          (GoError.external "driver: bad connection"))) ∧
    (UserRepositoryMySQL.SignUp
        { db := { rows := [], queryFailure := none,
                  execFailure := some (GoError.external "driver: bad connection") } }
        (fun _ => 0) "bob" "pw").1.db.rows = [] :=
  ⟨by simp, by decide, by decide⟩

/-- C26, amended.  On the in-memory repository `SignUp` fails with DetailErrors (status
422, one entry: location "body", param "username", value the username, msg
"already exists") exactly when a user is stored under the username, and then leaves the
store unchanged; otherwise it stores and returns a user with that username, that password
and a generated id of 24 characters, no other username changes, and `Authorize` with the
same username and password then returns that user.  On the MySQL repository the same
holds whenever the database answers the query and accepts the insert; when the query
fails with an error other than `sql.ErrNoRows`, or the insert fails, `SignUp` returns no
user and that error wrapped as "mysql scan err: " or "mysql exec insert err: ", and the
table is unchanged. -/
theorem C26_signUp_amended (mem : UserMemoryRepository) (sql : UserRepositoryMySQL)
    (read : Nat → Nat) (username passw : String) :
    ((mem.SignUp read username passw).2.2
        = some (GoError.detailErrors
            { Errors := [{ Location := "body", Param := "username", Value := username,
                           Msg := "already exists" }],
              Status := 422 })
      ↔ mem.data username ≠ none) ∧
    (mem.data username ≠ none →
      (mem.SignUp read username passw).1.data = mem.data ∧
      (mem.SignUp read username passw).2.1 = none) ∧
    (mem.data username = none →
      ∃ usr, (mem.SignUp read username passw).2 = (some usr, none) ∧
        usr.Username = username ∧ usr.Password = passw ∧ usr.ID.length = 24 ∧
        (mem.SignUp read username passw).1.data username = some usr ∧
        (∀ other, other ≠ username →
          (mem.SignUp read username passw).1.data other = mem.data other) ∧
        (mem.SignUp read username passw).1.Authorize username passw = (some usr, none)) ∧
    (sql.db.queryFailure = none →
      ((sql.SignUp read username passw).2.2
          = some (GoError.detailErrors
              { Errors := [{ Location := "body", Param := "username", Value := username,
                             Msg := "already exists" }],
                Status := 422 })
        ↔ ∃ row ∈ sql.db.rows, row.Username = username) ∧
      ((∃ row ∈ sql.db.rows, row.Username = username) →
        (sql.SignUp read username passw).1.db = sql.db ∧
        (sql.SignUp read username passw).2.1 = none) ∧
      ((∀ row ∈ sql.db.rows, row.Username ≠ username) → sql.db.execFailure = none →
        ∃ usr, (sql.SignUp read username passw).2 = (some usr, none) ∧
          usr.Username = username ∧ usr.Password = passw ∧ usr.ID.length = 24 ∧
          (sql.SignUp read username passw).1.db.rows = sql.db.rows ++ [usr] ∧
          (sql.SignUp read username passw).1.Authorize username passw = (some usr, none)) ∧
      (∀ e, (∀ row ∈ sql.db.rows, row.Username ≠ username) → sql.db.execFailure = some e →
        sql.SignUp read username passw
          = (sql, none, some (GoError.wrapf "mysql exec insert err: " e)))) ∧
    (∀ e, sql.db.queryFailure = some e → e.Is ErrNoRows = false →
      sql.SignUp read username passw
        = (sql, none, some (GoError.wrapf "mysql scan err: " e))) := by
  refine ⟨?_, ?_, ?_, ?_, ?_⟩
  · unfold UserMemoryRepository.SignUp
    cases h : mem.data username with
    | none => simp
    | some usr => simp
  · intro h
    unfold UserMemoryRepository.SignUp
    cases hd : mem.data username with
    | none => exact absurd hd h
    | some usr => simp
  · intro h
    refine ⟨{ ID := GetRandID read, Username := username, Password := passw }, ?_, rfl, rfl,
      getRandID_length read, ?_, ?_, ?_⟩
    · simp [UserMemoryRepository.SignUp, h]
    · simp [UserMemoryRepository.SignUp, h]
    · intro other hother
      simp [UserMemoryRepository.SignUp, h, hother]
    · simp [UserMemoryRepository.SignUp, h, UserMemoryRepository.Authorize]
  · intro hq
    rcases absent_or_firstWith User.Username username sql.db.rows with habs | ⟨i0, r0, hfirst⟩
    · have hs := usersDB_scan_absent hq habs
      have hnone : ¬ ∃ row ∈ sql.db.rows, row.Username = username := by
        rintro ⟨row, hrow, hname⟩
        exact habs row hrow hname
      refine ⟨?_, fun h => absurd h hnone, ?_, ?_⟩
      · constructor
        · intro h
          cases he : sql.db.execFailure <;>
            simp [UserRepositoryMySQL.SignUp, hs, errNoRows_is, he] at h
        · intro h
          exact absurd h hnone
      · intro _ he
        refine ⟨{ Username := username, ID := GetRandID read, Password := passw }, ?_, rfl,
          rfl, getRandID_length read, ?_, ?_⟩
        · simp [UserRepositoryMySQL.SignUp, hs, errNoRows_is, he]
        · simp [UserRepositoryMySQL.SignUp, hs, errNoRows_is, he]
        · have hsign : (sql.SignUp read username passw).1 =
              { db := { sql.db with rows := sql.db.rows ++
                [{ Username := username, ID := GetRandID read, Password := passw }] } } := by
            simp [UserRepositoryMySQL.SignUp, hs, errNoRows_is, he]
          have hf := rangeFind_append_new User.Username sql.db.rows
            { Username := username, ID := GetRandID read, Password := passw } habs
          have hfirst := (rangeFind_key_eq_some_iff User.Username username _ _ _).1 hf
          have hq2 : UsersDB.queryFailure { sql.db with rows := sql.db.rows ++
              [{ Username := username, ID := GetRandID read, Password := passw }] } = none := hq
          have hs2 : UsersDB.scan { sql.db with rows := sql.db.rows ++
              [{ Username := username, ID := GetRandID read, Password := passw }] } username
              = Except.ok (GetRandID read, passw) :=
            usersDB_scan_present hq2 hfirst
          rw [hsign]
          simp [UserRepositoryMySQL.Authorize, hs2]
      · intro e _ he
        simp [UserRepositoryMySQL.SignUp, hs, errNoRows_is, he]
    · have hs := usersDB_scan_present hq hfirst
      have hsome : ∃ row ∈ sql.db.rows, row.Username = username :=
        ⟨r0, List.getElem?_mem hfirst.1, hfirst.2.1⟩
      refine ⟨?_, ?_, ?_, ?_⟩
      · simp [UserRepositoryMySQL.SignUp, hs, hsome]
      · intro _
        simp [UserRepositoryMySQL.SignUp, hs]
      · intro habs
        exact absurd habs (firstWith_not_absent hfirst)
      · intro e habs
        exact absurd habs (firstWith_not_absent hfirst)
  · intro e hq hno
    have hs := usersDB_scan_failure username hq
    simp [UserRepositoryMySQL.SignUp, hs, hno]

/-- C26, amended, at a concrete store: "bob" signs up in the in-memory repository that
holds only "alice". -/
theorem C26_signUp_amended_witness :
    (fun name => if name = "alice" then some (⟨"alice", "u1", "pw"⟩ : User) else none) "bob"
      = none ∧
    ∃ usr,
      (UserMemoryRepository.SignUp
          { data := fun name => if name = "alice" then some ⟨"alice", "u1", "pw"⟩ else none }
          (fun _ => 171) "bob" "secret").2 = (some usr, none) ∧
      usr.Username = "bob" ∧ usr.Password = "secret" ∧ usr.ID.length = 24 ∧
      (UserMemoryRepository.SignUp
          { data := fun name => if name = "alice" then some ⟨"alice", "u1", "pw"⟩ else none }
          (fun _ => 171) "bob" "secret").1.data "bob" = some usr ∧
      (∀ other, other ≠ "bob" →
        (UserMemoryRepository.SignUp
            { data := fun name => if name = "alice" then some ⟨"alice", "u1", "pw"⟩ else none }
            (fun _ => 171) "bob" "secret").1.data other
          = (fun name => if name = "alice" then some (⟨"alice", "u1", "pw"⟩ : User) else none)
              other) ∧
      (UserMemoryRepository.SignUp
          { data := fun name => if name = "alice" then some ⟨"alice", "u1", "pw"⟩ else none }
          (fun _ => 171) "bob" "secret").1.Authorize "bob" "secret" = (some usr, none) :=
  ⟨by decide,
    (C26_signUp_amended
      { data := fun name => if name = "alice" then some ⟨"alice", "u1", "pw"⟩ else none }
      { db := { rows := [], queryFailure := none, execFailure := none } }
      (fun _ => 171) "bob" "secret").2.2.1 (by decide)⟩

/-! ## The handlers -/

theorem isValid_reject (reqID respMsg : String) (r : Request)
    (h : (r.vars reqID).utf8ByteSize ≠ 24) :
    isValid reqID respMsg r = Except.error { code := 400, body := Json.message respMsg } := by
  simp [isValid, LengthOfID, h, WriteAndLogErr, GoError.AsDetailErrors, GoError.AsMsgError,
    MsgError.Error]

theorem isValid_accept (reqID respMsg : String) (r : Request)
    (h : (r.vars reqID).utf8ByteSize = 24) :
    isValid reqID respMsg r = Except.ok (r.vars reqID) := by
  simp [isValid, LengthOfID, h]

/-- C27: every identifier that `GetRandID` produces has exactly 24 characters, all of them
lowercase hexadecimal digits, and 24 bytes, so `isValid` accepts it; `isValid` rejects,
with status 400 and the given message, exactly the ids whose length `len(id)` (in bytes)
differs from 24; and each of the seven handlers that check an id answers an id of another
length with status 400 without any call of the session manager or the repository. -/
theorem C27_random_ids_are_valid (read : Nat → Nat) (reqID respMsg : String) (r : Request)
    (h : PostHandler) (t : Time) (created id : String) :
    (GetRandID read).length = 24 ∧
    (∀ c ∈ (GetRandID read).toList, c ∈ "0123456789abcdef".toList) ∧
    (r.vars reqID = GetRandID read →
      isValid reqID respMsg r = Except.ok (GetRandID read)) ∧
    (isValid reqID respMsg r = Except.error { code := 400, body := Json.message respMsg }
      ↔ (r.vars reqID).utf8ByteSize ≠ 24) ∧
    ((r.vars reqID).utf8ByteSize = 24 → isValid reqID respMsg r = Except.ok (r.vars reqID)) ∧
    ((r.vars "postID").utf8ByteSize ≠ 24 →
      (h.ShowPost r).calls = [] ∧ (h.ShowPost r).resp.code = 400 ∧
      (h.DeletePost r).calls = [] ∧ (h.DeletePost r).resp.code = 400 ∧
      (h.CreateComment r t created id).calls = [] ∧
      (h.CreateComment r t created id).resp.code = 400 ∧
      (h.DeleteComment r).calls = [] ∧ (h.DeleteComment r).resp.code = 400 ∧
      (h.UpvotePost r).calls = [] ∧ (h.UpvotePost r).resp.code = 400 ∧
      (h.DownvotePost r).calls = [] ∧ (h.DownvotePost r).resp.code = 400 ∧
      (h.UnvotePost r).calls = [] ∧ (h.UnvotePost r).resp.code = 400) ∧
    ((r.vars "commentID").utf8ByteSize ≠ 24 →
      (h.DeleteComment r).calls = [] ∧ (h.DeleteComment r).resp.code = 400) := by
  refine ⟨getRandID_length read, getRandID_chars read, ?_, ?_, isValid_accept reqID respMsg r,
    ?_, ?_⟩
  · intro hid
    rw [isValid_accept reqID respMsg r (by rw [hid]; exact getRandID_byteSize read), hid]
  · constructor
    · intro hrej hsize
      rw [isValid_accept reqID respMsg r hsize] at hrej
      cases hrej
    · exact isValid_reject reqID respMsg r
  · intro hbad
    have hrej := isValid_reject "postID" "invalid post id" r hbad
    simp [PostHandler.ShowPost, PostHandler.DeletePost, PostHandler.CreateComment,
      PostHandler.DeleteComment, PostHandler.UpvotePost, PostHandler.DownvotePost,
      PostHandler.UnvotePost, hrej]
  · intro hbad
    have hrej := isValid_reject "commentID" "invalid comment id" r hbad
    by_cases hpost : (r.vars "postID").utf8ByteSize = 24
    · have hacc := isValid_accept "postID" "invalid post id" r hpost
      simp [PostHandler.DeleteComment, hacc, hrej]
    · have hrej2 := isValid_reject "postID" "invalid post id" r hpost
      simp [PostHandler.DeleteComment, hrej2]

/-- C27 at a concrete request: the id made from twelve bytes of value 171 is "abab...ab",
and a request whose post id is "abc" is rejected by `ShowPost` without a call. -/
theorem C27_random_ids_are_valid_witness :
    GetRandID (fun _ => 171) = "abababababababababababab" ∧
    ("abc" : String).utf8ByteSize ≠ 24 ∧
    (PostHandler.ShowPost
        { Sess := { Check := fun _ => (⟨"alice", "u1", "pw"⟩, none) },
          Repo := { GetByID := fun _ => (none, none), DeletePost := fun _ _ => none,
                    AddComment := fun _ _ => (none, none),
                    DeleteComment := fun _ _ _ => (none, none),
                    UpvotePost := fun _ _ => (none, none),
                    DownvotePost := fun _ _ => (none, none),
                    UnvotePost := fun _ _ => (none, none) } }
        { vars := fun _ => "abc", authorization := "", comment := Except.ok "" }).calls = [] :=
  ⟨by decide, by decide,
    ((C27_random_ids_are_valid (fun _ => 171) "postID" "invalid post id"
      { vars := fun _ => "abc", authorization := "", comment := Except.ok "" }
      { Sess := { Check := fun _ => (⟨"alice", "u1", "pw"⟩, none) },
        Repo := { GetByID := fun _ => (none, none), DeletePost := fun _ _ => none,
                  AddComment := fun _ _ => (none, none),
                  DeleteComment := fun _ _ _ => (none, none),
                  UpvotePost := fun _ _ => (none, none),
                  DownvotePost := fun _ _ => (none, none),
                  UnvotePost := fun _ _ => (none, none) } }
      0 "" "c1").2.2.2.2.2.1 (by decide)).1⟩

/-- C28: for a `CreateComment` request whose post id passes `isValid` and whose session
check returns the user `usr`: when the decoded comment text is empty the handler answers
with status 422 and the body whose `errors` hold the one entry with location "body", param
"comment", msg "is required" and no value, and its only call is the session check (no
`AddComment`); when the text is not empty the handler calls `AddComment` once, with the
post id and a comment whose body is the text and whose author is `usr`. -/
theorem C28_createComment (h : PostHandler) (r : Request) (t : Time) (created id : String)
    (usr : User) (hid : (r.vars "postID").utf8ByteSize = 24)
    (hsess : h.Sess.Check r.authorization = (usr, none)) :
    (r.comment = Except.ok "" →
      h.CreateComment r t created id =
        { resp := { code := 422,
                    body := Json.errors [{ location := "body", param := "comment",
                                           value := none, msg := "is required" }] },
          calls := [Call.check r.authorization] }) ∧
    (∀ text, text ≠ "" → r.comment = Except.ok text →
      ∃ comm, (h.CreateComment r t created id).calls
          = [Call.check r.authorization, Call.addComment (r.vars "postID") comm] ∧
        comm.Body = text ∧ comm.Author = usr) := by
  have hacc := isValid_accept "postID" "invalid post id" r hid
  have hcheck : sessionCheck r h.Sess = Except.ok usr := by
    simp [sessionCheck, hsess]
  refine ⟨?_, ?_⟩
  · intro hempty
    simp [PostHandler.CreateComment, hacc, hcheck, hempty, WriteAndLogErr,
      GoError.AsDetailErrors, DetailErrors.Error]
  · intro text htext hcomment
    refine ⟨NewComment usr text t created id, ?_, rfl, rfl⟩
    simp only [PostHandler.CreateComment, hacc, hcheck, hcomment]
    have hne : (text == "") = false := by simpa using htext
    simp only [hne]
    cases hadd : h.Repo.AddComment (r.vars "postID") (NewComment usr text t created id) with
    | mk p err => cases err <;> simp

/-- C28 at a concrete request: the post id has 24 bytes, the session check returns
"alice" and the decoded comment text is empty. -/
theorem C28_createComment_witness :
    ("abababababababababababab" : String).utf8ByteSize = 24 ∧
    PostHandler.CreateComment
        { Sess := { Check := fun _ => (⟨"alice", "u1", "pw"⟩, none) },
          Repo := { GetByID := fun _ => (none, none), DeletePost := fun _ _ => none,
                    AddComment := fun _ _ => (none, none),
                    DeleteComment := fun _ _ _ => (none, none),
                    UpvotePost := fun _ _ => (none, none),
                    DownvotePost := fun _ _ => (none, none),
                    UnvotePost := fun _ _ => (none, none) } }
        { vars := fun _ => "abababababababababababab", authorization := "Bearer tok",
          comment := Except.ok "" } 0 "" "c1"
      = { resp := { code := 422,
                    body := Json.errors [{ location := "body", param := "comment",
                                           value := none, msg := "is required" }] },
          calls := [Call.check "Bearer tok"] } :=
  ⟨by decide,
    (C28_createComment
      { Sess := { Check := fun _ => (⟨"alice", "u1", "pw"⟩, none) },
        Repo := { GetByID := fun _ => (none, none), DeletePost := fun _ _ => none,
                  AddComment := fun _ _ => (none, none),
                  DeleteComment := fun _ _ _ => (none, none),
                  UpvotePost := fun _ _ => (none, none),
                  DownvotePost := fun _ _ => (none, none),
                  UnvotePost := fun _ _ => (none, none) } }
      { vars := fun _ => "abababababababababababab", authorization := "Bearer tok",
        comment := Except.ok "" } 0 "" "c1" ⟨"alice", "u1", "pw"⟩ (by decide) rfl).1 rfl⟩

/-! ## The like counter, step by step -/

theorem countP_set {α : Type} (p : α → Bool) (xs : List α) (i : Nat) (x y : α)
    (h : xs[i]? = some x) :
    (xs.set i y).countP p + (if p x then 1 else 0) = xs.countP p + (if p y then 1 else 0) := by
  induction xs generalizing i with
  | nil => simp at h
  | cons a rest ih =>
    cases i with
    | zero =>
      simp only [List.getElem?_cons_zero, Option.some.injEq] at h
      subst h
      simp only [List.set_cons_zero, List.countP_cons]
      omega
    | succ k =>
      have hk : rest[k]? = some x := by simpa using h
      have := ih k hk
      simp only [List.set_cons_succ, List.countP_cons]
      omega

theorem set_self_of_getElem? {α : Type} (xs : List α) (i : Nat) (x : α)
    (h : xs[i]? = some x) : xs.set i x = xs := by
  apply List.ext_getElem?
  intro j
  by_cases hj : j = i
  · subst hj
    rw [getElem?_set_self_of_some xs j x x h, h]
  · exact getElem?_set_other xs i j x hj

theorem firstEntryOf_unique {userID : String} {votes : List Vote} {i j : Nat} {v w : Vote}
    (h1 : FirstEntryOf userID votes i v) (h2 : FirstEntryOf userID votes j w) :
    i = j ∧ v = w := by
  have e1 := (rangeFind_userID_eq_some_iff userID votes i v).2 h1
  have e2 := (rangeFind_userID_eq_some_iff userID votes j w).2 h2
  rw [e1] at e2
  simpa using e2

theorem likeEntries_append (votes : List Vote) (v : Vote) :
    likeEntries (votes ++ [v]) = likeEntries votes + (if v.Value == Like then 1 else 0) := by
  simp [likeEntries, List.countP_append, List.countP_cons]

/-- C29: on an initialized vote list whose LikesCount equals its number of Like entries,
`Downvote` and `Unvote` keep that equality; `Upvote` keeps it exactly when the first
entry of the user id, if there is one, is not Like; when that entry is Like, `Upvote`
leaves the entries as they are and LikesCount ends one above the number of Like
entries. -/
theorem C29_likes_count_steps (l : VoteList) (votes : List Vote) (userID : String)
    (hinit : l.List = some votes) (hinv : l.LikesCount = likeEntries votes) :
    (∃ votes1, (l.Downvote userID).1.List = some votes1 ∧
      (l.Downvote userID).1.LikesCount = likeEntries votes1) ∧
    (∃ votes1, (l.Unvote userID).1.List = some votes1 ∧
      (l.Unvote userID).1.LikesCount = likeEntries votes1) ∧
    ((∃ votes1, (l.Upvote userID).1.List = some votes1 ∧
        (l.Upvote userID).1.LikesCount = likeEntries votes1)
      ↔ ∀ i v, FirstEntryOf userID votes i v → v.Value ≠ Like) ∧
    (∀ i v, FirstEntryOf userID votes i v → v.Value = Like →
      (l.Upvote userID).1.List = some votes ∧
      (l.Upvote userID).1.LikesCount = likeEntries votes + 1) := by
  have hDL : (Dislike == Like) = false := by decide
  have hLL : (Like == Like) = true := by decide
  rcases absent_or_firstEntry userID votes with habs | ⟨i0, v0, hfirst⟩
  · have hno : ∀ i v, FirstEntryOf userID votes i v → False := fun i v hv =>
      habs v (List.getElem?_mem hv.1) hv.2.1
    rw [downvote_absent hinit habs, unvote_absent hinit habs, upvote_absent hinit habs]
    refine ⟨⟨_, rfl, ?_⟩, ⟨votes, hinit, hinv⟩, ?_, fun i v hv => (hno i v hv).elim⟩
    · show l.LikesCount = (likeEntries (votes ++ [{ UserID := userID, Value := Dislike }]) : Int)
      rw [likeEntries_append, hinv]
      simp [hDL]
    · constructor
      · intro _ i v hv
        exact (hno i v hv).elim
      · intro _
        refine ⟨_, rfl, ?_⟩
        show l.LikesCount + 1
          = (likeEntries (votes ++ [{ UserID := userID, Value := Like }]) : Int)
        rw [likeEntries_append, hinv]
        simp [hLL]
  · have hne : votes ≠ [] := nonempty_of_getElem?_eq_some hfirst.1
    have hperm := set_getLast_dropLast_perm votes i0 v0 hfirst.1 hne
    have hsetD := countP_set (fun v => v.Value == Like) votes i0 v0
      { v0 with Value := Dislike } hfirst.1
    have hsetL := countP_set (fun v => v.Value == Like) votes i0 v0
      { v0 with Value := Like } hfirst.1
    simp only [hDL, hLL, if_true, Bool.false_eq_true, if_false, Nat.add_zero] at hsetD hsetL
    have hcount : likeEntries votes
        = (if v0.Value == Like then 1 else 0)
          + likeEntries ((votes.set i0 (votes.getLast hne)).dropLast) := by
      have := hperm.countP_eq (fun v => v.Value == Like)
      simp only [List.countP_cons] at this
      unfold likeEntries
      omega
    rw [downvote_present hinit hfirst, unvote_present_dropLast hinit hfirst,
      upvote_present hinit hfirst]
    by_cases hlike : v0.Value = Like
    · have hb : (v0.Value == Like) = true := by simpa using hlike
      simp only [hb, if_true] at hsetD hsetL hcount
      have hsame : votes.set i0 { v0 with Value := Like } = votes := by
        have hv0 : ({ v0 with Value := Like } : Vote) = v0 := by
          cases v0
          simp_all
        rw [hv0]
        exact set_self_of_getElem? votes i0 v0 hfirst.1
      refine ⟨⟨_, rfl, ?_⟩, ⟨_, rfl, ?_⟩, ?_, ?_⟩
      · show (if v0.Value = Like then l.LikesCount - 1 else l.LikesCount)
          = (likeEntries (votes.set i0 { v0 with Value := Dislike }) : Int)
        simp only [hlike, if_true, hinv]
        unfold likeEntries at *
        omega
      · show (if v0.Value = Like then l.LikesCount - 1 else l.LikesCount)
          = (likeEntries ((votes.set i0 (votes.getLast hne)).dropLast) : Int)
        simp only [hlike, if_true, hinv]
        omega
      · constructor
        · rintro ⟨votes1, h1, h2⟩
          simp only [Option.some.injEq] at h1
          subst h1
          rw [hsame] at h2
          simp only [hinv] at h2
          omega
        · intro hall
          exact absurd hlike (hall i0 v0 hfirst)
      · intro i v hv _
        obtain ⟨rfl, rfl⟩ := firstEntryOf_unique hfirst hv
        exact ⟨by rw [hsame], by rw [hinv]⟩
    · have hb : (v0.Value == Like) = false := by simpa using hlike
      simp only [hb, Bool.false_eq_true, if_false, Nat.add_zero, Nat.zero_add]
        at hsetD hsetL hcount
      refine ⟨⟨_, rfl, ?_⟩, ⟨_, rfl, ?_⟩, ?_, ?_⟩
      · show (if v0.Value = Like then l.LikesCount - 1 else l.LikesCount)
          = (likeEntries (votes.set i0 { v0 with Value := Dislike }) : Int)
        simp only [hlike, if_false, hinv]
        unfold likeEntries at *
        omega
      · show (if v0.Value = Like then l.LikesCount - 1 else l.LikesCount)
          = (likeEntries ((votes.set i0 (votes.getLast hne)).dropLast) : Int)
        simp only [hlike, if_false, hinv]
        omega
      · constructor
        · intro _ i v hv
          obtain ⟨rfl, rfl⟩ := firstEntryOf_unique hfirst hv
          exact hlike
        · intro _
          refine ⟨_, rfl, ?_⟩
          show l.LikesCount + 1
            = (likeEntries (votes.set i0 { v0 with Value := Like }) : Int)
          rw [hinv]
          unfold likeEntries at *
          omega
      · intro i v hv hv2
        obtain ⟨rfl, rfl⟩ := firstEntryOf_unique hfirst hv
        exact absurd hv2 hlike

/-- C29 at a concrete list: "u1" upvotes the list [("u1", Like)], whose LikesCount is 1;
the entries stay and LikesCount becomes 2. -/
theorem C29_likes_count_steps_witness :
    ({ List := some [{ UserID := "u1", Value := Like }], LikesCount := 1 } : VoteList).LikesCount
      = likeEntries [{ UserID := "u1", Value := Like }] ∧
    FirstEntryOf "u1" [{ UserID := "u1", Value := Like }] 0 { UserID := "u1", Value := Like } ∧
    (({ List := some [{ UserID := "u1", Value := Like }], LikesCount := 1 } : VoteList).Upvote
        "u1").1.List = some [{ UserID := "u1", Value := Like }] ∧
    (({ List := some [{ UserID := "u1", Value := Like }], LikesCount := 1 } : VoteList).Upvote
        "u1").1.LikesCount = likeEntries [{ UserID := "u1", Value := Like }] + 1 :=
  have hfirst : FirstEntryOf "u1" [{ UserID := "u1", Value := Like }] 0
      { UserID := "u1", Value := Like } :=
    ⟨rfl, rfl, fun j hj => absurd hj (Nat.not_lt_zero j)⟩
  ⟨by decide, hfirst,
    (C29_likes_count_steps { List := some [{ UserID := "u1", Value := Like }], LikesCount := 1 }
      [{ UserID := "u1", Value := Like }] "u1" rfl (by decide)).2.2.2 0 _ hfirst rfl⟩

/-! ## Score and percentage of a list of likes and dislikes -/

theorem len_eq_entries (l : VoteList) : l.len = (entriesOf l).length := by
  unfold VoteList.len entriesOf
  cases l.List <;> rfl

theorem like_add_dislike (votes : List Vote)
    (h : ∀ v ∈ votes, v.Value = Like ∨ v.Value = Dislike) :
    likeEntries votes + dislikeEntries votes = votes.length := by
  induction votes with
  | nil => rfl
  | cons v rest ih =>
    have ih2 := ih (fun w hw => h w (List.mem_cons_of_mem v hw))
    unfold likeEntries dislikeEntries at *
    simp only [List.countP_cons, List.length_cons]
    rcases h v (List.mem_cons_self v rest) with hv | hv
    · have h1 : (v.Value == Like) = true := by simpa using hv
      have h2 : (v.Value == Dislike) = false := by rw [hv]; decide
      simp only [h1, h2, if_true, Bool.false_eq_true, if_false]
      omega
    · have h1 : (v.Value == Like) = false := by rw [hv]; decide
      have h2 : (v.Value == Dislike) = true := by simpa using hv
      simp only [h1, h2, if_true, Bool.false_eq_true, if_false]
      omega

theorem dislikeEntries_eq_zero_iff (votes : List Vote) :
    dislikeEntries votes = 0 ↔ ∀ v ∈ votes, v.Value ≠ Dislike := by
  unfold dislikeEntries
  rw [List.countP_eq_zero]
  simp

theorem percent_facts (likes n : Nat) (hn : 0 < n) (hle : likes ≤ n) :
    likes * 100 / n ≤ 100 ∧ (likes * 100 / n = 100 ↔ likes = n) := by
  have hbound : likes * 100 / n ≤ 100 := Nat.div_le_of_le_mul (by nlinarith)
  refine ⟨hbound, ?_⟩
  constructor
  · intro h
    by_contra hne
    have hlt : likes < n := Nat.lt_of_le_of_ne hle hne
    have : likes * 100 / n < 100 := Nat.div_lt_of_lt_mul (by nlinarith)
    omega
  · intro h
    subst h
    exact Nat.mul_div_cancel_left 100 hn

/-- C30: for a post whose vote entries all have the value Like or Dislike and whose
LikesCount equals the number of Like entries, `updatePostScore` sets Score to the number
of Like entries minus the number of Dislike entries, which lies between -len(Votes.List)
and len(Votes.List), and sets LikesPercent to a value between 0 and 100 that is 100
exactly when the list is not empty and has no Dislike entry. -/
theorem C30_score_and_percent_bounds (p : Post)
    (hvals : ∀ v ∈ entriesOf p.Votes, v.Value = Like ∨ v.Value = Dislike)
    (hinv : p.Votes.LikesCount = likeEntries (entriesOf p.Votes)) :
    p.updatePostScore.Score
      = (likeEntries (entriesOf p.Votes) : Int) - dislikeEntries (entriesOf p.Votes) ∧
    -(p.Votes.len : Int) ≤ p.updatePostScore.Score ∧
    p.updatePostScore.Score ≤ p.Votes.len ∧
    0 ≤ p.updatePostScore.LikesPercent ∧
    p.updatePostScore.LikesPercent ≤ 100 ∧
    (p.updatePostScore.LikesPercent = 100 ↔
      entriesOf p.Votes ≠ [] ∧ ∀ v ∈ entriesOf p.Votes, v.Value ≠ Dislike) := by
  have hlen := len_eq_entries p.Votes
  have hsum := like_add_dislike (entriesOf p.Votes) hvals
  have hzero := dislikeEntries_eq_zero_iff (entriesOf p.Votes)
  have hscore : p.updatePostScore.Score = 2 * p.Votes.LikesCount - (p.Votes.len : Int) := by
    unfold Post.updatePostScore
    by_cases h0 : p.Votes.len = 0 <;> simp [h0]
  have hnil : entriesOf p.Votes = [] ↔ (entriesOf p.Votes).length = 0 :=
    List.length_eq_zero.symm
  refine ⟨by rw [hscore, hinv, hlen]; omega, by rw [hscore, hinv, hlen]; omega,
    by rw [hscore, hinv, hlen]; omega, ?_⟩
  by_cases h0 : p.Votes.len = 0
  · have hpct : p.updatePostScore.LikesPercent = 0 := by
      unfold Post.updatePostScore
      simp [h0]
    rw [hpct]
    refine ⟨le_refl 0, by norm_num, ?_⟩
    constructor
    · intro h
      norm_num at h
    · rintro ⟨hne, _⟩
      exact absurd (hnil.2 (by omega)) hne
  · have hpos : 0 < (entriesOf p.Votes).length := by omega
    have hle : likeEntries (entriesOf p.Votes) ≤ (entriesOf p.Votes).length := by omega
    have hpct : p.updatePostScore.LikesPercent
        = ((likeEntries (entriesOf p.Votes) * 100 / (entriesOf p.Votes).length : Nat) : Int) := by
      have hraw : p.updatePostScore.LikesPercent
          = (p.Votes.LikesCount * 100).tdiv (p.Votes.len : Int) := by
        unfold Post.updatePostScore
        simp [h0]
      rw [hraw, hinv, hlen, Int.ofNat_tdiv]
      push_cast
      rfl
    obtain ⟨hb, hiff⟩ := percent_facts _ _ hpos hle
    rw [hpct]
    refine ⟨by positivity, by exact_mod_cast hb, ?_⟩
    constructor
    · intro h
      have h100 : likeEntries (entriesOf p.Votes) * 100 / (entriesOf p.Votes).length = 100 := by
        exact_mod_cast h
      have heq := hiff.1 h100
      refine ⟨fun hempty => by rw [hnil.1 hempty] at hpos; omega, hzero.1 (by omega)⟩
    · rintro ⟨_, hno⟩
      have hd := hzero.2 hno
      have heq : likeEntries (entriesOf p.Votes) = (entriesOf p.Votes).length := by omega
      exact_mod_cast hiff.2 heq

/-- C30 at a concrete post: the post that "u1" has just created, with its one Like
entry. -/
theorem C30_score_and_percent_bounds_witness :
    (∀ v ∈ entriesOf (NewPost ⟨"alice", "u1", "pw"⟩ 0 "" "p1").Votes,
      v.Value = Like ∨ v.Value = Dislike) ∧
    (NewPost ⟨"alice", "u1", "pw"⟩ 0 "" "p1").Votes.LikesCount
      = likeEntries (entriesOf (NewPost ⟨"alice", "u1", "pw"⟩ 0 "" "p1").Votes) ∧
    (NewPost ⟨"alice", "u1", "pw"⟩ 0 "" "p1").updatePostScore.LikesPercent ≤ 100 :=
  have hvals : ∀ v ∈ entriesOf (NewPost ⟨"alice", "u1", "pw"⟩ 0 "" "p1").Votes,
      v.Value = Like ∨ v.Value = Dislike := by
    intro v hv
    have hv2 : v = { UserID := "u1", Value := Like } := List.mem_singleton.1 hv
    exact Or.inl (by rw [hv2])
  ⟨hvals, by decide,
    (C30_score_and_percent_bounds (NewPost ⟨"alice", "u1", "pw"⟩ 0 "" "p1") hvals
      (by decide)).2.2.2.2.1⟩

end Asperitas
